import Mathlib

/-!
# The post aggregate of the reddit backend: votes, score, upvote percentage

A shallow embedding of `pkg/vote`, `pkg/user`, `pkg/comment`, of the business
logic of `pkg/post/repo.go` and of the repository of `pkg/post/repo_mongo.go`,
of the session managers of `pkg/session`, of the user repository of `pkg/user`
and of the handlers of `pkg/handlers`, followed by the properties of the vote
transitions (`UpVote`, `DownVote`, `UnVote`), of `AddPost`, `GetPostByID`,
`AddComment`, `DeleteComment` and `DeletePost`, of the sessions, of `Login` and
`Register`, and of the responses of the handlers.

Conventions of the embedding.

* Go `int` is `Int` (scores, counts and views stay far from the bounds of a
  64-bit integer, and no wrap-around is modelled), Go `string` is `String`, a
  slice of pointers is a `List` of values; an assignment through a pointer held
  by a slice (`currentVote.Value = 1`) is the replacement of that element of
  the list.
* A pointer of the source (`*Post`, `*user.User`, `*vote.Vote`) is the value
  it points to; none is nil.
* `PostDBRepository` is the Go interface of the same name. The store behind it
  is a value of an arbitrary type `σ` that the mutating methods thread through;
  the lookups only read it.
* `PostDBRepo` is the implementation of that interface over `CollectionHelper`;
  the errors of the driver are their messages, and become `PostError.other`.
* A method returning `(*Post, error)` returns a `GoResult Post` together with
  the store after the call. The integer division by zero of Go is the third
  outcome `GoResult.runtimePanic`.
* The read-write mutex of `PostBusinessLogic` only serialises the calls; the
  embedding is of one call at a time.
* A handler takes the `http.ResponseWriter` as the list of the calls of
  `response.WriteResponse` made so far and returns the list after its own
  calls; the calls of the logger are left out.
-/

namespace Reddit

/-! ## Data model -/

/-- The struct `vote.Vote`. -/
structure Vote where
  Value : Int
  UserID : String
deriving DecidableEq, Repr

/-- The constructor `vote.NewVote`. -/
def NewVote (value : Int) (userID : String) : Vote :=
  { Value := value, UserID := userID }

/-- The struct `user.User`. -/
structure User where
  ID : String
  Username : String
  password : String
deriving DecidableEq, Repr

/-- The struct `comment.Comment`. -/
structure Comment where
  Created : String
  Author : User
  Body : String
  ID : String
deriving DecidableEq, Repr

/-- The type `primitive.ObjectID`, kept as its hexadecimal form. -/
structure ObjectID where
  hex : String
deriving DecidableEq, Repr

/-- The struct `post.Post`; the field `Type` of the source is `Type_` here. -/
structure Post where
  Score : Int
  Views : Int
  Type_ : String
  Title : String
  URL : String
  Author : User
  Category : String
  Text : String
  Votes : List Vote
  Comments : List Comment
  Created : String
  UpvotePercentage : Int
  ID : ObjectID
deriving DecidableEq, Repr

/-- The error values of `pkg/post` (`ErrNoPost`, `ErrNoAccess`, `ErrNoComment`)
and any other error a store can return. -/
inductive PostError where
  | ErrNoPost
  | ErrNoAccess
  | ErrNoComment
  | other (msg : String)
deriving DecidableEq, Repr

/-- The outcome of a Go call of result type `(T, error)`: `ok v` is `(v, nil)`,
`error e` is `(nil, e)`, and `runtimePanic` is a run-time panic (here: integer
division by zero). -/
inductive GoResult (α : Type) where
  | ok (value : α)
  | error (err : PostError)
  | runtimePanic
deriving DecidableEq, Repr

/-- The interface `PostDBRepository` over a store of type `σ`. A method of
result type `error` returns `none` for `nil`. `AddPostDB` returns the object id
it assigned to the post: `post.ID = primitive.NewObjectID()` is the only
assignment `PostDBRepo.AddPostDB` makes through its pointer argument. -/
structure PostDBRepository (σ : Type) where
  IncreasePostViewsDB : Post → String → σ → Option PostError × σ
  GetPostByCategoryDB : String → σ → Except PostError (List Post)
  AddPostDB : Post → σ → (ObjectID × Option PostError) × σ
  GetAllPostsDB : σ → Except PostError (List Post)
  AddCommentDB : Post → String → σ → Option PostError × σ
  DeleteCommentDB : Post → String → σ → Option PostError × σ
  GetPostByIDDB : String → σ → Except PostError Post
  SetPostDB : Post → String → σ → Option PostError × σ
  GetPostByUsernameDB : String → σ → Except PostError (List Post)
  DeletePostDB : String → σ → (Bool × Option PostError) × σ

/-- The struct `PostBusinessLogic`: the repository and the injected id
generator (`GenerateID(n)`). -/
structure PostBusinessLogic (σ : Type) where
  PostDBRepo : PostDBRepository σ
  generatorID : Nat → String

/-! ## Control flow helpers -/

/-- A Go loop `for i, x := range xs { ... }` whose body may return early.
`body seen x rest` is the body at the element `x` that stands after `seen`
(so `i = seen.length`) and before `rest`; `none` means that the body fell
through to the next iteration, `some r` that it returned `r`. The result is
`none` when the loop ran to its end. -/
def rangeLoop {α β : Type} (body : List α → α → List α → Option β) :
    List α → List α → Option β
  | _, [] => none
  | seen, x :: rest =>
    match body seen x rest with
    | some r => some r
    | none => rangeLoop body (seen ++ [x]) rest

/-! ## pkg/post/repo.go -/

/-- The function `countUpVotePercentage`: `100 * numOfUpVotes / len(Votes)`
with Go's truncating division, a run-time panic (`none`) when the slice is
empty. -/
def countUpVotePercentage (postToCount : Post) : Option Int :=
  let numOfUpVotes : Int :=
    postToCount.Votes.foldl (fun n currentVote => if currentVote.Value = 1 then n + 1 else n) 0
  if postToCount.Votes.length = 0 then none
  else some (Int.tdiv (100 * numOfUpVotes) (postToCount.Votes.length : Int))

/-- The method `findPostByID`. -/
def PostBusinessLogic.findPostByID {σ : Type} (p : PostBusinessLogic σ) (id : String) (st : σ) :
    Except PostError Post :=
  p.PostDBRepo.GetPostByIDDB id st

/-- The end of every changing path of the vote methods:
`err = p.PostDBRepo.SetPostDB(post, postID)`, then `return nil, err` on an
error and `return post, nil` otherwise. -/
def PostBusinessLogic.setAndReturn {σ : Type} (p : PostBusinessLogic σ) (post : Post)
    (postID : String) (st : σ) : GoResult Post × σ :=
  match p.PostDBRepo.SetPostDB post postID st with
  | (some err, st') => (GoResult.error err, st')
  | (none, st') => (GoResult.ok post, st')

/-- The statement `post.UpvotePercentage = countUpVotePercentage(post)` followed
by the store write and the return. -/
def PostBusinessLogic.recountSetAndReturn {σ : Type} (p : PostBusinessLogic σ) (post : Post)
    (postID : String) (st : σ) : GoResult Post × σ :=
  match countUpVotePercentage post with
  | none => (GoResult.runtimePanic, st)
  | some percentage => p.setAndReturn { post with UpvotePercentage := percentage } postID st

/-- The body of the loop of `UpVote` at `currentVote`. -/
def PostBusinessLogic.upVoteBody {σ : Type} (p : PostBusinessLogic σ) (postToUpvote : Post)
    (postID userID : String) (st : σ) (seen : List Vote) (currentVote : Vote)
    (rest : List Vote) : Option (GoResult Post × σ) :=
  if currentVote.UserID = userID then
    if currentVote.Value = -1 then
      some (p.recountSetAndReturn
        { postToUpvote with
          Votes := seen ++ { currentVote with Value := 1 } :: rest
          Score := postToUpvote.Score + 2 } postID st)
    else some (GoResult.ok postToUpvote, st)
  else none

/-- The method `UpVote`. -/
def PostBusinessLogic.UpVote {σ : Type} (p : PostBusinessLogic σ) (postID userID : String)
    (st : σ) : GoResult Post × σ :=
  match p.findPostByID postID st with
  | Except.error err => (GoResult.error err, st)
  | Except.ok postToUpvote =>
    match rangeLoop (p.upVoteBody postToUpvote postID userID st) [] postToUpvote.Votes with
    | some r => r
    | none =>
      p.recountSetAndReturn
        { postToUpvote with
          Votes := postToUpvote.Votes ++ [NewVote 1 userID]
          Score := postToUpvote.Score + 1 } postID st

/-- The body of the loop of `DownVote` at `currentVote`. -/
def PostBusinessLogic.downVoteBody {σ : Type} (p : PostBusinessLogic σ) (postToDownvote : Post)
    (postID userID : String) (st : σ) (seen : List Vote) (currentVote : Vote)
    (rest : List Vote) : Option (GoResult Post × σ) :=
  if currentVote.UserID = userID then
    if currentVote.Value = 1 then
      some (p.recountSetAndReturn
        { postToDownvote with
          Score := postToDownvote.Score - 2
          Votes := seen ++ { currentVote with Value := -1 } :: rest } postID st)
    else some (GoResult.ok postToDownvote, st)
  else none

/-- The method `DownVote`. -/
def PostBusinessLogic.DownVote {σ : Type} (p : PostBusinessLogic σ) (postID userID : String)
    (st : σ) : GoResult Post × σ :=
  match p.findPostByID postID st with
  | Except.error err => (GoResult.error err, st)
  | Except.ok postToDownvote =>
    match rangeLoop (p.downVoteBody postToDownvote postID userID st) [] postToDownvote.Votes with
    | some r => r
    | none =>
      p.recountSetAndReturn
        { postToDownvote with
          Votes := postToDownvote.Votes ++ [NewVote (-1) userID]
          Score := postToDownvote.Score - 1 } postID st

/-- The body of the loop of `UnVote` at `currentVote`:
`append(Votes[:i], Votes[i+1:]...)` is `seen ++ rest`. -/
def PostBusinessLogic.unVoteBody {σ : Type} (p : PostBusinessLogic σ) (postToUnvote : Post)
    (postID userID : String) (st : σ) (seen : List Vote) (currentVote : Vote)
    (rest : List Vote) : Option (GoResult Post × σ) :=
  if currentVote.UserID = userID then
    let removed : Post := { postToUnvote with Votes := seen ++ rest }
    if removed.Votes.length = 0 then
      some (p.setAndReturn { removed with Score := 0, UpvotePercentage := 0 } postID st)
    else if currentVote.Value = 1 then
      some (p.recountSetAndReturn { removed with Score := removed.Score - 1 } postID st)
    else
      some (p.recountSetAndReturn { removed with Score := removed.Score + 1 } postID st)
  else none

/-- The method `UnVote`. -/
def PostBusinessLogic.UnVote {σ : Type} (p : PostBusinessLogic σ) (postID userID : String)
    (st : σ) : GoResult Post × σ :=
  match p.findPostByID postID st with
  | Except.error _ => (GoResult.error PostError.ErrNoPost, st)
  | Except.ok postToUnvote =>
    match rangeLoop (p.unVoteBody postToUnvote postID userID st) [] postToUnvote.Votes with
    | some r => r
    | none => (GoResult.ok postToUnvote, st)

/-- The method `AddPost`; `created` is the value of `getTimeOfCreation()`. -/
def PostBusinessLogic.AddPost {σ : Type} (p : PostBusinessLogic σ) (created : String)
    (post : Post) (author : User) (st : σ) : GoResult Post × σ :=
  let post1 : Post := { post with Author := author, Votes := [{ Value := 1, UserID := author.ID }] }
  let post2 : Post := if post1.Type_ = "text" then { post1 with URL := "" } else { post1 with Text := "" }
  let post3 : Post :=
    { post2 with Views := 0, Comments := [], Created := created, UpvotePercentage := 100, Score := 1 }
  match p.PostDBRepo.AddPostDB post3 st with
  | ((_, some err), st') => (GoResult.error err, st')
  | ((objectID, none), st') => (GoResult.ok { post3 with ID := objectID }, st')

/-- The method `GetPostByID`: `post.Views++`, then the write of the counter. -/
def PostBusinessLogic.GetPostByID {σ : Type} (p : PostBusinessLogic σ) (id : String) (st : σ) :
    GoResult Post × σ :=
  match p.findPostByID id st with
  | Except.error err => (GoResult.error err, st)
  | Except.ok post =>
    let post1 : Post := { post with Views := post.Views + 1 }
    match p.PostDBRepo.IncreasePostViewsDB post1 id st with
    | (some err, st') => (GoResult.error err, st')
    | (none, st') => (GoResult.ok post1, st')

/-- The method `AddComment`; `created` is the value of `getTimeOfCreation()`. -/
def PostBusinessLogic.AddComment {σ : Type} (p : PostBusinessLogic σ) (created : String)
    (commentBody : String) (author : User) (postID : String) (st : σ) : GoResult Post × σ :=
  match p.findPostByID postID st with
  | Except.error err => (GoResult.error err, st)
  | Except.ok post =>
    let newComment : Comment :=
      { Created := created, Author := author, Body := commentBody, ID := p.generatorID 16 }
    let post1 : Post := { post with Comments := post.Comments ++ [newComment] }
    match p.PostDBRepo.AddCommentDB post1 postID st with
    | (some err, st') => (GoResult.error err, st')
    | (none, st') => (GoResult.ok post1, st')

/-- The body of the loop of `DeleteComment` at `currentComment`:
`append(Comments[:i], Comments[i+1:]...)` is `seen ++ rest`. -/
def PostBusinessLogic.deleteCommentBody {σ : Type} (p : PostBusinessLogic σ)
    (postWithCommentToDelete : Post) (userID postID commentID : String) (st : σ)
    (seen : List Comment) (currentComment : Comment) (rest : List Comment) :
    Option (GoResult Post × σ) :=
  if currentComment.ID = commentID then
    if currentComment.Author.ID ≠ userID then
      some (GoResult.error PostError.ErrNoAccess, st)
    else
      let post1 : Post := { postWithCommentToDelete with Comments := seen ++ rest }
      match p.PostDBRepo.DeleteCommentDB post1 postID st with
      | (some err, st') => some (GoResult.error err, st')
      | (none, st') => some (GoResult.ok post1, st')
  else none

/-- The method `DeleteComment`. -/
def PostBusinessLogic.DeleteComment {σ : Type} (p : PostBusinessLogic σ)
    (userID postID commentID : String) (st : σ) : GoResult Post × σ :=
  match p.findPostByID postID st with
  | Except.error _ => (GoResult.error PostError.ErrNoPost, st)
  | Except.ok postWithCommentToDelete =>
    match rangeLoop (p.deleteCommentBody postWithCommentToDelete userID postID commentID st) []
        postWithCommentToDelete.Comments with
    | some r => r
    | none => (GoResult.error PostError.ErrNoComment, st)

/-- The method `DeletePost`, of result type `(bool, error)`. -/
def PostBusinessLogic.DeletePost {σ : Type} (p : PostBusinessLogic σ) (userID postID : String)
    (st : σ) : (Bool × Option PostError) × σ :=
  match p.findPostByID postID st with
  | Except.error _ => ((false, some PostError.ErrNoPost), st)
  | Except.ok postToDelete =>
    if postToDelete.Author.ID ≠ userID then ((false, some PostError.ErrNoAccess), st)
    else p.PostDBRepo.DeletePostDB postID st

/-- The constructor `NewPostBusinessLogic`. -/
def NewPostBusinessLogic {σ : Type} (repo : PostDBRepository σ) (idGenerator : Nat → String) :
    PostBusinessLogic σ :=
  { PostDBRepo := repo, generatorID := idGenerator }

/-! ## pkg/post/repo_mongo.go -/

/-- The filters that `PostDBRepo` passes to `Find`: `bson.M{}`,
`bson.M{"category": c}` and `bson.M{"author.username": u}`. -/
inductive FindFilter where
  | all
  | category (category : String)
  | authorUsername (userName : String)
deriving DecidableEq, Repr

/-- The updates that `PostDBRepo` passes to `UpdateOne`:
`$set {"views": n}`, `$set {"comments": cs}` and `$set post`. -/
inductive Update where
  | setViews (views : Int)
  | setComments (comments : List Comment)
  | setPost (post : Post)
deriving DecidableEq, Repr

/-- The interface `CollectionHelper` over a store of type `σ`, as `PostDBRepo`
uses it: every filter but that of `Find` is `bson.M{"_id": id}`. An error of the
driver is its message; `Find` stands for `Find` followed by `cursor.All`,
`FindOne` for `FindOne` followed by `Decode` into a fresh `Post`, and `DeleteOne`
returns the deleted count. -/
structure CollectionHelper (σ : Type) where
  Find : FindFilter → σ → Except String (List Post)
  FindOne : ObjectID → σ → Except String Post
  InsertOne : Post → σ → Option String × σ
  DeleteOne : ObjectID → σ → (Int × Option String) × σ
  UpdateOne : ObjectID → Update → σ → Option String × σ

/-- The struct `PostDBRepo` with the two functions of the driver's package
`primitive` that it calls: `ObjectIDFromHex` (`none` when the string is not the
hexadecimal form of an object id) and `NewObjectID`. -/
structure PostDBRepo (σ : Type) where
  Posts : CollectionHelper σ
  ObjectIDFromHex : String → Option ObjectID
  NewObjectID : σ → ObjectID

/-- The function `getMongoID`: any error of the parser becomes `ErrNoPost`. -/
def PostDBRepo.getMongoID {σ : Type} (r : PostDBRepo σ) (id : String) :
    Except PostError ObjectID :=
  match r.ObjectIDFromHex id with
  | none => Except.error PostError.ErrNoPost
  | some postIDMongo => Except.ok postIDMongo

/-- The method `UpdateOne` called with `_id` and an update, its error returned. -/
def PostDBRepo.updateByID {σ : Type} (r : PostDBRepo σ) (postID : String) (update : Update)
    (st : σ) : Option PostError × σ :=
  match r.getMongoID postID with
  | Except.error err => (some err, st)
  | Except.ok postIDMongo =>
    match r.Posts.UpdateOne postIDMongo update st with
    | (some msg, st') => (some (PostError.other msg), st')
    | (none, st') => (none, st')

/-- The method `PostDBRepo.IncreasePostViewsDB`. -/
def PostDBRepo.IncreasePostViewsDB {σ : Type} (r : PostDBRepo σ) (post : Post)
    (postID : String) (st : σ) : Option PostError × σ :=
  r.updateByID postID (Update.setViews post.Views) st

/-- The method `PostDBRepo.AddCommentDB`. -/
def PostDBRepo.AddCommentDB {σ : Type} (r : PostDBRepo σ) (post : Post) (postID : String)
    (st : σ) : Option PostError × σ :=
  r.updateByID postID (Update.setComments post.Comments) st

/-- The method `PostDBRepo.DeleteCommentDB`. -/
def PostDBRepo.DeleteCommentDB {σ : Type} (r : PostDBRepo σ) (postWithCommentToDelete : Post)
    (postID : String) (st : σ) : Option PostError × σ :=
  r.updateByID postID (Update.setComments postWithCommentToDelete.Comments) st

/-- The method `PostDBRepo.SetPostDB`. -/
def PostDBRepo.SetPostDB {σ : Type} (r : PostDBRepo σ) (postToSet : Post) (postID : String)
    (st : σ) : Option PostError × σ :=
  r.updateByID postID (Update.setPost postToSet) st

/-- The method `PostDBRepo.GetPostByIDDB`. -/
def PostDBRepo.GetPostByIDDB {σ : Type} (r : PostDBRepo σ) (postID : String) (st : σ) :
    Except PostError Post :=
  match r.getMongoID postID with
  | Except.error err => Except.error err
  | Except.ok postIDMongo =>
    match r.Posts.FindOne postIDMongo st with
    | Except.error msg => Except.error (PostError.other msg)
    | Except.ok post => Except.ok post

/-- The method `PostDBRepo.AddPostDB`: the object id it assigns, and the error
of `InsertOne`. -/
def PostDBRepo.AddPostDB {σ : Type} (r : PostDBRepo σ) (post : Post) (st : σ) :
    (ObjectID × Option PostError) × σ :=
  let objectID := r.NewObjectID st
  match r.Posts.InsertOne { post with ID := objectID } st with
  | (some msg, st') => ((objectID, some (PostError.other msg)), st')
  | (none, st') => ((objectID, none), st')

/-- The method `PostDBRepo.DeletePostDB`: the count of `DeleteOne` is dropped
(`_, err = p.Posts.DeleteOne(...)`). -/
def PostDBRepo.DeletePostDB {σ : Type} (r : PostDBRepo σ) (postID : String) (st : σ) :
    (Bool × Option PostError) × σ :=
  match r.getMongoID postID with
  | Except.error err => ((false, some err), st)
  | Except.ok postIDMongo =>
    match r.Posts.DeleteOne postIDMongo st with
    | ((_, some msg), st') => ((false, some (PostError.other msg)), st')
    | ((_, none), st') => ((true, none), st')

/-- The three `Find` methods of `PostDBRepo`. -/
def PostDBRepo.findAll {σ : Type} (r : PostDBRepo σ) (filter : FindFilter) (st : σ) :
    Except PostError (List Post) :=
  match r.Posts.Find filter st with
  | Except.error msg => Except.error (PostError.other msg)
  | Except.ok posts => Except.ok posts

/-- The struct `PostDBRepo` as an implementation of `PostDBRepository`. -/
def PostDBRepo.toRepository {σ : Type} (r : PostDBRepo σ) : PostDBRepository σ where
  IncreasePostViewsDB := r.IncreasePostViewsDB
  GetPostByCategoryDB := fun category st => r.findAll (FindFilter.category category) st
  AddPostDB := r.AddPostDB
  GetAllPostsDB := fun st => r.findAll FindFilter.all st
  AddCommentDB := r.AddCommentDB
  DeleteCommentDB := r.DeleteCommentDB
  GetPostByIDDB := r.GetPostByIDDB
  SetPostDB := r.SetPostDB
  GetPostByUsernameDB := fun userName st => r.findAll (FindFilter.authorUsername userName) st
  DeletePostDB := r.DeletePostDB

/-! ## pkg/session -/

/-- The struct `session.Session`. -/
structure Session where
  ID : String
  User : User
deriving DecidableEq, Repr

/-- The error `ErrNoAuth` of `pkg/session`, and any other error with its
message (of the databases, of the token library). -/
inductive SessionError where
  | ErrNoAuth
  | other (msg : String)
deriving DecidableEq, Repr

/-- The function `newSession`. -/
def newSession (user : User) (id : String) : Session :=
  { ID := id, User := user }

/-- The constant `expireTime`. -/
def expireTime : Nat := 24 * 60 * 60

/-- The struct `SessionManagerRedis` over a store of type `σ`: `Set` is
`redis.String(RedisConn.Do("SET", token, json, "EX", expireTime))`, `Get` is
`redis.String(RedisConn.Do("GET", token))`, and `Marshal`, `Unmarshal` are those
of `encoding/json` on a `Session` (`Unmarshal` is `none` on an error). -/
structure SessionManagerRedis (σ : Type) where
  Marshal : Session → Except String String
  Unmarshal : String → Option Session
  Set : String → String → Nat → σ → Except String String × σ
  Get : String → σ → Except String String

/-- The method `SessionManagerRedis.CreateSession`. When the reply is not `OK`
and there is no error, `return err` returns `nil`. -/
def SessionManagerRedis.CreateSession {σ : Type} (sm : SessionManagerRedis σ)
    (newSession : Session) (token : String) (st : σ) : Option SessionError × σ :=
  match sm.Marshal newSession with
  | Except.error msg => (some (SessionError.other msg), st)
  | Except.ok sessionJSON =>
    match sm.Set token sessionJSON expireTime st with
    | (Except.error msg, st') => (some (SessionError.other msg), st')
    | (Except.ok result, st') => if result ≠ "OK" then (none, st') else (none, st')

/-- The method `SessionManagerRedis.GetSession`, of result type
`(*Session, error)`. -/
def SessionManagerRedis.GetSession {σ : Type} (sm : SessionManagerRedis σ) (inToken : String)
    (st : σ) : Option Session × Option SessionError :=
  match sm.Get inToken st with
  | Except.error _ => (none, some SessionError.ErrNoAuth)
  | Except.ok sessFromRedis =>
    match sm.Unmarshal sessFromRedis with
    | none => (none, some SessionError.ErrNoAuth)
    | some sess => (some sess, none)

/-- The struct `SessionManagerMysql` over a store of type `σ`: `Exec` is the
`INSERT INTO sessions` with the token and the user id, `QueryRow` the `SELECT`
by token followed by `Scan`, giving the token, the id and the username of the
row or the error of the database. -/
structure SessionManagerMysql (σ : Type) where
  Exec : String → String → σ → Option String × σ
  QueryRow : String → σ → Except String (String × String × String)

/-- The method `SessionManagerMysql.CreateSession`. -/
def SessionManagerMysql.CreateSession {σ : Type} (sm : SessionManagerMysql σ)
    (newSession : Session) (token : String) (st : σ) : Option SessionError × σ :=
  match sm.Exec token newSession.User.ID st with
  | (some msg, st') => (some (SessionError.other msg), st')
  | (none, st') => (none, st')

/-- The method `SessionManagerMysql.GetSession`: every error of the query,
`sql.ErrNoRows` or another, becomes `ErrNoAuth`. -/
def SessionManagerMysql.GetSession {σ : Type} (sm : SessionManagerMysql σ) (inToken : String)
    (st : σ) : Option Session × Option SessionError :=
  match sm.QueryRow inToken st with
  | Except.error _ => (none, some SessionError.ErrNoAuth)
  | Except.ok (token, id, username) =>
    (some { ID := token, User := { ID := id, Username := username, password := "" } }, none)

/-- The struct `SessionManagerDB`: the durable tier and the cache tier. -/
structure SessionManagerDB (σ : Type) where
  SessionManagerMS : SessionManagerMysql σ
  SessionManagerRDS : SessionManagerRedis σ

/-- The method `SessionManagerDB.CreateSessionDB`. -/
def SessionManagerDB.CreateSessionDB {σ : Type} (sm : SessionManagerDB σ) (newSession : Session)
    (token : String) (st : σ) : Option SessionError × σ :=
  match sm.SessionManagerRDS.CreateSession newSession token st with
  | (_, st1) => sm.SessionManagerMS.CreateSession newSession token st1

/-- The method `SessionManagerDB.GetSessionDB`. -/
def SessionManagerDB.GetSessionDB {σ : Type} (sm : SessionManagerDB σ) (inToken : String)
    (st : σ) : Option Session × Option SessionError :=
  match sm.SessionManagerRDS.GetSession inToken st with
  | (some sess, none) => (some sess, none)
  | _ =>
    match sm.SessionManagerMS.GetSession inToken st with
    | (_, some err) => (none, some err)
    | (sess, none) => (sess, none)

/-- The interface `SessionManagerDataBase`. -/
structure SessionManagerDataBase (σ : Type) where
  CreateSessionDB : Session → String → σ → Option SessionError × σ
  GetSessionDB : String → σ → Option Session × Option SessionError

/-- The struct `SessionManagerDB` as an implementation of
`SessionManagerDataBase`. -/
def SessionManagerDB.toDataBase {σ : Type} (sm : SessionManagerDB σ) :
    SessionManagerDataBase σ where
  CreateSessionDB := sm.CreateSessionDB
  GetSessionDB := sm.GetSessionDB

/-- The signing method of a token: a `*jwt.SigningMethodHMAC` with its `Alg()`,
or a method of another type. -/
inductive SigningMethod where
  | hmac (alg : String)
  | otherMethod (alg : String)
deriving DecidableEq, Repr

/-- The struct `jwt.Token` after the decoding of the token string. -/
structure JwtToken where
  Method : SigningMethod
  Claims : String
  Signature : String
  Valid : Bool
deriving DecidableEq, Repr

/-- The token library as the session manager uses it: `Decode` splits and
decodes the token string and looks up the method of its header (`none` when the
string is malformed), `ClaimsValid` is the validation of the time claims
(expiry among them), `Verify` the verification of the signature with a key, and
`SignedString` signs the claims `user`, `iat`, `exp` with a key. -/
structure JwtLibrary where
  Decode : String → Option JwtToken
  ClaimsValid : JwtToken → Bool
  Verify : JwtToken → String → Bool
  SignedString : User → Int → Int → String → Except String String

/-- The function `jwt.Parse` of the library: the token is decoded, the key
function is called, the claims are validated and the signature is verified;
any failure is an error, and the returned token is valid. -/
def JwtLibrary.Parse (jwt : JwtLibrary) (tokenString : String)
    (keyFunc : JwtToken → Except String String) : Except String JwtToken :=
  match jwt.Decode tokenString with
  | none => Except.error "token contains an invalid number of segments"
  | some token =>
    match keyFunc token with
    | Except.error msg => Except.error msg
    | Except.ok key =>
      if jwt.ClaimsValid token && jwt.Verify token key then
        Except.ok { token with Valid := true }
      else Except.error "token is invalid"

/-- The struct `SessionManager`, with the token library it calls. -/
structure SessionManager (σ : Type) where
  SessionManDB : SessionManagerDataBase σ
  secret : String
  jwt : JwtLibrary

/-- The method `newToken`; `issuedAt` and `expiryBase` are the two readings of
`time.Now()`. -/
def SessionManager.newToken {σ : Type} (sm : SessionManager σ) (issuedAt expiryBase : Int)
    (user : User) : Except String String :=
  sm.jwt.SignedString user issuedAt (expiryBase + 60 * 60 * 24 * 7) sm.secret

/-- The method `CreateNewSession`, of result type `(string, error)`. -/
def SessionManager.CreateNewSession {σ : Type} (sm : SessionManager σ)
    (issuedAt expiryBase : Int) (u : User) (st : σ) : Except SessionError String × σ :=
  match sm.newToken issuedAt expiryBase u with
  | Except.error msg => (Except.error (SessionError.other msg), st)
  | Except.ok token =>
    match sm.SessionManDB.CreateSessionDB (newSession u token) token st with
    | (some err, st') => (Except.error err, st')
    | (none, st') => (Except.ok token, st')

/-- The closure `hashSecretGetter` of `GetSession`. -/
def SessionManager.hashSecretGetter {σ : Type} (sm : SessionManager σ) (token : JwtToken) :
    Except String String :=
  match token.Method with
  | SigningMethod.hmac alg =>
    if alg ≠ "HS256" then Except.error "bad sign method" else Except.ok sm.secret
  | SigningMethod.otherMethod _ => Except.error "bad sign method"

/-- The method `GetSession`, of result type `(*Session, error)`. -/
def SessionManager.GetSession {σ : Type} (sm : SessionManager σ) (inToken : String) (st : σ) :
    Option Session × Option SessionError :=
  match sm.jwt.Parse inToken sm.hashSecretGetter with
  | Except.error _ => (none, some SessionError.ErrNoAuth)
  | Except.ok token =>
    if !token.Valid then (none, some SessionError.ErrNoAuth)
    else
      match sm.SessionManDB.GetSessionDB inToken st with
      | (_, some err) => (none, some err)
      | (sess, none) => (sess, none)

/-! ## pkg/user and pkg/hasher -/

/-- An error of the relational database: `sql.ErrNoRows`, a
`*mysql.MySQLError` with its number, or another error. -/
inductive SqlError where
  | ErrNoRows
  | MySQLError (Number : Nat) (Message : String)
  | other (msg : String)
deriving DecidableEq, Repr

/-- The error values of `pkg/user` (`ErrNoUser`, `ErrBadPass`,
`ErrAlreadyExist`) and the errors of the database. -/
inductive UserError where
  | ErrNoUser
  | ErrBadPass
  | ErrAlreadyExist
  | db (err : SqlError)
deriving DecidableEq, Repr

/-- The function `newUser`. -/
def newUser (id uName pass : String) : User :=
  { ID := id, Username := uName, password := pass }

/-- The function `hasher.GetHashPassword`; `sha256Hex` is the hexadecimal
SHA-256 digest of `crypto/sha256` and `encoding/hex`, whose `Write` returns no
error. -/
def GetHashPassword (sha256Hex : String → String) (password : String) : Except UserError String :=
  Except.ok (sha256Hex password)

/-- The struct `UserDBRepo` over a store of type `σ`: `QueryRow` is the
`SELECT id, username, password` by username followed by `Scan`, `Exec` the
`INSERT INTO users` of an id, a username and a password. -/
structure UserDBRepo (σ : Type) where
  QueryRow : String → σ → Except SqlError (String × String × String)
  Exec : String → String → String → σ → Option SqlError × σ

/-- The function `isAlreadyExists`. -/
def isAlreadyExists (err : SqlError) : Bool :=
  match err with
  | SqlError.MySQLError number _ => number == 1062
  | _ => false

/-- The method `UserDBRepo.FindUserByUsernameDB`. -/
def UserDBRepo.FindUserByUsernameDB {σ : Type} (u : UserDBRepo σ) (username : String) (st : σ) :
    Except UserError User :=
  match u.QueryRow username st with
  | Except.error err =>
    if err = SqlError.ErrNoRows then Except.error UserError.ErrNoUser
    else Except.error (UserError.db err)
  | Except.ok (id, uName, pass) => Except.ok { ID := id, Username := uName, password := pass }

/-- The method `UserDBRepo.AddNewUserDB`. -/
def UserDBRepo.AddNewUserDB {σ : Type} (u : UserDBRepo σ) (newUser : User) (st : σ) :
    Option UserError × σ :=
  match u.Exec newUser.ID newUser.Username newUser.password st with
  | (some err, st') =>
    if isAlreadyExists err then (some UserError.ErrAlreadyExist, st')
    else (some (UserError.db err), st')
  | (none, st') => (none, st')

/-- The interface `UserDBRepository`. -/
structure UserDBRepository (σ : Type) where
  FindUserByUsernameDB : String → σ → Except UserError User
  AddNewUserDB : User → σ → Option UserError × σ

/-- The struct `UserDBRepo` as an implementation of `UserDBRepository`. -/
def UserDBRepo.toRepository {σ : Type} (u : UserDBRepo σ) : UserDBRepository σ where
  FindUserByUsernameDB := u.FindUserByUsernameDB
  AddNewUserDB := u.AddNewUserDB

/-- The struct `UserMemoryRepository`, with the digest that `pkg/hasher`
computes. -/
structure UserMemoryRepository (σ : Type) where
  UserDBRepo : UserDBRepository σ
  generatorID : Nat → String
  sha256Hex : String → String

/-- The method `Login`. -/
def UserMemoryRepository.Login {σ : Type} (u : UserMemoryRepository σ)
    (username password : String) (st : σ) : Except UserError User :=
  match u.UserDBRepo.FindUserByUsernameDB username st with
  | Except.error err => Except.error err
  | Except.ok loginUser =>
    match GetHashPassword u.sha256Hex password with
    | Except.error err => Except.error err
    | Except.ok hashedPassword =>
      if hashedPassword ≠ loginUser.password then Except.error UserError.ErrBadPass
      else Except.ok loginUser

/-- The method `Register`. -/
def UserMemoryRepository.Register {σ : Type} (u : UserMemoryRepository σ)
    (username password : String) (st : σ) : Except UserError User × σ :=
  match GetHashPassword u.sha256Hex password with
  | Except.error err => (Except.error err, st)
  | Except.ok hashedPassword =>
    match u.UserDBRepo.AddNewUserDB (newUser (u.generatorID 16) username hashedPassword) st with
    | (some err, st') => (Except.error err, st')
    | (none, st') => (Except.ok (newUser (u.generatorID 16) username hashedPassword), st')

/-! ## pkg/response and pkg/handlers -/

/-- One call of `response.WriteResponse`: the status code given to
`w.WriteHeader` and the bytes given to `w.Write`. -/
structure Response where
  statusCode : Nat
  dataJSON : String
deriving DecidableEq, Repr

/-- The `http.ResponseWriter` of a request, kept as the list of the calls of
`response.WriteResponse` made on it, in their order. -/
abbrev ResponseWriter := List Response

/-- The function `response.WriteResponse`: the headers are set, the status code
is written and then the body. -/
def WriteResponse (w : ResponseWriter) (dataJSON : String) (statusCode : Nat) : ResponseWriter :=
  w ++ [{ statusCode := statusCode, dataJSON := dataJSON }]

/-- The constant `http.StatusOK`. -/
def StatusOK : Nat := 200

/-- The constant `http.StatusCreated`. -/
def StatusCreated : Nat := 201

/-- The constant `http.StatusBadRequest`. -/
def StatusBadRequest : Nat := 400

/-- The constant `http.StatusUnauthorized`. -/
def StatusUnauthorized : Nat := 401

/-- The constant `http.StatusForbidden`. -/
def StatusForbidden : Nat := 403

/-- The constant `http.StatusNotFound`. -/
def StatusNotFound : Nat := 404

/-- The constant `http.StatusUnprocessableEntity`. -/
def StatusUnprocessableEntity : Nat := 422

/-- The constant `http.StatusInternalServerError`. -/
def StatusInternalServerError : Nat := 500

/-- A Go value of type `error` that a repository or the session manager
returns to a handler: one of the error values of `pkg/post` and `pkg/user`, or
any other error, kept as its message. -/
inductive GoError where
  | ErrNoPost
  | ErrNoAccess
  | ErrNoComment
  | ErrNoUser
  | ErrBadPass
  | ErrAlreadyExist
  | other (msg : String)
deriving DecidableEq, Repr

/-- The method `Error()` of an error, which is what the verb `%s` prints: the
texts given to `errors.New` in `pkg/post/post.go` and `pkg/user/repo.go`. -/
def GoError.Error : GoError → String
  | GoError.ErrNoPost => "no post found"
  | GoError.ErrNoAccess => "forbidden action"
  | GoError.ErrNoComment => "no comment found"
  | GoError.ErrNoUser => "no user with such username"
  | GoError.ErrBadPass => "bad password"
  | GoError.ErrAlreadyExist => "already exists"
  | GoError.other msg => msg

/-- The test `errors.Is(err, target)` on the error of a result. -/
def errorsIs {α : Type} (result : Except GoError α) (target : GoError) : Bool :=
  match result with
  | Except.error err => err == target
  | Except.ok _ => false

/-- The text the verb `%s` prints for a value of type `error` that may be `nil`;
the errors of `io` and `encoding/json` are kept as their messages. -/
def sprintError (err : Option String) : String :=
  match err with
  | some msg => msg
  | none => "%!s(<nil>)"

/-- The text the verb `%s` prints for the `err` of a result `(T, error)`. -/
def sprintErrorOf {α : Type} (result : Except GoError α) : String :=
  match result with
  | Except.error err => sprintError (some err.Error)
  | Except.ok _ => sprintError none

/-- The body `{"message": "<text>"}` that the handlers build from a string
literal or with `fmt.Sprintf`. -/
def message (text : String) : String :=
  "\x7b\"message\": \"" ++ text ++ "\"\x7d"

/-- The parts of a `*http.Request` that the handlers read: `mux.Vars(r)`, the
result of `r.Context().Value(middleware.MyUserKey).(*user.User)` (`none` when
the assertion fails), the result of `io.ReadAll(r.Body)` and `r.URL.Path`. -/
structure Request where
  Vars : String → String
  ContextUser : Option User
  Body : Except String String
  Path : String

/-- The struct `comment.CommentForm`. -/
structure CommentForm where
  Body : String
deriving DecidableEq, Repr

/-- The struct `LoginRegisterRequestBody`. -/
structure LoginRegisterRequestBody where
  Password : String
  Username : String
deriving DecidableEq, Repr

/-- The struct `loginRegisterResponseBody`. -/
structure loginRegisterResponseBody where
  Token : String
deriving DecidableEq, Repr

/-- The functions of `encoding/json` and `govalidator` that the handlers call.
`json.Unmarshal` into a fresh struct returns the struct or the text of its
error, `json.Marshal` the bytes or the text of its error. A field
`ValidateStruct...` is `govalidator.ValidateStruct`: `none` when it returns no
error, else the texts `fld.Error()` of the fields of its `govalidator.Errors`
(none when the error is of another type). -/
structure Encoding where
  UnmarshalPost : String → Except String Post
  UnmarshalCommentForm : String → Except String CommentForm
  UnmarshalLoginRegisterRequestBody : String → Except String LoginRegisterRequestBody
  MarshalPosts : List Post → Except String String
  MarshalPost : Post → Except String String
  MarshalStrings : List String → Except String String
  MarshalResponseBody : loginRegisterResponseBody → Except String String
  ValidateStructPost : Post → Option (List String)
  ValidateStructCommentForm : CommentForm → Option (List String)
  ValidateStructLoginRegisterRequestBody : LoginRegisterRequestBody → Option (List String)

/-- The method `(*Post).Validate`. -/
def Post.Validate (lib : Encoding) (p : Post) : List String :=
  match lib.ValidateStructPost p with
  | none => []
  | some allErrs =>
    if p.Type_ = "text" then
      if p.Text = "" then allErrs ++ ["text field required"] else allErrs
    else if p.URL = "" then allErrs ++ ["url field required"]
    else allErrs

/-- The method `(*CommentForm).Validate`. -/
def CommentForm.Validate (lib : Encoding) (c : CommentForm) : List String :=
  match lib.ValidateStructCommentForm c with
  | none => []
  | some allErrs => allErrs

/-- The method `(*LoginRegisterRequestBody).Validate`. -/
def LoginRegisterRequestBody.Validate (lib : Encoding) (u : LoginRegisterRequestBody) :
    List String :=
  match lib.ValidateStructLoginRegisterRequestBody u with
  | none => []
  | some allErrs => allErrs

/-- The interface `post.PostRepo` over a store of type `σ`; a result
`(T, error)` is `Except.ok v` for `(v, nil)` and `Except.error err` for an
error. -/
structure PostRepo (σ : Type) where
  GetAll : σ → Except GoError (List Post) × σ
  AddPost : Post → User → σ → Except GoError Post × σ
  GetPostByCategory : String → σ → Except GoError (List Post) × σ
  GetPostByID : String → σ → Except GoError Post × σ
  AddComment : String → User → String → σ → Except GoError Post × σ
  DeleteComment : String → String → String → σ → Except GoError Post × σ
  UpVote : String → String → σ → Except GoError Post × σ
  DownVote : String → String → σ → Except GoError Post × σ
  UnVote : String → String → σ → Except GoError Post × σ
  DeletePost : String → String → σ → (Bool × Option GoError) × σ
  GetPostsByUserID : String → σ → Except GoError (List Post) × σ

/-- The interface `user.UserRepo` over a store of type `σ`. -/
structure UserRepo (σ : Type) where
  Login : String → String → σ → Except GoError User × σ
  Register : String → String → σ → Except GoError User × σ

/-- The method `CreateNewSession` of the interface `session.SessManager`, the
only one the handlers call. -/
structure SessManager (σ : Type) where
  CreateNewSession : User → σ → Except GoError String × σ

/-- The struct `PostHandler`, with the library functions it calls. -/
structure PostHandler (σ : Type) where
  PostRepo : PostRepo σ
  lib : Encoding

/-- The struct `UserHandler`, with the library functions it calls. -/
structure UserHandler (σ : Type) where
  UserRepo : UserRepo σ
  SessionManager : SessManager σ
  lib : Encoding

/-- The end of the handlers that return a post: `json.Marshal` of the post,
then the response with the status `statusCode`. -/
def PostHandler.writePost {σ : Type} (ph : PostHandler σ) (w : ResponseWriter) (myPost : Post)
    (statusCode : Nat) : ResponseWriter :=
  match ph.lib.MarshalPost myPost with
  | Except.error err =>
    WriteResponse w (message ("error in coding posts: " ++ err)) StatusInternalServerError
  | Except.ok postJSON => WriteResponse w postJSON statusCode

/-- The end of the handlers that return a list of posts: `json.Marshal` of the
list, then the response with the status `http.StatusOK`. -/
def PostHandler.writePosts {σ : Type} (ph : PostHandler σ) (w : ResponseWriter)
    (posts : List Post) : ResponseWriter :=
  match ph.lib.MarshalPosts posts with
  | Except.error err =>
    WriteResponse w (message ("error in coding posts: " ++ err)) StatusInternalServerError
  | Except.ok postsJSON => WriteResponse w postsJSON StatusOK

/-- The handler `(*PostHandler).List`. -/
def PostHandler.List {σ : Type} (ph : PostHandler σ) (w : ResponseWriter) (st : σ) :
    ResponseWriter × σ :=
  match ph.PostRepo.GetAll st with
  | (Except.error err, st') =>
    (WriteResponse w (message ("can not get posts: " ++ err.Error)) StatusInternalServerError, st')
  | (Except.ok posts, st') => (ph.writePosts w posts, st')

/-- The handler `(*PostHandler).NewPost`. -/
def PostHandler.NewPost {σ : Type} (ph : PostHandler σ) (w : ResponseWriter) (r : Request)
    (st : σ) : ResponseWriter × σ :=
  match r.ContextUser with
  | none =>
    (WriteResponse w (message "can not cast context value to user") StatusInternalServerError, st)
  | some author =>
    match r.Body with
    | Except.error err =>
      (WriteResponse w (message ("error in reading request body: " ++ err)) StatusBadRequest, st)
    | Except.ok rBody =>
      match ph.lib.UnmarshalPost rBody with
      | Except.error err =>
        (WriteResponse w (message ("error in json decoding of post form: " ++ err))
          StatusInternalServerError, st)
      | Except.ok postFromForm =>
        if (postFromForm.Validate ph.lib).length ≠ 0 then
          match ph.lib.MarshalStrings (postFromForm.Validate ph.lib) with
          | Except.error err =>
            (WriteResponse w
              (message ("error in json coding of validation errors of post: " ++ err))
              StatusInternalServerError, st)
          | Except.ok errorsJSON => (WriteResponse w errorsJSON StatusUnprocessableEntity, st)
        else
          match ph.PostRepo.AddPost postFromForm author st with
          | (Except.error err, st') =>
            (WriteResponse w (message ("error in adding post: " ++ err.Error))
              StatusInternalServerError, st')
          | (Except.ok addedPost, st') => (ph.writePost w addedPost StatusCreated, st')

/-- The handler `(*PostHandler).ListByCategory`. -/
def PostHandler.ListByCategory {σ : Type} (ph : PostHandler σ) (w : ResponseWriter)
    (r : Request) (st : σ) : ResponseWriter × σ :=
  match ph.PostRepo.GetPostByCategory (r.Vars "CATEGORY_NAME") st with
  | (Except.error err, st') =>
    (WriteResponse w (message ("can not get posts: " ++ err.Error)) StatusInternalServerError, st')
  | (Except.ok posts, st') => (ph.writePosts w posts, st')

/-- The handler `(*PostHandler).GetPostInfo`. -/
def PostHandler.GetPostInfo {σ : Type} (ph : PostHandler σ) (w : ResponseWriter) (r : Request)
    (st : σ) : ResponseWriter × σ :=
  let postID := r.Vars "POST_ID"
  match ph.PostRepo.GetPostByID postID st with
  | (result, st') =>
    if errorsIs result GoError.ErrNoPost then
      (WriteResponse w (message ("there is no post with id " ++ postID)) StatusNotFound, st')
    else
      match result with
      | Except.error err =>
        (WriteResponse w (message ("can not get post: " ++ err.Error)) StatusInternalServerError,
          st')
      | Except.ok curPost => (ph.writePost w curPost StatusOK, st')

/-- The handler `(*PostHandler).NewComment`. The branch of `ErrNoPost` writes
its response and does not return: the statement `if err != nil` that follows it
runs on the same error. -/
def PostHandler.NewComment {σ : Type} (ph : PostHandler σ) (w : ResponseWriter) (r : Request)
    (st : σ) : ResponseWriter × σ :=
  let postID := r.Vars "POST_ID"
  match r.ContextUser with
  | none =>
    (WriteResponse w (message "can not cast context value to user") StatusInternalServerError, st)
  | some author =>
    match r.Body with
    | Except.error err =>
      (WriteResponse w (message ("error in reading request body: " ++ err)) StatusBadRequest, st)
    | Except.ok rBody =>
      match ph.lib.UnmarshalCommentForm rBody with
      | Except.error err =>
        (WriteResponse w (message ("error in decoding posts: " ++ err)) StatusInternalServerError,
          st)
      | Except.ok commentFromForm =>
        if (commentFromForm.Validate ph.lib).length ≠ 0 then
          match ph.lib.MarshalStrings (commentFromForm.Validate ph.lib) with
          | Except.error err =>
            (WriteResponse w (message ("error in json decoding: " ++ err))
              StatusInternalServerError, st)
          | Except.ok errorsJSON => (WriteResponse w errorsJSON StatusUnprocessableEntity, st)
        else
          match ph.PostRepo.AddComment commentFromForm.Body author postID st with
          | (result, st') =>
            let w1 : ResponseWriter :=
              if errorsIs result GoError.ErrNoPost then
                WriteResponse w (message ("there is no post with id " ++ postID)) StatusNotFound
              else w
            match result with
            | Except.error err =>
              (WriteResponse w1 (message ("error in adding new comment: " ++ err.Error))
                StatusInternalServerError, st')
            | Except.ok myPost => (ph.writePost w1 myPost StatusCreated, st')

/-- The handler `(*PostHandler).DeleteComment`. -/
def PostHandler.DeleteComment {σ : Type} (ph : PostHandler σ) (w : ResponseWriter)
    (r : Request) (st : σ) : ResponseWriter × σ :=
  let postID := r.Vars "POST_ID"
  let commentID := r.Vars "COMMENT_ID"
  match r.ContextUser with
  | none =>
    (WriteResponse w (message "can not cast context value to user") StatusInternalServerError, st)
  | some currentUser =>
    match ph.PostRepo.DeleteComment currentUser.ID postID commentID st with
    | (result, st') =>
      if errorsIs result GoError.ErrNoAccess then
        (WriteResponse w (message ("forbidden for this user: " ++ sprintErrorOf result))
          StatusForbidden, st')
      else if errorsIs result GoError.ErrNoPost then
        (WriteResponse w (message ("there is no post with id " ++ postID)) StatusNotFound, st')
      else if errorsIs result GoError.ErrNoComment then
        (WriteResponse w (message ("there is no comment with id " ++ postID)) StatusNotFound, st')
      else
        match result with
        | Except.error err =>
          (WriteResponse w (message ("error in comment deletion: " ++ err.Error))
            StatusInternalServerError, st')
        | Except.ok myPost => (ph.writePost w myPost StatusOK, st')

/-- The handler `(*PostHandler).MakeVote`; `voteAction` is the last segment of
`strings.Split(r.URL.Path, "/")`. -/
def PostHandler.MakeVote {σ : Type} (ph : PostHandler σ) (w : ResponseWriter) (r : Request)
    (st : σ) : ResponseWriter × σ :=
  let postID := r.Vars "POST_ID"
  match r.ContextUser with
  | none =>
    (WriteResponse w (message "can not cast context value to user") StatusInternalServerError, st)
  | some curUser =>
    let voteAction := (r.Path.splitOn "/").getLastD ""
    match (if voteAction = "upvote" then ph.PostRepo.UpVote postID curUser.ID st
        else if voteAction = "downvote" then ph.PostRepo.DownVote postID curUser.ID st
        else ph.PostRepo.UnVote postID curUser.ID st) with
    | (result, st') =>
      if errorsIs result GoError.ErrNoPost then
        (WriteResponse w (message ("there is no post with id " ++ postID)) StatusNotFound, st')
      else
        match result with
        | Except.error _ =>
          (WriteResponse w (message ("error in post " ++ voteAction)) StatusInternalServerError,
            st')
        | Except.ok myPost => (ph.writePost w myPost StatusOK, st')

/-- The handler `(*PostHandler).DeletePost`. -/
def PostHandler.DeletePost {σ : Type} (ph : PostHandler σ) (w : ResponseWriter) (r : Request)
    (st : σ) : ResponseWriter × σ :=
  let postID := r.Vars "POST_ID"
  match r.ContextUser with
  | none =>
    (WriteResponse w (message "can not cast context value to user") StatusInternalServerError, st)
  | some currentUser =>
    match ph.PostRepo.DeletePost currentUser.ID postID st with
    | ((isDeleted, err), st') =>
      if err = some GoError.ErrNoPost then
        (WriteResponse w (message ("there is no post with id " ++ postID)) StatusNotFound, st')
      else if err = some GoError.ErrNoAccess then
        (WriteResponse w
          (message ("forbidden for this user: " ++ sprintError (err.map GoError.Error)))
          StatusForbidden, st')
      else
        match err with
        | some e =>
          (WriteResponse w (message ("error in post deletion: " ++ e.Error))
            StatusInternalServerError, st')
        | none =>
          if isDeleted then (WriteResponse w (message "success") StatusOK, st')
          else (WriteResponse w (message "fail") StatusUnprocessableEntity, st')

/-- The handler `(*PostHandler).ListByUserLogin`. The branch of `ErrNoUser`
writes its response and does not return: the statement `if err != nil` that
follows it runs on the same error. -/
def PostHandler.ListByUserLogin {σ : Type} (ph : PostHandler σ) (w : ResponseWriter)
    (r : Request) (st : σ) : ResponseWriter × σ :=
  let userLogin := r.Vars "USER_LOGIN"
  match ph.PostRepo.GetPostsByUserID userLogin st with
  | (result, st') =>
    let w1 : ResponseWriter :=
      if errorsIs result GoError.ErrNoUser then
        WriteResponse w (message ("there is no user with username " ++ userLogin)) StatusNotFound
      else w
    match result with
    | Except.error err =>
      (WriteResponse w1 (message ("can not get posts: " ++ err.Error)) StatusInternalServerError,
        st')
    | Except.ok posts => (ph.writePosts w1 posts, st')

/-- The function `checkRequestFormat`: the form and the error it returns, and
the writer after the response it wrote, if any. In the branch of the failed
validation the `err` that is returned is the one declared by
`errorsJSON, err := json.Marshal(validationErrors)`, which is `nil` there. -/
def checkRequestFormat (lib : Encoding) (w : ResponseWriter) (r : Request) :
    (Option LoginRegisterRequestBody × Option String) × ResponseWriter :=
  match r.Body with
  | Except.error err =>
    ((none, some err),
      WriteResponse w (message ("error in reading request body: " ++ err)) StatusBadRequest)
  | Except.ok rBody =>
    match lib.UnmarshalLoginRegisterRequestBody rBody with
    | Except.error err =>
      ((none, some err),
        WriteResponse w (message ("error in decoding user: " ++ err)) StatusInternalServerError)
    | Except.ok userFromLoginForm =>
      if (userFromLoginForm.Validate lib).length ≠ 0 then
        match lib.MarshalStrings (userFromLoginForm.Validate lib) with
        | Except.error err =>
          ((none, some err),
            WriteResponse w (message ("error in decoding validation errors: " ++ err))
              StatusInternalServerError)
        | Except.ok errorsJSON =>
          ((none, none), WriteResponse w errorsJSON StatusUnprocessableEntity)
      else ((some userFromLoginForm, none), w)

/-- The method `(*UserHandler).HandleGetToken`. -/
def UserHandler.HandleGetToken {σ : Type} (uh : UserHandler σ) (w : ResponseWriter)
    (newUser : User) (st : σ) : ResponseWriter × σ :=
  match uh.SessionManager.CreateNewSession newUser st with
  | (Except.error err, st') =>
    (WriteResponse w (message ("error in session creation: " ++ err.Error))
      StatusInternalServerError, st')
  | (Except.ok token, st') =>
    match uh.lib.MarshalResponseBody { Token := token } with
    | Except.error err =>
      (WriteResponse w (message ("error in coding response: " ++ err)) StatusInternalServerError,
        st')
    | Except.ok tokenJSON => (WriteResponse w tokenJSON StatusOK, st')

/-- The handler `(*UserHandler).Login`. When `checkRequestFormat` fails it has
written a response already; `Login` then writes the response of status 401. -/
def UserHandler.Login {σ : Type} (uh : UserHandler σ) (w : ResponseWriter) (r : Request)
    (st : σ) : ResponseWriter × σ :=
  match checkRequestFormat uh.lib w r with
  | ((some userFromLoginForm, none), w1) =>
    match uh.UserRepo.Login userFromLoginForm.Username userFromLoginForm.Password st with
    | (result, st') =>
      if errorsIs result GoError.ErrNoUser then
        (WriteResponse w1 (message "user not found") StatusUnauthorized, st')
      else if errorsIs result GoError.ErrBadPass then
        (WriteResponse w1 (message "invalid password") StatusUnauthorized, st')
      else
        match result with
        | Except.error err =>
          (WriteResponse w1
            (message ("error in getting user by login and password: " ++ err.Error))
            StatusInternalServerError, st')
        | Except.ok loggedInUser => uh.HandleGetToken w1 loggedInUser st'
  | ((_, err), w1) =>
    (WriteResponse w1 (message ("error in login request: " ++ sprintError err))
      StatusUnauthorized, st)

/-- The handler `(*UserHandler).Register`. When `checkRequestFormat` fails,
`Register` returns. -/
def UserHandler.Register {σ : Type} (uh : UserHandler σ) (w : ResponseWriter) (r : Request)
    (st : σ) : ResponseWriter × σ :=
  match checkRequestFormat uh.lib w r with
  | ((some userFromLoginForm, none), w1) =>
    match uh.UserRepo.Register userFromLoginForm.Username userFromLoginForm.Password st with
    | (result, st') =>
      if errorsIs result GoError.ErrAlreadyExist then
        (WriteResponse w1 (message "user already exists") StatusUnprocessableEntity, st')
      else
        match result with
        | Except.error err =>
          (WriteResponse w1 (message ("unknown error occured in register: " ++ err.Error))
            StatusInternalServerError, st')
        | Except.ok newUser => uh.HandleGetToken w1 newUser st'
  | (_, w1) => (w1, st)

/-! ## Vocabulary of the properties -/

/-- Number of votes of value `+1`. -/
def upVoteCount (votes : List Vote) : Nat :=
  votes.countP (fun v => v.Value = 1)

/-- Number of votes of value `-1`. -/
def downVoteCount (votes : List Vote) : Nat :=
  votes.countP (fun v => v.Value = -1)

/-- The percentage as the specification words it:
`floor(100 * upvoteCount / totalVoteCount)`, and `0` when there is no vote. -/
def floorPercentage (votes : List Vote) : Int :=
  if votes.length = 0 then 0
  else Int.floor (((100 * upVoteCount votes : Nat) : ℚ) / ((votes.length : Nat) : ℚ))

/-- The user `userID` has no vote in `votes`. -/
def NoVoteOf (userID : String) (votes : List Vote) : Prop :=
  ∀ v ∈ votes, v.UserID ≠ userID

instance instDecidableNoVoteOf (userID : String) (votes : List Vote) :
    Decidable (NoVoteOf userID votes) := by
  unfold NoVoteOf
  infer_instance

/-- The vote that the loops locate for `userID`: `v` is the first vote of that
user in `votes`, standing after `pre` and before `suf`. -/
def FirstVoteOf (userID : String) (votes pre : List Vote) (v : Vote) (suf : List Vote) : Prop :=
  votes = pre ++ v :: suf ∧ NoVoteOf userID pre ∧ v.UserID = userID

instance instDecidableFirstVoteOf (userID : String) (votes pre : List Vote) (v : Vote)
    (suf : List Vote) : Decidable (FirstVoteOf userID votes pre v suf) := by
  unfold FirstVoteOf
  infer_instance

/-- Every vote has a value in `{+1, -1}`. -/
def ValuesPlusMinusOne (votes : List Vote) : Prop :=
  ∀ v ∈ votes, v.Value = 1 ∨ v.Value = -1

instance instDecidableValuesPlusMinusOne (votes : List Vote) :
    Decidable (ValuesPlusMinusOne votes) := by
  unfold ValuesPlusMinusOne
  infer_instance

/-- No two votes share a user id. -/
def OneVotePerUser (votes : List Vote) : Prop :=
  (votes.map Vote.UserID).Nodup

instance instDecidableOneVotePerUser (votes : List Vote) :
    Decidable (OneVotePerUser votes) := by
  unfold OneVotePerUser
  infer_instance

/-- Well-formedness of a vote list: values in `{+1, -1}`, one vote per user. -/
def WellFormedVotes (votes : List Vote) : Prop :=
  ValuesPlusMinusOne votes ∧ OneVotePerUser votes

instance instDecidableWellFormedVotes (votes : List Vote) :
    Decidable (WellFormedVotes votes) := by
  unfold WellFormedVotes
  infer_instance

/-- The score is the number of upvotes minus the number of downvotes. -/
def ScoreIsNetVotes (post : Post) : Prop :=
  post.Score = (upVoteCount post.Votes : Int) - (downVoteCount post.Votes : Int)

instance instDecidableScoreIsNetVotes (post : Post) : Decidable (ScoreIsNetVotes post) := by
  unfold ScoreIsNetVotes
  infer_instance

/-- The post the specification describes after a first vote of value `s` by
`userID`: the vote appended at the end, the score adjusted by `s`, the
percentage that of the new list. -/
def Post.withAppendedVote (post : Post) (s : Int) (userID : String) : Post :=
  { post with
    Votes := post.Votes ++ [{ Value := s, UserID := userID }]
    Score := post.Score + s
    UpvotePercentage := floorPercentage (post.Votes ++ [{ Value := s, UserID := userID }]) }

/-- The post the specification describes after the vote `v`, standing between
`pre` and `suf`, is flipped to `s`: the value set in place, the score adjusted
by `2 * s`, the percentage that of the new list. -/
def Post.withFlippedVote (post : Post) (pre : List Vote) (v : Vote) (suf : List Vote)
    (s : Int) : Post :=
  { post with
    Votes := pre ++ { v with Value := s } :: suf
    Score := post.Score + 2 * s
    UpvotePercentage := floorPercentage (pre ++ { v with Value := s } :: suf) }

/-- The post the specification describes after the vote `v`, standing between
`pre` and `suf`, is removed: score `0` and percentage `0` when no vote is left,
else the score less the value of `v` and the percentage of the remaining list. -/
def Post.withRemovedVote (post : Post) (pre : List Vote) (v : Vote) (suf : List Vote) : Post :=
  { post with
    Votes := pre ++ suf
    Score := if pre ++ suf = [] then 0 else post.Score - v.Value
    UpvotePercentage := if pre ++ suf = [] then 0 else floorPercentage (pre ++ suf) }

/-- How the post returned by a successful `UpVote`, `DownVote` or `UnVote` of
`userID` stands to the stored post `post`: left as it is, a vote appended, the
located vote flipped, or the located vote removed. -/
inductive VoteStep (userID : String) (post : Post) : Post → Prop where
  | unchanged : VoteStep userID post post
  | appended (s : Int) (hs : s = 1 ∨ s = -1) (hno : NoVoteOf userID post.Votes) :
      VoteStep userID post (post.withAppendedVote s userID)
  | flipped (pre : List Vote) (v : Vote) (suf : List Vote) (s : Int) (hs : s = 1 ∨ s = -1)
      (hfirst : FirstVoteOf userID post.Votes pre v suf) (hopp : v.Value = -s) :
      VoteStep userID post (post.withFlippedVote pre v suf s)
  | removed (pre : List Vote) (v : Vote) (suf : List Vote)
      (hfirst : FirstVoteOf userID post.Votes pre v suf) :
      VoteStep userID post
        { post with
          Votes := pre ++ suf
          Score := if pre ++ suf = [] then 0
            else if v.Value = 1 then post.Score - 1 else post.Score + 1
          UpvotePercentage := floorPercentage (pre ++ suf) }

/-- The vote status of a user on a post: `None`, `Up` or `Down`. -/
inductive VoteStatus where
  | None
  | Up
  | Down
deriving DecidableEq, Repr

/-- The status of `userID` according to the value of that user's vote in
`votes`: `None` without a vote, `Up` for the value `+1`, `Down` for `-1`; for a
vote of any other value the status is not defined. -/
def voteStatus (userID : String) (votes : List Vote) : Option VoteStatus :=
  match votes.find? (fun v => v.UserID = userID) with
  | none => some VoteStatus.None
  | some v =>
    if v.Value = 1 then some VoteStatus.Up
    else if v.Value = -1 then some VoteStatus.Down
    else none

/-- No comment of `comments` has the id `commentID`. -/
def NoCommentWith (commentID : String) (comments : List Comment) : Prop :=
  ∀ c ∈ comments, c.ID ≠ commentID

instance instDecidableNoCommentWith (commentID : String) (comments : List Comment) :
    Decidable (NoCommentWith commentID comments) := by
  unfold NoCommentWith
  infer_instance

/-- The comment that the scan of `DeleteComment` finds for `commentID`: `c` is
the first comment with that id in `comments`, after `pre` and before `suf`. -/
def FirstCommentWith (commentID : String) (comments pre : List Comment) (c : Comment)
    (suf : List Comment) : Prop :=
  comments = pre ++ c :: suf ∧ NoCommentWith commentID pre ∧ c.ID = commentID

instance instDecidableFirstCommentWith (commentID : String) (comments pre : List Comment)
    (c : Comment) (suf : List Comment) :
    Decidable (FirstCommentWith commentID comments pre c suf) := by
  unfold FirstCommentWith
  infer_instance

/-- The post the specification describes for `AddPost`: the author set, the
unused one of text and URL cleared, one `+1` vote of the author, no view, no
comment, percentage `100`, score `1`, and title, category and type of the
draft. -/
def Post.asAdded (draft : Post) (author : User) (created : String) (objectID : ObjectID) :
    Post :=
  { Score := 1
    Views := 0
    Type_ := draft.Type_
    Title := draft.Title
    URL := if draft.Type_ = "text" then "" else draft.URL
    Author := author
    Category := draft.Category
    Text := if draft.Type_ = "text" then draft.Text else ""
    Votes := [{ Value := 1, UserID := author.ID }]
    Comments := []
    Created := created
    UpvotePercentage := 100
    ID := objectID }

/-- One write of the store followed by the return: the error of the write and
no post when the write fails, the written post when it succeeds. -/
def writeAndReturn {σ : Type} (write : Post → String → σ → Option PostError × σ) (post : Post)
    (postID : String) (st : σ) : GoResult Post × σ :=
  match write post postID st with
  | (some err, st') => (GoResult.error err, st')
  | (none, st') => (GoResult.ok post, st')

/-- A store whose failed writes (`SetPostDB`, `AddCommentDB`,
`DeleteCommentDB`) leave every stored document as it was. -/
def FailedWritesKeep {σ : Type} (repo : PostDBRepository σ) : Prop :=
  ∀ (post : Post) (postID : String) (st : σ) (id : String),
    ((repo.SetPostDB post postID st).1 ≠ none →
      repo.GetPostByIDDB id (repo.SetPostDB post postID st).2 = repo.GetPostByIDDB id st) ∧
    ((repo.AddCommentDB post postID st).1 ≠ none →
      repo.GetPostByIDDB id (repo.AddCommentDB post postID st).2 = repo.GetPostByIDDB id st) ∧
    ((repo.DeleteCommentDB post postID st).1 ≠ none →
      repo.GetPostByIDDB id (repo.DeleteCommentDB post postID st).2 = repo.GetPostByIDDB id st)

/-- The handler wrote exactly one response: the writer `w2` is the writer `w1`
followed by one call of `WriteResponse`. -/
def WritesOne (w1 w2 : ResponseWriter) : Prop :=
  ∃ resp : Response, w2 = w1 ++ [resp]

/-- The handler wrote two responses: the writer `w2` is the writer `w1`
followed by two calls of `WriteResponse`. -/
def WritesTwo (w1 w2 : ResponseWriter) : Prop :=
  ∃ first second : Response, w2 = w1 ++ [first, second]

/-! ## Stores for the examples -/

/-- A store that is the log of the writes it accepted, newest first, each with
the id it was made under. -/
abbrev WriteLog := List (String × Post)

/-- The newest document written under `postID`, `ErrNoPost` when there is none. -/
def WriteLog.lookup (postID : String) : WriteLog → Except PostError Post
  | [] => Except.error PostError.ErrNoPost
  | (id, post) :: older => if id = postID then Except.ok post else WriteLog.lookup postID older

/-- All documents of the log. -/
def WriteLog.documents (log : WriteLog) : List Post :=
  log.map Prod.snd

/-- A repository over `WriteLog` that accepts every write and records it. -/
def logRepo : PostDBRepository WriteLog where
  IncreasePostViewsDB := fun post postID log => (none, (postID, post) :: log)
  GetPostByCategoryDB := fun category log =>
    Except.ok (log.documents.filter (fun post => post.Category = category))
  AddPostDB := fun post log =>
    (({ hex := "654f63e3a2414a2a554b6423" }, none),
      ("654f63e3a2414a2a554b6423", { post with ID := { hex := "654f63e3a2414a2a554b6423" } }) :: log)
  GetAllPostsDB := fun log => Except.ok log.documents
  AddCommentDB := fun post postID log => (none, (postID, post) :: log)
  DeleteCommentDB := fun post postID log => (none, (postID, post) :: log)
  GetPostByIDDB := fun postID log => WriteLog.lookup postID log
  SetPostDB := fun post postID log => (none, (postID, post) :: log)
  GetPostByUsernameDB := fun userName log =>
    Except.ok (log.documents.filter (fun post => post.Author.Username = userName))
  DeletePostDB := fun postID log => ((true, none), log.filter (fun entry => entry.1 ≠ postID))

/-- A repository over `WriteLog` that answers the lookups and refuses every
write, leaving the log as it is. -/
def refusingRepo : PostDBRepository WriteLog where
  IncreasePostViewsDB := fun _ _ log => (some (PostError.other "error"), log)
  GetPostByCategoryDB := logRepo.GetPostByCategoryDB
  AddPostDB := fun _ log => (({ hex := "" }, some (PostError.other "error")), log)
  GetAllPostsDB := logRepo.GetAllPostsDB
  AddCommentDB := fun _ _ log => (some (PostError.other "error"), log)
  DeleteCommentDB := fun _ _ log => (some (PostError.other "error"), log)
  GetPostByIDDB := logRepo.GetPostByIDDB
  SetPostDB := fun _ _ log => (some (PostError.other "error"), log)
  GetPostByUsernameDB := logRepo.GetPostByUsernameDB
  DeletePostDB := fun _ log => ((false, some (PostError.other "error")), log)

/-- The business logic over the accepting store. -/
def logLogic : PostBusinessLogic WriteLog :=
  { PostDBRepo := logRepo, generatorID := fun _ => "0123456789abcdef" }

/-- The business logic over the refusing store. -/
def refusingLogic : PostBusinessLogic WriteLog :=
  { PostDBRepo := refusingRepo, generatorID := fun _ => "0123456789abcdef" }

/-- The author of the example posts. -/
def exampleAuthor : User :=
  { ID := "310ca263", Username := "hhhhhhhh", password := "" }

/-- An example post with the given votes, score and percentage. -/
def examplePost (votes : List Vote) (score percentage : Int) : Post :=
  { Score := score, Views := 1, Type_ := "text", Title := "fef", URL := "",
    Author := exampleAuthor, Category := "programming", Text := "rferfer",
    Votes := votes, Comments := [], Created := "2023-11-11T14:22:11.695Z",
    UpvotePercentage := percentage, ID := { hex := "654f63e3a2414a2a554b6423" } }

/-- The store holding one post under the id `"p"`. -/
def storeOf (post : Post) : WriteLog :=
  [("p", post)]

/-- The parser of object ids of the examples: the strings of 24 characters. -/
def exampleObjectIDFromHex (id : String) : Option ObjectID :=
  if id.length = 24 then some { hex := id } else none

/-- The effect of an update on a document. -/
def Update.apply (update : Update) (post : Post) : Post :=
  match update with
  | Update.setViews views => { post with Views := views }
  | Update.setComments comments => { post with Comments := comments }
  | Update.setPost newPost => newPost

/-- A collection over `WriteLog`: a document is found under the hexadecimal
form of its id, an update of a stored document is accepted and recorded, and a
deletion removes the entries of the id and counts one document if there was
any. -/
def logCollection : CollectionHelper WriteLog where
  Find := fun _ log => Except.ok log.documents
  FindOne := fun objectID log =>
    match WriteLog.lookup objectID.hex log with
    | Except.ok post => Except.ok post
    | Except.error _ => Except.error "mongo: no documents in result"
  InsertOne := fun post log => (none, (post.ID.hex, post) :: log)
  DeleteOne := fun objectID log =>
    ((if log.any (fun entry => entry.1 = objectID.hex) then 1 else 0, none),
      log.filter (fun entry => entry.1 ≠ objectID.hex))
  UpdateOne := fun objectID update log =>
    match WriteLog.lookup objectID.hex log with
    | Except.ok post => (none, (objectID.hex, update.apply post) :: log)
    | Except.error _ => (none, log)

/-- A collection over `WriteLog` that answers the lookups and refuses every
write with the error `db_error`, leaving the log as it is. -/
def refusingCollection : CollectionHelper WriteLog where
  Find := logCollection.Find
  FindOne := logCollection.FindOne
  InsertOne := fun _ log => (some "db_error", log)
  DeleteOne := fun _ log => ((0, some "db_error"), log)
  UpdateOne := fun _ _ log => (some "db_error", log)

/-- A collection over `WriteLog` whose deletions come after the document was
removed by another request: `DeleteOne` reports no error and the count `0`. -/
def staleCollection : CollectionHelper WriteLog where
  Find := logCollection.Find
  FindOne := logCollection.FindOne
  InsertOne := logCollection.InsertOne
  DeleteOne := fun objectID log => ((0, none), log.filter (fun entry => entry.1 ≠ objectID.hex))
  UpdateOne := logCollection.UpdateOne

/-- The repository `PostDBRepo` over a collection of the examples. -/
def exampleDBRepo (collection : CollectionHelper WriteLog) : PostDBRepo WriteLog :=
  { Posts := collection
    ObjectIDFromHex := exampleObjectIDFromHex
    NewObjectID := fun _ => { hex := "654f63e3a2414a2a554b6423" } }

/-- The business logic over `PostDBRepo` over a collection of the examples,
with the generator of the tests. -/
def exampleLogic (collection : CollectionHelper WriteLog) : PostBusinessLogic WriteLog :=
  NewPostBusinessLogic (exampleDBRepo collection).toRepository (fun _ => "generated_id")

/-- An example comment with the given id and the id of its author. -/
def exampleComment (id authorID : String) : Comment :=
  { Created := "2023-11-11T14:22:11.695Z"
    Author := { ID := authorID, Username := "username", password := "" }
    Body := "comment"
    ID := id }

/-- The example post with the given comments, one upvote of its author, and
the id of the tests. -/
def examplePostWith (comments : List Comment) : Post :=
  { examplePost [⟨1, "310ca263"⟩] 1 100 with Comments := comments }

/-- The store holding one post under the id of the tests. -/
def mongoStoreOf (post : Post) : WriteLog :=
  [("654f63e3a2414a2a554b6423", post)]

/-- The store of the session and user examples: the cache of sessions by
token, the rows of the table `sessions` (token, user id) and the rows of the
table `users`. -/
structure AuthStore where
  cache : List (String × String)
  sessions : List (String × String)
  users : List User
deriving DecidableEq, Repr

/-- A cache tier for the examples. A session is serialised as its id, and a
serialised session is read back as a session of `exampleAuthor`; when `up` is
false every command fails with `connection refused`. -/
def exampleRedis (up : Bool) : SessionManagerRedis AuthStore where
  Marshal := fun sess => Except.ok sess.ID
  Unmarshal := fun json => some { ID := json, User := exampleAuthor }
  Set := fun token json _ st =>
    if up then (Except.ok "OK", { st with cache := (token, json) :: st.cache })
    else (Except.error "connection refused", st)
  Get := fun token st =>
    if up then
      match st.cache.lookup token with
      | some json => Except.ok json
      | none => Except.error "redigo: nil returned"
    else Except.error "connection refused"

/-- A durable tier for the examples: the insert adds a row to `sessions`, the
query joins `sessions` and `users`; when `up` is false every statement fails
with `connection refused`. -/
def exampleMysql (up : Bool) : SessionManagerMysql AuthStore where
  Exec := fun token userID st =>
    if up then (none, { st with sessions := (token, userID) :: st.sessions })
    else (some "connection refused", st)
  QueryRow := fun token st =>
    if up then
      match st.sessions.lookup token with
      | none => Except.error "sql: no rows in result set"
      | some userID =>
        match st.users.find? (fun user => user.ID = userID) with
        | none => Except.error "sql: no rows in result set"
        | some user => Except.ok (token, user.ID, user.Username)
    else Except.error "connection refused"

/-- The two tiers of the examples. -/
def exampleSessionDB (cacheUp durableUp : Bool) : SessionManagerDB AuthStore :=
  { SessionManagerMS := exampleMysql durableUp, SessionManagerRDS := exampleRedis cacheUp }

/-- A token library for the examples, on four token strings: `good` (HS256,
rightly signed, not expired), `tampered` (HS256, another signature), `expired`
(HS256, rightly signed, expired) and `rs256` (a method that is not HMAC); any
other string is malformed. A signature is right when it is the key. -/
def exampleJwt : JwtLibrary where
  Decode := fun tokenString =>
    if tokenString = "good" then
      some { Method := SigningMethod.hmac "HS256", Claims := "fresh", Signature := "secret",
             Valid := false }
    else if tokenString = "tampered" then
      some { Method := SigningMethod.hmac "HS256", Claims := "fresh", Signature := "forged",
             Valid := false }
    else if tokenString = "expired" then
      some { Method := SigningMethod.hmac "HS256", Claims := "old", Signature := "secret",
             Valid := false }
    else if tokenString = "rs256" then
      some { Method := SigningMethod.otherMethod "RS256", Claims := "fresh", Signature := "secret",
             Valid := false }
    else none
  ClaimsValid := fun token => token.Claims = "fresh"
  Verify := fun token key => token.Signature = key
  SignedString := fun _ _ _ _ => Except.ok "good"

/-- The session manager of the examples, with the secret `secret`. -/
def exampleSessionManager (cacheUp durableUp : Bool) : SessionManager AuthStore :=
  { SessionManDB := (exampleSessionDB cacheUp durableUp).toDataBase
    secret := "secret"
    jwt := exampleJwt }

/-- A stand-in for the digest in the examples. -/
def exampleDigest (password : String) : String :=
  "sha256:" ++ password

/-- The table `users` of the examples, with its unique usernames: an insert
under a username already there fails with the MySQL error 1062. -/
def exampleUserDB : UserDBRepo AuthStore where
  QueryRow := fun username st =>
    match st.users.find? (fun user => user.Username = username) with
    | none => Except.error SqlError.ErrNoRows
    | some user => Except.ok (user.ID, user.Username, user.password)
  Exec := fun id username pass st =>
    if st.users.any (fun user => user.Username = username) then
      (some (SqlError.MySQLError 1062 "Duplicate entry"), st)
    else (none, { st with users := { ID := id, Username := username, password := pass } :: st.users })

/-- The user repository of the examples, with the generator of the tests. -/
def exampleUserRepo : UserMemoryRepository AuthStore :=
  { UserDBRepo := exampleUserDB.toRepository
    generatorID := fun _ => "generated_id"
    sha256Hex := exampleDigest }

/-- A store of the examples with the user `qqqqqqqq`, whose password is
`qqqqqqqq`, and no session. -/
def exampleAuthStore : AuthStore :=
  { cache := []
    sessions := []
    users := [{ ID := "310ca263", Username := "qqqqqqqq", password := "sha256:qqqqqqqq" }] }

/-- A stand-in for `encoding/json` and `govalidator` on the bodies of the
examples: the comment form and the login forms of the tests are decoded, every
other body is refused; a comment must not be empty and a password has at least
8 characters. -/
def exampleEncoding : Encoding where
  UnmarshalPost := fun _ => Except.error "unexpected end of JSON input"
  UnmarshalCommentForm := fun rBody =>
    if rBody = "\x7b\"comment\":\"some comment\"\x7d" then Except.ok { Body := "some comment" }
    else Except.error "unexpected end of JSON input"
  UnmarshalLoginRegisterRequestBody := fun rBody =>
    if rBody = "\x7b\"username\":\"qqqqqqqq\",\"password\":\"short\"\x7d" then
      Except.ok { Password := "short", Username := "qqqqqqqq" }
    else if rBody = "\x7b\"username\":\"qqqqqqqq\",\"password\":\"qqqqqqqq\"\x7d" then
      Except.ok { Password := "qqqqqqqq", Username := "qqqqqqqq" }
    else Except.error "unexpected end of JSON input"
  MarshalPosts := fun posts => Except.ok (String.join (posts.map (fun post => post.ID.hex)))
  MarshalPost := fun post => Except.ok post.ID.hex
  MarshalStrings := fun texts => Except.ok (String.join texts)
  MarshalResponseBody := fun resp => Except.ok resp.Token
  ValidateStructPost := fun _ => none
  ValidateStructCommentForm := fun c => if c.Body = "" then some ["comment: required"] else none
  ValidateStructLoginRegisterRequestBody := fun u =>
    if u.Password.length < 8 then some ["password: length(8|255)"] else none

/-- The repository of the tests of the handlers for the absent post and the
absent user: the calls on a post fail with `ErrNoPost`, the listing by user
fails with `ErrNoUser`. -/
def absentRepo : PostRepo Unit where
  GetAll := fun st => (Except.ok [], st)
  AddPost := fun post _ st => (Except.ok post, st)
  GetPostByCategory := fun _ st => (Except.ok [], st)
  GetPostByID := fun _ st => (Except.error GoError.ErrNoPost, st)
  AddComment := fun _ _ _ st => (Except.error GoError.ErrNoPost, st)
  DeleteComment := fun _ _ _ st => (Except.error GoError.ErrNoPost, st)
  UpVote := fun _ _ st => (Except.error GoError.ErrNoPost, st)
  DownVote := fun _ _ st => (Except.error GoError.ErrNoPost, st)
  UnVote := fun _ _ st => (Except.error GoError.ErrNoPost, st)
  DeletePost := fun _ _ st => ((false, some GoError.ErrNoPost), st)
  GetPostsByUserID := fun _ st => (Except.error GoError.ErrNoUser, st)

/-- The handler of posts over the repository `absentRepo`. -/
def examplePostHandler : PostHandler Unit :=
  { PostRepo := absentRepo, lib := exampleEncoding }

/-- The handler of users of the examples: the user `qqqqqqqq` logs in and
registers, and the session manager returns the token `token`. -/
def exampleUserHandler : UserHandler Unit :=
  { UserRepo :=
      { Login := fun username _ st =>
          (Except.ok { ID := "310ca263", Username := username, password := "" }, st)
        Register := fun username _ st =>
          (Except.ok { ID := "310ca263", Username := username, password := "" }, st) }
    SessionManager := { CreateNewSession := fun _ st => (Except.ok "token", st) }
    lib := exampleEncoding }

/-- The request of the tests for a comment on the absent post
`not_exist_post`, by the author of the examples. -/
def exampleCommentRequest : Request :=
  { Vars := fun name => if name = "POST_ID" then "not_exist_post" else ""
    ContextUser := some exampleAuthor
    Body := Except.ok "\x7b\"comment\":\"some comment\"\x7d"
    Path := "/api/post/not_exist_post" }

/-- The request for the posts of the user `absent_user`. -/
def exampleUserLoginRequest : Request :=
  { Vars := fun name => if name = "USER_LOGIN" then "absent_user" else ""
    ContextUser := none
    Body := Except.ok ""
    Path := "/api/user/absent_user" }

/-- A login request with the given result of reading its body. -/
def exampleLoginRequest (body : Except String String) : Request :=
  { Vars := fun _ => "", ContextUser := none, Body := body, Path := "/api/login" }

/-! ## The loops -/

theorem rangeLoop_eq_none {α β : Type} (body : List α → α → List α → Option β) (xs : List α)
    (h : ∀ x ∈ xs, ∀ s r, body s x r = none) (seen : List α) :
    rangeLoop body seen xs = none := by
  induction xs generalizing seen with
  | nil => rfl
  | cons x rest ih =>
    have hx : body seen x rest = none := h x (List.mem_cons_self x rest) seen rest
    simp only [rangeLoop, hx]
    exact ih (fun y hy => h y (List.mem_cons_of_mem x hy)) (seen ++ [x])

theorem rangeLoop_eq_some {α β : Type} (body : List α → α → List α → Option β)
    (pre : List α) (x : α) (suf : List α) (r : β)
    (hpre : ∀ y ∈ pre, ∀ s t, body s y t = none) (seen : List α)
    (hx : body (seen ++ pre) x suf = some r) :
    rangeLoop body seen (pre ++ x :: suf) = some r := by
  induction pre generalizing seen with
  | nil =>
    simp only [List.append_nil] at hx
    simp only [List.nil_append, rangeLoop, hx]
  | cons y pre ih =>
    have hy : body seen y (pre ++ x :: suf) = none :=
      hpre y (List.mem_cons_self y pre) seen (pre ++ x :: suf)
    have hstep : rangeLoop body seen (y :: (pre ++ x :: suf))
        = rangeLoop body (seen ++ [y]) (pre ++ x :: suf) := by
      simp only [rangeLoop, hy]
    rw [List.cons_append, hstep]
    apply ih (fun z hz => hpre z (List.mem_cons_of_mem y hz))
    simpa using hx

/-- Either the user has no vote, or the votes split at the user's first vote. -/
theorem firstVote_cases (userID : String) (votes : List Vote) :
    NoVoteOf userID votes ∨ ∃ pre v suf, FirstVoteOf userID votes pre v suf := by
  induction votes with
  | nil => left; intro v hv; cases hv
  | cons w rest ih =>
    by_cases hw : w.UserID = userID
    · right
      exact ⟨[], w, rest, ⟨rfl, ⟨fun v hv => absurd hv (List.not_mem_nil v), hw⟩⟩⟩
    · rcases ih with hno | ⟨pre, v, suf, hsplit, hpre, hv⟩
      · left
        intro v hv
        rcases List.mem_cons.1 hv with rfl | hv
        · exact hw
        · exact hno v hv
      · right
        refine ⟨w :: pre, v, suf, ⟨by rw [hsplit]; rfl, ⟨?_, hv⟩⟩⟩
        intro z hz
        rcases List.mem_cons.1 hz with rfl | hz
        · exact hw
        · exact hpre z hz

/-! ## The percentage -/

theorem foldl_upVotes (votes : List Vote) (n : Int) :
    votes.foldl (fun n currentVote => if currentVote.Value = 1 then n + 1 else n) n
      = n + (upVoteCount votes : Int) := by
  induction votes generalizing n with
  | nil => simp [upVoteCount]
  | cons v rest ih =>
    rw [List.foldl_cons, ih]
    by_cases hv : v.Value = 1
    · simp [upVoteCount, List.countP_cons, hv]; ring
    · simp [upVoteCount, List.countP_cons, hv]

theorem upVoteCount_le_length (votes : List Vote) : upVoteCount votes ≤ votes.length :=
  List.countP_le_length _

theorem floorPercentage_eq_natDiv (votes : List Vote) :
    floorPercentage votes = ((100 * upVoteCount votes / votes.length : Nat) : Int) := by
  unfold floorPercentage
  by_cases h : votes.length = 0
  · simp [h]
  · rw [if_neg h]
    exact Rat.floor_natCast_div_natCast _ _

theorem countUpVotePercentage_nil (post : Post) (h : post.Votes = []) :
    countUpVotePercentage post = none := by
  simp [countUpVotePercentage, h]

theorem countUpVotePercentage_eq (post : Post) (h : post.Votes ≠ []) :
    countUpVotePercentage post = some (floorPercentage post.Votes) := by
  have hlen : ¬ post.Votes.length = 0 := fun h0 => h (List.length_eq_zero.1 h0)
  unfold countUpVotePercentage
  simp only [hlen, if_false, foldl_upVotes, zero_add]
  rw [floorPercentage_eq_natDiv, Int.tdiv_eq_ediv (by positivity) (by positivity)]
  push_cast
  rfl

theorem floorPercentage_nil : floorPercentage [] = 0 := by
  simp [floorPercentage]

theorem floorPercentage_nonneg (votes : List Vote) : 0 ≤ floorPercentage votes := by
  rw [floorPercentage_eq_natDiv]
  positivity

theorem floorPercentage_le (votes : List Vote) : floorPercentage votes ≤ 100 := by
  rw [floorPercentage_eq_natDiv]
  have h : 100 * upVoteCount votes / votes.length ≤ 100 := by
    rcases Nat.eq_zero_or_pos votes.length with h0 | hpos
    · simp [h0]
    · apply Nat.div_le_of_le_mul
      have := upVoteCount_le_length votes
      nlinarith
  exact_mod_cast h

/-! ## The tail of the changing paths -/

theorem setAndReturn_accept {σ : Type} (p : PostBusinessLogic σ) (post : Post) (postID : String)
    (st : σ) (h : (p.PostDBRepo.SetPostDB post postID st).1 = none) :
    p.setAndReturn post postID st = (GoResult.ok post, (p.PostDBRepo.SetPostDB post postID st).2) := by
  unfold PostBusinessLogic.setAndReturn
  rcases hw : p.PostDBRepo.SetPostDB post postID st with ⟨e, st'⟩
  rw [hw] at h
  simp only at h
  subst h
  rfl

theorem setAndReturn_refuse {σ : Type} (p : PostBusinessLogic σ) (post : Post) (postID : String)
    (st : σ) (err : PostError) (h : (p.PostDBRepo.SetPostDB post postID st).1 = some err) :
    p.setAndReturn post postID st
      = (GoResult.error err, (p.PostDBRepo.SetPostDB post postID st).2) := by
  unfold PostBusinessLogic.setAndReturn
  rcases hw : p.PostDBRepo.SetPostDB post postID st with ⟨e, st'⟩
  rw [hw] at h
  simp only at h
  subst h
  rfl

/-- A write either returns the post it wrote or an error, never a panic and
never another post. -/
theorem setAndReturn_cases {σ : Type} (p : PostBusinessLogic σ) (post : Post) (postID : String)
    (st : σ) :
    ((p.PostDBRepo.SetPostDB post postID st).1 = none ∧
      p.setAndReturn post postID st
        = (GoResult.ok post, (p.PostDBRepo.SetPostDB post postID st).2)) ∨
    ∃ err, (p.PostDBRepo.SetPostDB post postID st).1 = some err ∧
      p.setAndReturn post postID st
        = (GoResult.error err, (p.PostDBRepo.SetPostDB post postID st).2) := by
  cases h : (p.PostDBRepo.SetPostDB post postID st).1 with
  | none => exact Or.inl ⟨rfl, setAndReturn_accept p post postID st h⟩
  | some err => exact Or.inr ⟨err, rfl, setAndReturn_refuse p post postID st err h⟩

theorem recountSetAndReturn_eq {σ : Type} (p : PostBusinessLogic σ) (post : Post)
    (postID : String) (st : σ) (h : post.Votes ≠ []) :
    p.recountSetAndReturn post postID st
      = p.setAndReturn { post with UpvotePercentage := floorPercentage post.Votes } postID st := by
  unfold PostBusinessLogic.recountSetAndReturn
  rw [countUpVotePercentage_eq post h]

/-! ## The three vote methods, path by path -/

theorem upVoteBody_other {σ : Type} (p : PostBusinessLogic σ) (post : Post)
    (postID userID : String) (st : σ) (seen : List Vote) (v : Vote) (rest : List Vote)
    (hv : v.UserID ≠ userID) : p.upVoteBody post postID userID st seen v rest = none := by
  unfold PostBusinessLogic.upVoteBody
  rw [if_neg hv]

theorem upVoteBody_user {σ : Type} (p : PostBusinessLogic σ) (post : Post)
    (postID userID : String) (st : σ) (seen : List Vote) (v : Vote) (rest : List Vote)
    (hv : v.UserID = userID) :
    p.upVoteBody post postID userID st seen v rest
      = some (if v.Value = -1 then
          p.setAndReturn
            { post with
              Votes := seen ++ { v with Value := 1 } :: rest
              Score := post.Score + 2
              UpvotePercentage := floorPercentage (seen ++ { v with Value := 1 } :: rest) } postID st
        else (GoResult.ok post, st)) := by
  unfold PostBusinessLogic.upVoteBody
  rw [if_pos hv]
  by_cases hval : v.Value = -1
  · rw [if_pos hval, if_pos hval, recountSetAndReturn_eq]
    exact List.append_ne_nil_of_right_ne_nil _ (List.cons_ne_nil _ _)
  · rw [if_neg hval, if_neg hval]

theorem UpVote_noVote {σ : Type} (p : PostBusinessLogic σ) (postID userID : String) (st : σ)
    (post : Post) (hfind : p.PostDBRepo.GetPostByIDDB postID st = Except.ok post)
    (hno : NoVoteOf userID post.Votes) :
    p.UpVote postID userID st
      = p.setAndReturn
          { post with
            Votes := post.Votes ++ [NewVote 1 userID]
            Score := post.Score + 1
            UpvotePercentage := floorPercentage (post.Votes ++ [NewVote 1 userID]) } postID st := by
  have hloop : rangeLoop (p.upVoteBody post postID userID st) [] post.Votes = none :=
    rangeLoop_eq_none _ _ (fun x hx s r => upVoteBody_other p post postID userID st s x r (hno x hx)) []
  unfold PostBusinessLogic.UpVote PostBusinessLogic.findPostByID
  rw [hfind]
  simp only [hloop]
  rw [recountSetAndReturn_eq]
  exact List.append_ne_nil_of_right_ne_nil _ (List.cons_ne_nil _ _)

theorem UpVote_firstVote {σ : Type} (p : PostBusinessLogic σ) (postID userID : String) (st : σ)
    (post : Post) (pre : List Vote) (v : Vote) (suf : List Vote)
    (hfind : p.PostDBRepo.GetPostByIDDB postID st = Except.ok post)
    (hfirst : FirstVoteOf userID post.Votes pre v suf) :
    p.UpVote postID userID st
      = if v.Value = -1 then
          p.setAndReturn
            { post with
              Votes := pre ++ { v with Value := 1 } :: suf
              Score := post.Score + 2
              UpvotePercentage := floorPercentage (pre ++ { v with Value := 1 } :: suf) } postID st
        else (GoResult.ok post, st) := by
  obtain ⟨hsplit, hpre, hv⟩ := hfirst
  have hloop := rangeLoop_eq_some (p.upVoteBody post postID userID st) pre v suf _
    (fun y hy s t => upVoteBody_other p post postID userID st s y t (hpre y hy)) []
    (upVoteBody_user p post postID userID st ([] ++ pre) v suf hv)
  rw [← hsplit] at hloop
  unfold PostBusinessLogic.UpVote PostBusinessLogic.findPostByID
  rw [hfind]
  simp only [hloop, List.nil_append]

theorem downVoteBody_other {σ : Type} (p : PostBusinessLogic σ) (post : Post)
    (postID userID : String) (st : σ) (seen : List Vote) (v : Vote) (rest : List Vote)
    (hv : v.UserID ≠ userID) : p.downVoteBody post postID userID st seen v rest = none := by
  unfold PostBusinessLogic.downVoteBody
  rw [if_neg hv]

theorem downVoteBody_user {σ : Type} (p : PostBusinessLogic σ) (post : Post)
    (postID userID : String) (st : σ) (seen : List Vote) (v : Vote) (rest : List Vote)
    (hv : v.UserID = userID) :
    p.downVoteBody post postID userID st seen v rest
      = some (if v.Value = 1 then
          p.setAndReturn
            { post with
              Votes := seen ++ { v with Value := -1 } :: rest
              Score := post.Score - 2
              UpvotePercentage := floorPercentage (seen ++ { v with Value := -1 } :: rest) } postID st
        else (GoResult.ok post, st)) := by
  unfold PostBusinessLogic.downVoteBody
  rw [if_pos hv]
  by_cases hval : v.Value = 1
  · rw [if_pos hval, if_pos hval, recountSetAndReturn_eq]
    exact List.append_ne_nil_of_right_ne_nil _ (List.cons_ne_nil _ _)
  · rw [if_neg hval, if_neg hval]

theorem DownVote_noVote {σ : Type} (p : PostBusinessLogic σ) (postID userID : String) (st : σ)
    (post : Post) (hfind : p.PostDBRepo.GetPostByIDDB postID st = Except.ok post)
    (hno : NoVoteOf userID post.Votes) :
    p.DownVote postID userID st
      = p.setAndReturn
          { post with
            Votes := post.Votes ++ [NewVote (-1) userID]
            Score := post.Score - 1
            UpvotePercentage := floorPercentage (post.Votes ++ [NewVote (-1) userID]) } postID st := by
  have hloop : rangeLoop (p.downVoteBody post postID userID st) [] post.Votes = none :=
    rangeLoop_eq_none _ _
      (fun x hx s r => downVoteBody_other p post postID userID st s x r (hno x hx)) []
  unfold PostBusinessLogic.DownVote PostBusinessLogic.findPostByID
  rw [hfind]
  simp only [hloop]
  rw [recountSetAndReturn_eq]
  exact List.append_ne_nil_of_right_ne_nil _ (List.cons_ne_nil _ _)

theorem DownVote_firstVote {σ : Type} (p : PostBusinessLogic σ) (postID userID : String) (st : σ)
    (post : Post) (pre : List Vote) (v : Vote) (suf : List Vote)
    (hfind : p.PostDBRepo.GetPostByIDDB postID st = Except.ok post)
    (hfirst : FirstVoteOf userID post.Votes pre v suf) :
    p.DownVote postID userID st
      = if v.Value = 1 then
          p.setAndReturn
            { post with
              Votes := pre ++ { v with Value := -1 } :: suf
              Score := post.Score - 2
              UpvotePercentage := floorPercentage (pre ++ { v with Value := -1 } :: suf) } postID st
        else (GoResult.ok post, st) := by
  obtain ⟨hsplit, hpre, hv⟩ := hfirst
  have hloop := rangeLoop_eq_some (p.downVoteBody post postID userID st) pre v suf _
    (fun y hy s t => downVoteBody_other p post postID userID st s y t (hpre y hy)) []
    (downVoteBody_user p post postID userID st ([] ++ pre) v suf hv)
  rw [← hsplit] at hloop
  unfold PostBusinessLogic.DownVote PostBusinessLogic.findPostByID
  rw [hfind]
  simp only [hloop, List.nil_append]

theorem unVoteBody_other {σ : Type} (p : PostBusinessLogic σ) (post : Post)
    (postID userID : String) (st : σ) (seen : List Vote) (v : Vote) (rest : List Vote)
    (hv : v.UserID ≠ userID) : p.unVoteBody post postID userID st seen v rest = none := by
  unfold PostBusinessLogic.unVoteBody
  rw [if_neg hv]

theorem unVoteBody_user {σ : Type} (p : PostBusinessLogic σ) (post : Post)
    (postID userID : String) (st : σ) (seen : List Vote) (v : Vote) (rest : List Vote)
    (hv : v.UserID = userID) :
    p.unVoteBody post postID userID st seen v rest
      = some (p.setAndReturn
          { post with
            Votes := seen ++ rest
            Score := if seen ++ rest = [] then 0
              else if v.Value = 1 then post.Score - 1 else post.Score + 1
            UpvotePercentage := floorPercentage (seen ++ rest) } postID st) := by
  unfold PostBusinessLogic.unVoteBody
  rw [if_pos hv]
  by_cases hnil : seen ++ rest = []
  · simp only [hnil, List.length_nil, if_true, floorPercentage_nil]
  · have hlen : ¬ (seen ++ rest).length = 0 := fun h0 => hnil (List.length_eq_zero.1 h0)
    simp only [hlen, if_false, hnil]
    by_cases hval : v.Value = 1
    · rw [if_pos hval, if_pos hval, recountSetAndReturn_eq _ _ _ _ hnil]
    · rw [if_neg hval, if_neg hval, recountSetAndReturn_eq _ _ _ _ hnil]

theorem UnVote_noVote {σ : Type} (p : PostBusinessLogic σ) (postID userID : String) (st : σ)
    (post : Post) (hfind : p.PostDBRepo.GetPostByIDDB postID st = Except.ok post)
    (hno : NoVoteOf userID post.Votes) :
    p.UnVote postID userID st = (GoResult.ok post, st) := by
  have hloop : rangeLoop (p.unVoteBody post postID userID st) [] post.Votes = none :=
    rangeLoop_eq_none _ _
      (fun x hx s r => unVoteBody_other p post postID userID st s x r (hno x hx)) []
  unfold PostBusinessLogic.UnVote PostBusinessLogic.findPostByID
  rw [hfind]
  simp only [hloop]

theorem UnVote_firstVote {σ : Type} (p : PostBusinessLogic σ) (postID userID : String) (st : σ)
    (post : Post) (pre : List Vote) (v : Vote) (suf : List Vote)
    (hfind : p.PostDBRepo.GetPostByIDDB postID st = Except.ok post)
    (hfirst : FirstVoteOf userID post.Votes pre v suf) :
    p.UnVote postID userID st
      = p.setAndReturn
          { post with
            Votes := pre ++ suf
            Score := if pre ++ suf = [] then 0
              else if v.Value = 1 then post.Score - 1 else post.Score + 1
            UpvotePercentage := floorPercentage (pre ++ suf) } postID st := by
  obtain ⟨hsplit, hpre, hv⟩ := hfirst
  have hloop := rangeLoop_eq_some (p.unVoteBody post postID userID st) pre v suf _
    (fun y hy s t => unVoteBody_other p post postID userID st s y t (hpre y hy)) []
    (unVoteBody_user p post postID userID st ([] ++ pre) v suf hv)
  rw [← hsplit] at hloop
  unfold PostBusinessLogic.UnVote PostBusinessLogic.findPostByID
  rw [hfind]
  simp only [hloop, List.nil_append]

theorem UpVote_lookupError {σ : Type} (p : PostBusinessLogic σ) (postID userID : String) (st : σ)
    (err : PostError) (hfind : p.PostDBRepo.GetPostByIDDB postID st = Except.error err) :
    p.UpVote postID userID st = (GoResult.error err, st) := by
  unfold PostBusinessLogic.UpVote PostBusinessLogic.findPostByID
  rw [hfind]

theorem DownVote_lookupError {σ : Type} (p : PostBusinessLogic σ) (postID userID : String)
    (st : σ) (err : PostError)
    (hfind : p.PostDBRepo.GetPostByIDDB postID st = Except.error err) :
    p.DownVote postID userID st = (GoResult.error err, st) := by
  unfold PostBusinessLogic.DownVote PostBusinessLogic.findPostByID
  rw [hfind]

theorem UnVote_lookupError {σ : Type} (p : PostBusinessLogic σ) (postID userID : String) (st : σ)
    (err : PostError) (hfind : p.PostDBRepo.GetPostByIDDB postID st = Except.error err) :
    p.UnVote postID userID st = (GoResult.error PostError.ErrNoPost, st) := by
  unfold PostBusinessLogic.UnVote PostBusinessLogic.findPostByID
  rw [hfind]

/-! ## The outcomes of the three vote methods -/

theorem setAndReturn_ok {σ : Type} (p : PostBusinessLogic σ) (post q : Post) (postID : String)
    (st : σ) (h : (p.setAndReturn post postID st).1 = GoResult.ok q) :
    q = post ∧ (p.PostDBRepo.SetPostDB post postID st).1 = none ∧
      (p.setAndReturn post postID st).2 = (p.PostDBRepo.SetPostDB post postID st).2 := by
  rcases setAndReturn_cases p post postID st with ⟨hw, he⟩ | ⟨err, _, he⟩
  · rw [he] at h ⊢
    simp only [GoResult.ok.injEq] at h
    exact ⟨h.symm, hw, rfl⟩
  · rw [he] at h
    simp at h

theorem setAndReturn_ne_panic {σ : Type} (p : PostBusinessLogic σ) (post : Post)
    (postID : String) (st : σ) : (p.setAndReturn post postID st).1 ≠ GoResult.runtimePanic := by
  rcases setAndReturn_cases p post postID st with ⟨_, he⟩ | ⟨err, _, he⟩ <;> rw [he] <;> simp

/-- The post `UnVote` writes when it removes the vote `v` standing between
`pre` and `suf`. -/
theorem unVote_written_eq (post : Post) (pre : List Vote) (v : Vote) (suf : List Vote)
    (hval : v.Value = 1 ∨ v.Value = -1) :
    ({ post with
        Votes := pre ++ suf
        Score := if pre ++ suf = [] then 0
          else if v.Value = 1 then post.Score - 1 else post.Score + 1
        UpvotePercentage := floorPercentage (pre ++ suf) } : Post)
      = post.withRemovedVote pre v suf := by
  unfold Post.withRemovedVote
  by_cases hnil : pre ++ suf = []
  · simp only [hnil, if_true, floorPercentage_nil]
  · simp only [hnil, if_false]
    rcases hval with h1 | h1
    · simp [h1]
    · have hne : ¬ v.Value = 1 := by rw [h1]; decide
      simp only [hne, if_false, h1]
      congr 1

/-- Outcomes of a successful `UpVote`. -/
theorem UpVote_ok_cases {σ : Type} (p : PostBusinessLogic σ) (postID userID : String) (st : σ)
    (post q : Post) (hfind : p.PostDBRepo.GetPostByIDDB postID st = Except.ok post)
    (hok : (p.UpVote postID userID st).1 = GoResult.ok q) :
    (NoVoteOf userID post.Votes ∧ q = post.withAppendedVote 1 userID ∧
        (p.UpVote postID userID st).2 = (p.PostDBRepo.SetPostDB q postID st).2 ∧
        (p.PostDBRepo.SetPostDB q postID st).1 = none) ∨
    (∃ pre v suf, FirstVoteOf userID post.Votes pre v suf ∧ v.Value = -1 ∧
        q = post.withFlippedVote pre v suf 1 ∧
        (p.UpVote postID userID st).2 = (p.PostDBRepo.SetPostDB q postID st).2 ∧
        (p.PostDBRepo.SetPostDB q postID st).1 = none) ∨
    (∃ pre v suf, FirstVoteOf userID post.Votes pre v suf ∧ v.Value ≠ -1 ∧ q = post ∧
        (p.UpVote postID userID st).2 = st) := by
  rcases firstVote_cases userID post.Votes with hno | ⟨pre, v, suf, hfirst⟩
  · left
    rw [UpVote_noVote p postID userID st post hfind hno] at hok ⊢
    obtain ⟨hq, hw, hst⟩ := setAndReturn_ok p _ q postID st hok
    exact ⟨hno, hq, by rw [hst, hq], by rw [hq]; exact hw⟩
  · right
    rw [UpVote_firstVote p postID userID st post pre v suf hfind hfirst] at hok ⊢
    by_cases hval : v.Value = -1
    · left
      rw [if_pos hval] at hok ⊢
      obtain ⟨hq, hw, hst⟩ := setAndReturn_ok p _ q postID st hok
      exact ⟨pre, v, suf, hfirst, hval, hq, by rw [hst, hq], by rw [hq]; exact hw⟩
    · right
      rw [if_neg hval] at hok ⊢
      simp only [GoResult.ok.injEq] at hok
      exact ⟨pre, v, suf, hfirst, hval, hok.symm, rfl⟩

/-- Outcomes of a successful `DownVote`. -/
theorem DownVote_ok_cases {σ : Type} (p : PostBusinessLogic σ) (postID userID : String) (st : σ)
    (post q : Post) (hfind : p.PostDBRepo.GetPostByIDDB postID st = Except.ok post)
    (hok : (p.DownVote postID userID st).1 = GoResult.ok q) :
    (NoVoteOf userID post.Votes ∧ q = post.withAppendedVote (-1) userID ∧
        (p.DownVote postID userID st).2 = (p.PostDBRepo.SetPostDB q postID st).2 ∧
        (p.PostDBRepo.SetPostDB q postID st).1 = none) ∨
    (∃ pre v suf, FirstVoteOf userID post.Votes pre v suf ∧ v.Value = 1 ∧
        q = post.withFlippedVote pre v suf (-1) ∧
        (p.DownVote postID userID st).2 = (p.PostDBRepo.SetPostDB q postID st).2 ∧
        (p.PostDBRepo.SetPostDB q postID st).1 = none) ∨
    (∃ pre v suf, FirstVoteOf userID post.Votes pre v suf ∧ v.Value ≠ 1 ∧ q = post ∧
        (p.DownVote postID userID st).2 = st) := by
  rcases firstVote_cases userID post.Votes with hno | ⟨pre, v, suf, hfirst⟩
  · left
    rw [DownVote_noVote p postID userID st post hfind hno] at hok ⊢
    obtain ⟨hq, hw, hst⟩ := setAndReturn_ok p _ q postID st hok
    exact ⟨hno, hq, by rw [hst, hq], by rw [hq]; exact hw⟩
  · right
    rw [DownVote_firstVote p postID userID st post pre v suf hfind hfirst] at hok ⊢
    by_cases hval : v.Value = 1
    · left
      rw [if_pos hval] at hok ⊢
      obtain ⟨hq, hw, hst⟩ := setAndReturn_ok p _ q postID st hok
      exact ⟨pre, v, suf, hfirst, hval, hq, by rw [hst, hq], by rw [hq]; exact hw⟩
    · right
      rw [if_neg hval] at hok ⊢
      simp only [GoResult.ok.injEq] at hok
      exact ⟨pre, v, suf, hfirst, hval, hok.symm, rfl⟩

/-- Outcomes of a successful `UnVote`. -/
theorem UnVote_ok_cases {σ : Type} (p : PostBusinessLogic σ) (postID userID : String) (st : σ)
    (post q : Post) (hfind : p.PostDBRepo.GetPostByIDDB postID st = Except.ok post)
    (hok : (p.UnVote postID userID st).1 = GoResult.ok q) :
    (NoVoteOf userID post.Votes ∧ q = post ∧ (p.UnVote postID userID st).2 = st) ∨
    (∃ pre v suf, FirstVoteOf userID post.Votes pre v suf ∧
        q = { post with
              Votes := pre ++ suf
              Score := if pre ++ suf = [] then 0
                else if v.Value = 1 then post.Score - 1 else post.Score + 1
              UpvotePercentage := floorPercentage (pre ++ suf) } ∧
        (p.UnVote postID userID st).2 = (p.PostDBRepo.SetPostDB q postID st).2 ∧
        (p.PostDBRepo.SetPostDB q postID st).1 = none) := by
  rcases firstVote_cases userID post.Votes with hno | ⟨pre, v, suf, hfirst⟩
  · left
    rw [UnVote_noVote p postID userID st post hfind hno] at hok ⊢
    simp only [GoResult.ok.injEq] at hok
    exact ⟨hno, hok.symm, rfl⟩
  · right
    rw [UnVote_firstVote p postID userID st post pre v suf hfind hfirst] at hok ⊢
    obtain ⟨hq, hw, hst⟩ := setAndReturn_ok p _ q postID st hok
    exact ⟨pre, v, suf, hfirst, hq, by rw [hst, hq], by rw [hq]; exact hw⟩

theorem UpVote_ne_panic {σ : Type} (p : PostBusinessLogic σ) (postID userID : String) (st : σ) :
    (p.UpVote postID userID st).1 ≠ GoResult.runtimePanic := by
  cases hfind : p.PostDBRepo.GetPostByIDDB postID st with
  | error err => rw [UpVote_lookupError p postID userID st err hfind]; simp
  | ok post =>
    rcases firstVote_cases userID post.Votes with hno | ⟨pre, v, suf, hfirst⟩
    · rw [UpVote_noVote p postID userID st post hfind hno]
      exact setAndReturn_ne_panic p _ postID st
    · rw [UpVote_firstVote p postID userID st post pre v suf hfind hfirst]
      split
      · exact setAndReturn_ne_panic p _ postID st
      · simp

theorem DownVote_ne_panic {σ : Type} (p : PostBusinessLogic σ) (postID userID : String)
    (st : σ) : (p.DownVote postID userID st).1 ≠ GoResult.runtimePanic := by
  cases hfind : p.PostDBRepo.GetPostByIDDB postID st with
  | error err => rw [DownVote_lookupError p postID userID st err hfind]; simp
  | ok post =>
    rcases firstVote_cases userID post.Votes with hno | ⟨pre, v, suf, hfirst⟩
    · rw [DownVote_noVote p postID userID st post hfind hno]
      exact setAndReturn_ne_panic p _ postID st
    · rw [DownVote_firstVote p postID userID st post pre v suf hfind hfirst]
      split
      · exact setAndReturn_ne_panic p _ postID st
      · simp

theorem UnVote_ne_panic {σ : Type} (p : PostBusinessLogic σ) (postID userID : String) (st : σ) :
    (p.UnVote postID userID st).1 ≠ GoResult.runtimePanic := by
  cases hfind : p.PostDBRepo.GetPostByIDDB postID st with
  | error err => rw [UnVote_lookupError p postID userID st err hfind]; simp
  | ok post =>
    rcases firstVote_cases userID post.Votes with hno | ⟨pre, v, suf, hfirst⟩
    · rw [UnVote_noVote p postID userID st post hfind hno]; simp
    · rw [UnVote_firstVote p postID userID st post pre v suf hfind hfirst]
      exact setAndReturn_ne_panic p _ postID st

/-! ## AddPost -/

/-- The post a successful `AddPost` returns. -/
theorem AddPost_ok {σ : Type} (p : PostBusinessLogic σ) (created : String) (draft : Post)
    (author : User) (st : σ) (r : Post)
    (hok : (p.AddPost created draft author st).1 = GoResult.ok r) :
    r.Votes = [{ Value := 1, UserID := author.ID }] ∧ r.Score = 1 ∧ r.UpvotePercentage = 100 := by
  unfold PostBusinessLogic.AddPost at hok
  rcases hdb : p.PostDBRepo.AddPostDB
      { (if ({ draft with
                Author := author
                Votes := [{ Value := 1, UserID := author.ID }] } : Post).Type_ = "text" then
            { ({ draft with
                  Author := author
                  Votes := [{ Value := 1, UserID := author.ID }] } : Post) with URL := "" }
          else
            { ({ draft with
                  Author := author
                  Votes := [{ Value := 1, UserID := author.ID }] } : Post) with Text := "" }) with
        Views := 0, Comments := [], Created := created, UpvotePercentage := 100, Score := 1 } st
    with ⟨⟨objectID, e⟩, st'⟩
  simp only [hdb] at hok
  cases e with
  | some err => simp at hok
  | none =>
    simp only [GoResult.ok.injEq] at hok
    subst hok
    refine ⟨?_, rfl, rfl⟩
    simp only
    split <;> rfl

/-! ## Counting votes -/

theorem counts_add_eq_length (votes : List Vote) (h : ValuesPlusMinusOne votes) :
    upVoteCount votes + downVoteCount votes = votes.length := by
  induction votes with
  | nil => rfl
  | cons v rest ih =>
    have hrest : ValuesPlusMinusOne rest := fun x hx => h x (List.mem_cons_of_mem v hx)
    have ih := ih hrest
    unfold upVoteCount downVoteCount at ih ⊢
    rcases h v (List.mem_cons_self v rest) with hv | hv
    · simp [List.countP_cons, hv]; omega
    · simp [List.countP_cons, hv]; omega

theorem wellFormed_append (votes : List Vote) (s : Int) (userID : String)
    (hs : s = 1 ∨ s = -1) (hwf : WellFormedVotes votes) (hno : NoVoteOf userID votes) :
    WellFormedVotes (votes ++ [{ Value := s, UserID := userID }]) := by
  obtain ⟨hval, huniq⟩ := hwf
  refine ⟨?_, ?_⟩
  · intro x hx
    rcases List.mem_append.1 hx with hx | hx
    · exact hval x hx
    · rw [List.mem_singleton.1 hx]; exact hs
  · unfold OneVotePerUser at huniq ⊢
    rw [List.map_append, List.map_singleton]
    refine List.Nodup.append huniq (List.nodup_singleton _) ?_
    intro a ha hb
    rw [List.mem_singleton] at hb
    subst hb
    obtain ⟨x, hx, hxa⟩ := List.mem_map.1 ha
    exact hno x hx hxa

theorem wellFormed_flip (pre : List Vote) (v : Vote) (suf : List Vote) (s : Int)
    (hs : s = 1 ∨ s = -1) (hwf : WellFormedVotes (pre ++ v :: suf)) :
    WellFormedVotes (pre ++ { v with Value := s } :: suf) := by
  obtain ⟨hval, huniq⟩ := hwf
  refine ⟨?_, ?_⟩
  · intro x hx
    rcases List.mem_append.1 hx with hx | hx
    · exact hval x (List.mem_append_left _ hx)
    · rcases List.mem_cons.1 hx with hx | hx
      · rw [hx]; exact hs
      · exact hval x (List.mem_append_right _ (List.mem_cons_of_mem _ hx))
  · unfold OneVotePerUser at huniq ⊢
    simpa using huniq

theorem wellFormed_remove (pre : List Vote) (v : Vote) (suf : List Vote)
    (hwf : WellFormedVotes (pre ++ v :: suf)) : WellFormedVotes (pre ++ suf) := by
  obtain ⟨hval, huniq⟩ := hwf
  have hsub : List.Sublist (pre ++ suf) (pre ++ v :: suf) :=
    List.Sublist.append_left (List.sublist_cons_self v suf) pre
  refine ⟨fun x hx => hval x (hsub.subset hx), ?_⟩
  unfold OneVotePerUser at huniq ⊢
  exact List.Nodup.sublist (List.Sublist.map _ hsub) huniq

/-! ## One step of voting -/

/-- Every successful vote method makes one `VoteStep`. -/
theorem vote_ok_step {σ : Type} (p : PostBusinessLogic σ) (postID userID : String) (st : σ)
    (post q : Post) (hfind : p.PostDBRepo.GetPostByIDDB postID st = Except.ok post)
    (hok : (p.UpVote postID userID st).1 = GoResult.ok q ∨
      (p.DownVote postID userID st).1 = GoResult.ok q ∨
      (p.UnVote postID userID st).1 = GoResult.ok q) :
    VoteStep userID post q := by
  rcases hok with hok | hok | hok
  · rcases UpVote_ok_cases p postID userID st post q hfind hok with
      ⟨hno, hq, _⟩ | ⟨pre, v, suf, hfirst, hval, hq, _⟩ | ⟨pre, v, suf, _, _, hq, _⟩
    · rw [hq]; exact VoteStep.appended 1 (Or.inl rfl) hno
    · rw [hq]; exact VoteStep.flipped pre v suf 1 (Or.inl rfl) hfirst hval
    · rw [hq]; exact VoteStep.unchanged
  · rcases DownVote_ok_cases p postID userID st post q hfind hok with
      ⟨hno, hq, _⟩ | ⟨pre, v, suf, hfirst, hval, hq, _⟩ | ⟨pre, v, suf, _, _, hq, _⟩
    · rw [hq]; exact VoteStep.appended (-1) (Or.inr rfl) hno
    · rw [hq]; exact VoteStep.flipped pre v suf (-1) (Or.inr rfl) hfirst (by rw [hval]; rfl)
    · rw [hq]; exact VoteStep.unchanged
  · rcases UnVote_ok_cases p postID userID st post q hfind hok with
      ⟨_, hq, _⟩ | ⟨pre, v, suf, hfirst, hq, _⟩
    · rw [hq]; exact VoteStep.unchanged
    · rw [hq]; exact VoteStep.removed pre v suf hfirst

theorem step_percentage (userID : String) (post q : Post) (h : VoteStep userID post q) :
    q = post ∨ q.UpvotePercentage = floorPercentage q.Votes := by
  cases h with
  | unchanged => exact Or.inl rfl
  | appended s hs hno => exact Or.inr rfl
  | flipped pre v suf s hs hfirst hopp => exact Or.inr rfl
  | removed pre v suf hfirst => exact Or.inr rfl

theorem step_wellFormed (userID : String) (post q : Post) (h : VoteStep userID post q)
    (hwf : WellFormedVotes post.Votes) : WellFormedVotes q.Votes := by
  cases h with
  | unchanged => exact hwf
  | appended s hs hno => exact wellFormed_append post.Votes s userID hs hwf hno
  | flipped pre v suf s hs hfirst hopp =>
    have hsplit : post.Votes = pre ++ v :: suf := hfirst.1
    rw [hsplit] at hwf
    exact wellFormed_flip pre v suf s hs hwf
  | removed pre v suf hfirst =>
    have hsplit : post.Votes = pre ++ v :: suf := hfirst.1
    rw [hsplit] at hwf
    exact wellFormed_remove pre v suf hwf

theorem step_score (userID : String) (post q : Post) (h : VoteStep userID post q)
    (hval : ValuesPlusMinusOne post.Votes) (hscore : ScoreIsNetVotes post) :
    ScoreIsNetVotes q := by
  unfold ScoreIsNetVotes at hscore ⊢
  cases h with
  | unchanged => exact hscore
  | appended s hs hno =>
    simp only [Post.withAppendedVote, upVoteCount, downVoteCount, List.countP_append] at hscore ⊢
    rcases hs with rfl | rfl
    · simp [List.countP_cons, hscore]; ring
    · simp [List.countP_cons, hscore]; ring
  | flipped pre v suf s hs hfirst hopp =>
    have hsplit : post.Votes = pre ++ v :: suf := hfirst.1
    rw [hsplit] at hscore
    simp only [Post.withFlippedVote, upVoteCount, downVoteCount, List.countP_append,
      List.countP_cons] at hscore ⊢
    rcases hs with rfl | rfl
    · simp [hopp] at hscore ⊢
      rw [hscore]; ring
    · have hv1 : v.Value = 1 := by simpa using hopp
      simp [hv1] at hscore ⊢
      rw [hscore]; ring
  | removed pre v suf hfirst =>
    have hsplit : post.Votes = pre ++ v :: suf := hfirst.1
    rw [hsplit] at hscore hval
    have hv : v.Value = 1 ∨ v.Value = -1 :=
      hval v (List.mem_append_right _ (List.mem_cons_self v suf))
    by_cases hnil : pre ++ suf = []
    · simp [hnil, upVoteCount, downVoteCount]
    · simp only [hnil, if_false, upVoteCount, downVoteCount, List.countP_append,
        List.countP_cons] at hscore ⊢
      rcases hv with hv | hv
      · simp [hv] at hscore ⊢
        rw [hscore]; ring
      · simp [hv] at hscore ⊢
        rw [hscore]; ring

/-! ## Vote transitions (C1 to C5) -/

/-- C1: for a stored post and a user without a vote on it, `UpVote` (`s = 1`)
and `DownVote` (`s = -1`) with a succeeding store write return the post with
the vote `{s, user}` appended at the end of the vote list, the score raised by
`s` and the percentage recomputed from the new list; the write made is that of
the returned post. -/
theorem C1_fresh_vote_appended {σ : Type} (p : PostBusinessLogic σ) (postID userID : String)
    (st : σ) (post : Post) (s : Int)
    (hfind : p.PostDBRepo.GetPostByIDDB postID st = Except.ok post)
    (hno : NoVoteOf userID post.Votes)
    (hs : s = 1 ∨ s = -1)
    (hwrite : (p.PostDBRepo.SetPostDB (post.withAppendedVote s userID) postID st).1 = none) :
    (if s = 1 then p.UpVote postID userID st else p.DownVote postID userID st)
        = (GoResult.ok (post.withAppendedVote s userID),
            (p.PostDBRepo.SetPostDB (post.withAppendedVote s userID) postID st).2)
      ∧ countUpVotePercentage (post.withAppendedVote s userID)
        = some (post.withAppendedVote s userID).UpvotePercentage := by
  refine ⟨?_, countUpVotePercentage_eq _
    (List.append_ne_nil_of_right_ne_nil _ (List.cons_ne_nil _ _))⟩
  rcases hs with rfl | rfl
  · rw [if_pos rfl, UpVote_noVote p postID userID st post hfind hno]
    exact setAndReturn_accept p _ postID st hwrite
  · rw [if_neg (by decide), DownVote_noVote p postID userID st post hfind hno]
    exact setAndReturn_accept p _ postID st hwrite

/-- The example of C1: votes `[{+1,u1}]`, score 1; `UpVote` by `u2` gives votes
`[{+1,u1},{+1,u2}]`, score 2, percentage 100. -/
theorem C1_fresh_vote_appended_witness :
    ((if (1 : Int) = 1 then logLogic.UpVote "p" "u2" (storeOf (examplePost [⟨1, "u1"⟩] 1 100))
        else logLogic.DownVote "p" "u2" (storeOf (examplePost [⟨1, "u1"⟩] 1 100)))
        = (GoResult.ok ((examplePost [⟨1, "u1"⟩] 1 100).withAppendedVote 1 "u2"),
            (logLogic.PostDBRepo.SetPostDB ((examplePost [⟨1, "u1"⟩] 1 100).withAppendedVote 1 "u2")
              "p" (storeOf (examplePost [⟨1, "u1"⟩] 1 100))).2)
      ∧ countUpVotePercentage ((examplePost [⟨1, "u1"⟩] 1 100).withAppendedVote 1 "u2")
        = some ((examplePost [⟨1, "u1"⟩] 1 100).withAppendedVote 1 "u2").UpvotePercentage)
    ∧ (logLogic.UpVote "p" "u2" (storeOf (examplePost [⟨1, "u1"⟩] 1 100))).1
        = GoResult.ok (examplePost [⟨1, "u1"⟩, ⟨1, "u2"⟩] 2 100) :=
  ⟨C1_fresh_vote_appended logLogic "p" "u2" (storeOf (examplePost [⟨1, "u1"⟩] 1 100))
      (examplePost [⟨1, "u1"⟩] 1 100) 1 rfl (by decide) (Or.inl rfl) rfl,
    by decide⟩

/-- C2: for a stored post and a user whose located (first) vote has the value
opposite to `s`, `UpVote` (`s = 1`) and `DownVote` (`s = -1`) with a succeeding
store write return the post with that vote set to `s` at the same position,
every other vote and the length of the list unchanged, the score changed by
`2 * s` and the percentage recomputed from the new list. -/
theorem C2_opposite_vote_flipped {σ : Type} (p : PostBusinessLogic σ) (postID userID : String)
    (st : σ) (post : Post) (pre : List Vote) (v : Vote) (suf : List Vote) (s : Int)
    (hfind : p.PostDBRepo.GetPostByIDDB postID st = Except.ok post)
    (hfirst : FirstVoteOf userID post.Votes pre v suf)
    (hs : s = 1 ∨ s = -1)
    (hopp : v.Value = -s)
    (hwrite : (p.PostDBRepo.SetPostDB (post.withFlippedVote pre v suf s) postID st).1 = none) :
    (if s = 1 then p.UpVote postID userID st else p.DownVote postID userID st)
        = (GoResult.ok (post.withFlippedVote pre v suf s),
            (p.PostDBRepo.SetPostDB (post.withFlippedVote pre v suf s) postID st).2)
      ∧ (post.withFlippedVote pre v suf s).Votes.length = post.Votes.length
      ∧ (post.withFlippedVote pre v suf s).Votes[pre.length]?
          = some { Value := s, UserID := userID }
      ∧ (∀ i : Nat, i ≠ pre.length →
          (post.withFlippedVote pre v suf s).Votes[i]? = post.Votes[i]?)
      ∧ (post.withFlippedVote pre v suf s).Score = post.Score + 2 * s
      ∧ countUpVotePercentage (post.withFlippedVote pre v suf s)
          = some (post.withFlippedVote pre v suf s).UpvotePercentage := by
  have hsplit : post.Votes = pre ++ v :: suf := hfirst.1
  have huser : v.UserID = userID := hfirst.2.2
  refine ⟨?_, ?_, ?_, ?_, rfl, countUpVotePercentage_eq _
    (List.append_ne_nil_of_right_ne_nil _ (List.cons_ne_nil _ _))⟩
  · rcases hs with rfl | rfl
    · rw [if_pos rfl, UpVote_firstVote p postID userID st post pre v suf hfind hfirst,
        if_pos hopp]
      exact setAndReturn_accept p _ postID st hwrite
    · have hv1 : v.Value = 1 := by simpa using hopp
      rw [if_neg (by decide), DownVote_firstVote p postID userID st post pre v suf hfind hfirst,
        if_pos hv1]
      exact setAndReturn_accept p _ postID st hwrite
  · simp [Post.withFlippedVote, hsplit]
  · simp only [Post.withFlippedVote, huser]
    rw [List.getElem?_append_right (Nat.le_refl _), Nat.sub_self, List.getElem?_cons_zero]
  · intro i hi
    rw [hsplit]
    simp only [Post.withFlippedVote]
    rcases Nat.lt_or_gt_of_ne hi with hlt | hgt
    · rw [List.getElem?_append_left hlt, List.getElem?_append_left hlt]
    · have hle : pre.length ≤ i := Nat.le_of_lt hgt
      rw [List.getElem?_append_right hle, List.getElem?_append_right hle]
      obtain ⟨k, hk⟩ : ∃ k, i - pre.length = k + 1 := ⟨i - pre.length - 1, by omega⟩
      rw [hk, List.getElem?_cons_succ, List.getElem?_cons_succ]

/-- An instance of C2: votes `[{+1,u1},{-1,u2}]`, score 0; `UpVote` by `u2`
gives votes `[{+1,u1},{+1,u2}]`, score 2, percentage 100. -/
theorem C2_opposite_vote_flipped_witness :
    (logLogic.UpVote "p" "u2" (storeOf (examplePost [⟨1, "u1"⟩, ⟨-1, "u2"⟩] 0 50))
        = (GoResult.ok
            ((examplePost [⟨1, "u1"⟩, ⟨-1, "u2"⟩] 0 50).withFlippedVote [⟨1, "u1"⟩] ⟨-1, "u2"⟩ [] 1),
            (logLogic.PostDBRepo.SetPostDB
              ((examplePost [⟨1, "u1"⟩, ⟨-1, "u2"⟩] 0 50).withFlippedVote [⟨1, "u1"⟩] ⟨-1, "u2"⟩ [] 1)
              "p" (storeOf (examplePost [⟨1, "u1"⟩, ⟨-1, "u2"⟩] 0 50))).2))
    ∧ (logLogic.UpVote "p" "u2" (storeOf (examplePost [⟨1, "u1"⟩, ⟨-1, "u2"⟩] 0 50))).1
        = GoResult.ok (examplePost [⟨1, "u1"⟩, ⟨1, "u2"⟩] 2 100) :=
  ⟨(C2_opposite_vote_flipped logLogic "p" "u2" (storeOf (examplePost [⟨1, "u1"⟩, ⟨-1, "u2"⟩] 0 50))
      (examplePost [⟨1, "u1"⟩, ⟨-1, "u2"⟩] 0 50) [⟨1, "u1"⟩] ⟨-1, "u2"⟩ [] 1 rfl (by decide)
      (Or.inl rfl) rfl rfl).1,
    by decide⟩

/-- C3: for a stored post and a user whose located (first) vote already has the
value `s`, `UpVote` (`s = 1`) and `DownVote` (`s = -1`) return the post equal in
every field, with no error, and leave the store as it was; this holds for any
repository answering the lookup in the same way, whatever its `SetPostDB` would
do, so no store write is made. -/
theorem C3_same_vote_unchanged {σ : Type} (p : PostBusinessLogic σ) (postID userID : String)
    (st : σ) (post : Post) (pre : List Vote) (v : Vote) (suf : List Vote) (s : Int)
    (hfind : p.PostDBRepo.GetPostByIDDB postID st = Except.ok post)
    (hfirst : FirstVoteOf userID post.Votes pre v suf)
    (hs : s = 1 ∨ s = -1)
    (hsame : v.Value = s) :
    (if s = 1 then p.UpVote postID userID st else p.DownVote postID userID st)
        = (GoResult.ok post, st)
      ∧ ∀ p' : PostBusinessLogic σ,
          p'.PostDBRepo.GetPostByIDDB = p.PostDBRepo.GetPostByIDDB →
          (if s = 1 then p'.UpVote postID userID st else p'.DownVote postID userID st)
            = (GoResult.ok post, st) := by
  have key : ∀ p' : PostBusinessLogic σ,
      p'.PostDBRepo.GetPostByIDDB postID st = Except.ok post →
      (if s = 1 then p'.UpVote postID userID st else p'.DownVote postID userID st)
        = (GoResult.ok post, st) := by
    intro p' hfind'
    rcases hs with rfl | rfl
    · rw [if_pos rfl, UpVote_firstVote p' postID userID st post pre v suf hfind' hfirst,
        if_neg (by rw [hsame]; decide)]
    · rw [if_neg (by decide), DownVote_firstVote p' postID userID st post pre v suf hfind' hfirst,
        if_neg (by rw [hsame]; decide)]
  exact ⟨key p hfind, fun p' hp' => key p' (by rw [hp']; exact hfind)⟩

/-- The case of the tests of C3: the post already carries the upvote of
`user_id`; the accepting and the refusing store give the same answer and keep
their log. -/
theorem C3_same_vote_unchanged_witness :
    (logLogic.UpVote "p" "user_id" (storeOf (examplePost [⟨1, "user_id"⟩] 1 100))
        = (GoResult.ok (examplePost [⟨1, "user_id"⟩] 1 100),
            storeOf (examplePost [⟨1, "user_id"⟩] 1 100)))
    ∧ (refusingLogic.UpVote "p" "user_id" (storeOf (examplePost [⟨1, "user_id"⟩] 1 100))
        = (GoResult.ok (examplePost [⟨1, "user_id"⟩] 1 100),
            storeOf (examplePost [⟨1, "user_id"⟩] 1 100))) :=
  ⟨(C3_same_vote_unchanged logLogic "p" "user_id" (storeOf (examplePost [⟨1, "user_id"⟩] 1 100))
      (examplePost [⟨1, "user_id"⟩] 1 100) [] ⟨1, "user_id"⟩ [] 1 rfl (by decide)
      (Or.inl rfl) rfl).1,
    (C3_same_vote_unchanged logLogic "p" "user_id" (storeOf (examplePost [⟨1, "user_id"⟩] 1 100))
      (examplePost [⟨1, "user_id"⟩] 1 100) [] ⟨1, "user_id"⟩ [] 1 rfl (by decide)
      (Or.inl rfl) rfl).2 refusingLogic rfl⟩

/-- C4: for a stored post and a user whose located (first) vote is `v`, with
`v.Value` in `{+1, -1}`, `UnVote` with a succeeding store write returns the post
with `v` removed and the other votes in their order; when votes remain the
score is the old score less `v.Value` and the percentage is recomputed from the
remaining list, and when none remains score and percentage are `0`. -/
theorem C4_unvote_removes_vote {σ : Type} (p : PostBusinessLogic σ) (postID userID : String)
    (st : σ) (post : Post) (pre : List Vote) (v : Vote) (suf : List Vote)
    (hfind : p.PostDBRepo.GetPostByIDDB postID st = Except.ok post)
    (hfirst : FirstVoteOf userID post.Votes pre v suf)
    (hval : v.Value = 1 ∨ v.Value = -1)
    (hwrite : (p.PostDBRepo.SetPostDB (post.withRemovedVote pre v suf) postID st).1 = none) :
    p.UnVote postID userID st
        = (GoResult.ok (post.withRemovedVote pre v suf),
            (p.PostDBRepo.SetPostDB (post.withRemovedVote pre v suf) postID st).2)
      ∧ (post.withRemovedVote pre v suf).Votes = pre ++ suf
      ∧ (pre ++ suf ≠ [] →
          (post.withRemovedVote pre v suf).Score = post.Score - v.Value ∧
          (post.withRemovedVote pre v suf).UpvotePercentage = floorPercentage (pre ++ suf) ∧
          countUpVotePercentage (post.withRemovedVote pre v suf)
            = some (post.withRemovedVote pre v suf).UpvotePercentage)
      ∧ (pre ++ suf = [] →
          (post.withRemovedVote pre v suf).Score = 0 ∧
          (post.withRemovedVote pre v suf).UpvotePercentage = 0) := by
  refine ⟨?_, rfl, ?_, ?_⟩
  · rw [UnVote_firstVote p postID userID st post pre v suf hfind hfirst,
      unVote_written_eq post pre v suf hval]
    exact setAndReturn_accept p _ postID st hwrite
  · intro hne
    have hpct : (post.withRemovedVote pre v suf).UpvotePercentage
        = floorPercentage (pre ++ suf) := by
      simp only [Post.withRemovedVote, hne, if_false]
    refine ⟨by simp only [Post.withRemovedVote, hne, if_false], hpct, ?_⟩
    rw [hpct]
    exact countUpVotePercentage_eq (post.withRemovedVote pre v suf) hne
  · intro hnil
    simp only [Post.withRemovedVote, hnil, if_true, and_self]

/-- The example of C4: votes `[{+1,u1},{-1,u2}]`, score 0, percentage 50;
`UnVote` by `u2` gives votes `[{+1,u1}]`, score 1, percentage 100. -/
theorem C4_unvote_removes_vote_witness :
    (logLogic.UnVote "p" "u2" (storeOf (examplePost [⟨1, "u1"⟩, ⟨-1, "u2"⟩] 0 50))
        = (GoResult.ok
            ((examplePost [⟨1, "u1"⟩, ⟨-1, "u2"⟩] 0 50).withRemovedVote [⟨1, "u1"⟩] ⟨-1, "u2"⟩ []),
            (logLogic.PostDBRepo.SetPostDB
              ((examplePost [⟨1, "u1"⟩, ⟨-1, "u2"⟩] 0 50).withRemovedVote [⟨1, "u1"⟩] ⟨-1, "u2"⟩ [])
              "p" (storeOf (examplePost [⟨1, "u1"⟩, ⟨-1, "u2"⟩] 0 50))).2))
    ∧ (logLogic.UnVote "p" "u2" (storeOf (examplePost [⟨1, "u1"⟩, ⟨-1, "u2"⟩] 0 50))).1
        = GoResult.ok (examplePost [⟨1, "u1"⟩] 1 100) :=
  ⟨(C4_unvote_removes_vote logLogic "p" "u2"
      (storeOf (examplePost [⟨1, "u1"⟩, ⟨-1, "u2"⟩] 0 50))
      (examplePost [⟨1, "u1"⟩, ⟨-1, "u2"⟩] 0 50) [⟨1, "u1"⟩] ⟨-1, "u2"⟩ [] rfl (by decide)
      (Or.inr rfl) rfl).1,
    by decide⟩

/-- C5: for a stored post and a user without a vote on it, `UnVote` returns the
post equal in every field, with no error, and leaves the store as it was; this
holds for any repository answering the lookup in the same way, whatever its
`SetPostDB` would do, so no store write is made. -/
theorem C5_unvote_without_vote {σ : Type} (p : PostBusinessLogic σ) (postID userID : String)
    (st : σ) (post : Post)
    (hfind : p.PostDBRepo.GetPostByIDDB postID st = Except.ok post)
    (hno : NoVoteOf userID post.Votes) :
    p.UnVote postID userID st = (GoResult.ok post, st)
      ∧ ∀ p' : PostBusinessLogic σ,
          p'.PostDBRepo.GetPostByIDDB = p.PostDBRepo.GetPostByIDDB →
          p'.UnVote postID userID st = (GoResult.ok post, st) :=
  ⟨UnVote_noVote p postID userID st post hfind hno,
    fun p' hp' => UnVote_noVote p' postID userID st post (by rw [hp']; exact hfind) hno⟩

/-- The case of the tests of C5: the only vote is that of `user_id`, and
`user_id_another` unvotes; the accepting and the refusing store give the same
answer and keep their log. -/
theorem C5_unvote_without_vote_witness :
    (logLogic.UnVote "p" "user_id_another" (storeOf (examplePost [⟨1, "user_id"⟩] 1 100))
        = (GoResult.ok (examplePost [⟨1, "user_id"⟩] 1 100),
            storeOf (examplePost [⟨1, "user_id"⟩] 1 100)))
    ∧ (refusingLogic.UnVote "p" "user_id_another" (storeOf (examplePost [⟨1, "user_id"⟩] 1 100))
        = (GoResult.ok (examplePost [⟨1, "user_id"⟩] 1 100),
            storeOf (examplePost [⟨1, "user_id"⟩] 1 100))) :=
  ⟨(C5_unvote_without_vote logLogic "p" "user_id_another"
      (storeOf (examplePost [⟨1, "user_id"⟩] 1 100))
      (examplePost [⟨1, "user_id"⟩] 1 100) rfl (by decide)).1,
    (C5_unvote_without_vote logLogic "p" "user_id_another"
      (storeOf (examplePost [⟨1, "user_id"⟩] 1 100))
      (examplePost [⟨1, "user_id"⟩] 1 100) rfl (by decide)).2 refusingLogic rfl⟩

/-! ## Percentage, well-formedness, score and idempotence (C6 to C10) -/

/-- C6: no path of `UpVote`, `DownVote` or `UnVote` divides by zero in
`countUpVotePercentage`, whatever the store answers; and whenever one of them
returns a post whose vote list differs from the stored one, its
`UpvotePercentage` is `floor(100 * upvotes / votes)` of the returned list when
that list is not empty, and `0` when it is empty. -/
theorem C6_percentage_is_floor {σ : Type} (p : PostBusinessLogic σ) (postID userID : String)
    (st : σ) :
    ((p.UpVote postID userID st).1 ≠ GoResult.runtimePanic ∧
      (p.DownVote postID userID st).1 ≠ GoResult.runtimePanic ∧
      (p.UnVote postID userID st).1 ≠ GoResult.runtimePanic)
    ∧ ∀ post q : Post, p.PostDBRepo.GetPostByIDDB postID st = Except.ok post →
        ((p.UpVote postID userID st).1 = GoResult.ok q ∨
          (p.DownVote postID userID st).1 = GoResult.ok q ∨
          (p.UnVote postID userID st).1 = GoResult.ok q) →
        q.Votes ≠ post.Votes →
        (q.Votes ≠ [] →
          q.UpvotePercentage
            = Int.floor (((100 * upVoteCount q.Votes : Nat) : ℚ) / ((q.Votes.length : Nat) : ℚ)))
        ∧ (q.Votes = [] → q.UpvotePercentage = 0) := by
  refine ⟨⟨UpVote_ne_panic p postID userID st, DownVote_ne_panic p postID userID st,
    UnVote_ne_panic p postID userID st⟩, ?_⟩
  intro post q hfind hok hchanged
  have hstep := vote_ok_step p postID userID st post q hfind hok
  rcases step_percentage userID post q hstep with hq | hpct
  · exact absurd (by rw [hq]) hchanged
  · refine ⟨?_, ?_⟩
    · intro hne
      have hlen : ¬ q.Votes.length = 0 := fun h0 => hne (List.length_eq_zero.1 h0)
      rw [hpct, floorPercentage, if_neg hlen]
    · intro hnil
      rw [hpct, hnil, floorPercentage_nil]

/-- An instance of C6: votes `[{+1,u1},{-1,u2}]` and `DownVote` by `u3`; the
returned percentage `33` is the floor of `100 * 1 / 3`. -/
theorem C6_percentage_is_floor_witness :
    ((examplePost [⟨1, "u1"⟩, ⟨-1, "u2"⟩, ⟨-1, "u3"⟩] (-1) 33).Votes ≠ [] →
        (examplePost [⟨1, "u1"⟩, ⟨-1, "u2"⟩, ⟨-1, "u3"⟩] (-1) 33).UpvotePercentage
          = Int.floor
              (((100 * upVoteCount (examplePost [⟨1, "u1"⟩, ⟨-1, "u2"⟩, ⟨-1, "u3"⟩] (-1) 33).Votes
                  : Nat) : ℚ)
                / (((examplePost [⟨1, "u1"⟩, ⟨-1, "u2"⟩, ⟨-1, "u3"⟩] (-1) 33).Votes.length
                  : Nat) : ℚ)))
      ∧ ((examplePost [⟨1, "u1"⟩, ⟨-1, "u2"⟩, ⟨-1, "u3"⟩] (-1) 33).Votes = [] →
        (examplePost [⟨1, "u1"⟩, ⟨-1, "u2"⟩, ⟨-1, "u3"⟩] (-1) 33).UpvotePercentage = 0) :=
  (C6_percentage_is_floor logLogic "p" "u3"
      (storeOf (examplePost [⟨1, "u1"⟩, ⟨-1, "u2"⟩] 0 50))).2
    (examplePost [⟨1, "u1"⟩, ⟨-1, "u2"⟩] 0 50)
    (examplePost [⟨1, "u1"⟩, ⟨-1, "u2"⟩, ⟨-1, "u3"⟩] (-1) 33)
    rfl (Or.inr (Or.inl (by decide))) (by decide)

/-- C7 as stated fails at a stored post that has no vote and a percentage
other than `0`: the post has no vote and percentage `50`, within `[0, 100]`;
`UnVote` finds no vote of the user and returns the stored post as it is, with
no vote and percentage `50`, not `0`. -/
theorem C7_empty_post_counterexample :
    (examplePost [] 0 50).Votes = []
    ∧ (0 ≤ (examplePost [] 0 50).UpvotePercentage ∧ (examplePost [] 0 50).UpvotePercentage ≤ 100)
    ∧ (exampleLogic logCollection).UnVote "654f63e3a2414a2a554b6423" "user_id"
          (mongoStoreOf (examplePost [] 0 50))
        = (GoResult.ok (examplePost [] 0 50), mongoStoreOf (examplePost [] 0 50))
    ∧ ∀ q : Post,
        ((exampleLogic logCollection).UnVote "654f63e3a2414a2a554b6423" "user_id"
            (mongoStoreOf (examplePost [] 0 50))).1 = GoResult.ok q →
        q.Votes = [] ∧ q.UpvotePercentage = 50 ∧ q.UpvotePercentage ≠ 0 := by
  refine ⟨rfl, by decide, by decide, ?_⟩
  intro q hq
  have hcall : ((exampleLogic logCollection).UnVote "654f63e3a2414a2a554b6423" "user_id"
      (mongoStoreOf (examplePost [] 0 50))).1 = GoResult.ok (examplePost [] 0 50) := by decide
  rw [hcall] at hq
  injection hq with hq
  subst hq
  exact ⟨rfl, rfl, by decide⟩

/-- C7, amended: a successful `AddPost` returns percentage `100`; and if the
stored post has its `UpvotePercentage` in `[0, 100]`, so has the post returned
by a successful `UpVote`, `DownVote` or `UnVote`, and when no vote remains in
the returned post its percentage is `0`, given that the stored post had
percentage `0` if it had no vote already (a condition that holds of every
stored post that has a vote, so whenever the operation removed the last one). -/
theorem C7_percentage_in_range {σ : Type} (p : PostBusinessLogic σ) :
    (∀ (created : String) (draft : Post) (author : User) (st0 : σ) (r : Post),
        (p.AddPost created draft author st0).1 = GoResult.ok r → r.UpvotePercentage = 100)
    ∧ ∀ (postID userID : String) (st : σ) (post q : Post),
        p.PostDBRepo.GetPostByIDDB postID st = Except.ok post →
        (0 ≤ post.UpvotePercentage ∧ post.UpvotePercentage ≤ 100) →
        ((p.UpVote postID userID st).1 = GoResult.ok q ∨
          (p.DownVote postID userID st).1 = GoResult.ok q ∨
          (p.UnVote postID userID st).1 = GoResult.ok q) →
        (0 ≤ q.UpvotePercentage ∧ q.UpvotePercentage ≤ 100)
        ∧ (q.Votes = [] → (post.Votes = [] → post.UpvotePercentage = 0) →
            q.UpvotePercentage = 0) := by
  refine ⟨fun created draft author st0 r hr =>
    (AddPost_ok p created draft author st0 r hr).2.2, ?_⟩
  intro postID userID st post q hfind hrange hok
  have hstep := vote_ok_step p postID userID st post q hfind hok
  refine ⟨?_, ?_⟩
  · rcases step_percentage userID post q hstep with hq | hpct
    · rw [hq]; exact hrange
    · rw [hpct]; exact ⟨floorPercentage_nonneg _, floorPercentage_le _⟩
  · intro hnil hpost
    rcases step_percentage userID post q hstep with hq | hpct
    · rw [hq] at hnil ⊢; exact hpost hnil
    · rw [hpct, hnil, floorPercentage_nil]

/-- An instance of C7: the last vote of the post is removed by `UnVote`; the
returned percentage is within range, and it is `0`. -/
theorem C7_percentage_in_range_witness :
    ((0 : Int) ≤ (examplePost [] 0 0).UpvotePercentage ∧
        (examplePost [] 0 0).UpvotePercentage ≤ 100)
    ∧ (examplePost [] 0 0).UpvotePercentage = 0 :=
  ⟨((C7_percentage_in_range logLogic).2 "p" "user_id"
      (storeOf (examplePost [⟨1, "user_id"⟩] 1 100))
      (examplePost [⟨1, "user_id"⟩] 1 100) (examplePost [] 0 0) rfl (by decide)
      (Or.inr (Or.inr (by decide)))).1,
    ((C7_percentage_in_range logLogic).2 "p" "user_id"
      (storeOf (examplePost [⟨1, "user_id"⟩] 1 100))
      (examplePost [⟨1, "user_id"⟩] 1 100) (examplePost [] 0 0) rfl (by decide)
      (Or.inr (Or.inr (by decide)))).2 rfl (by decide)⟩

/-- C8: the post of a successful `AddPost` has every vote value in `{+1, -1}`
and no two votes of one user; and if the stored post has these two properties,
the post returned by a successful `UpVote`, `DownVote` or `UnVote` of any user
has them too, so that its upvotes and downvotes together are all its votes. -/
theorem C8_votes_wellFormed_invariant {σ : Type} (p : PostBusinessLogic σ) :
    (∀ (created : String) (draft : Post) (author : User) (st0 : σ) (r : Post),
        (p.AddPost created draft author st0).1 = GoResult.ok r →
        WellFormedVotes r.Votes ∧ upVoteCount r.Votes + downVoteCount r.Votes = r.Votes.length)
    ∧ ∀ (postID userID : String) (st : σ) (post q : Post),
        p.PostDBRepo.GetPostByIDDB postID st = Except.ok post →
        WellFormedVotes post.Votes →
        ((p.UpVote postID userID st).1 = GoResult.ok q ∨
          (p.DownVote postID userID st).1 = GoResult.ok q ∨
          (p.UnVote postID userID st).1 = GoResult.ok q) →
        WellFormedVotes q.Votes ∧ upVoteCount q.Votes + downVoteCount q.Votes = q.Votes.length := by
  refine ⟨?_, ?_⟩
  · intro created draft author st0 r hr
    have hvotes := (AddPost_ok p created draft author st0 r hr).1
    have hwf : WellFormedVotes r.Votes := by
      rw [hvotes]
      refine ⟨?_, ?_⟩
      · intro x hx
        rw [List.mem_singleton.1 hx]
        exact Or.inl rfl
      · unfold OneVotePerUser
        simp
    exact ⟨hwf, counts_add_eq_length _ hwf.1⟩
  · intro postID userID st post q hfind hwf hok
    have hq := step_wellFormed userID post q (vote_ok_step p postID userID st post q hfind hok) hwf
    exact ⟨hq, counts_add_eq_length _ hq.1⟩

/-- An instance of C8: `DownVote` by `u2` on the post with votes
`[{+1,u1},{+1,u2}]` returns the well-formed list `[{+1,u1},{-1,u2}]`. -/
theorem C8_votes_wellFormed_invariant_witness :
    WellFormedVotes (examplePost [⟨1, "u1"⟩, ⟨-1, "u2"⟩] 0 50).Votes ∧
      upVoteCount (examplePost [⟨1, "u1"⟩, ⟨-1, "u2"⟩] 0 50).Votes
        + downVoteCount (examplePost [⟨1, "u1"⟩, ⟨-1, "u2"⟩] 0 50).Votes
        = (examplePost [⟨1, "u1"⟩, ⟨-1, "u2"⟩] 0 50).Votes.length :=
  (C8_votes_wellFormed_invariant logLogic).2 "p" "u2"
    (storeOf (examplePost [⟨1, "u1"⟩, ⟨1, "u2"⟩] 2 100))
    (examplePost [⟨1, "u1"⟩, ⟨1, "u2"⟩] 2 100) (examplePost [⟨1, "u1"⟩, ⟨-1, "u2"⟩] 0 50)
    rfl (by decide) (Or.inr (Or.inl (by decide)))

/-- C9: the post of a successful `AddPost` has its score equal to its upvotes
minus its downvotes; and if the stored post has all vote values in `{+1, -1}`
and has this equation, the post returned by a successful `UpVote`, `DownVote`
or `UnVote` has it too (one vote per user is not needed for this step). -/
theorem C9_score_is_net_votes {σ : Type} (p : PostBusinessLogic σ) :
    (∀ (created : String) (draft : Post) (author : User) (st0 : σ) (r : Post),
        (p.AddPost created draft author st0).1 = GoResult.ok r → ScoreIsNetVotes r)
    ∧ ∀ (postID userID : String) (st : σ) (post q : Post),
        p.PostDBRepo.GetPostByIDDB postID st = Except.ok post →
        ValuesPlusMinusOne post.Votes →
        ScoreIsNetVotes post →
        ((p.UpVote postID userID st).1 = GoResult.ok q ∨
          (p.DownVote postID userID st).1 = GoResult.ok q ∨
          (p.UnVote postID userID st).1 = GoResult.ok q) →
        ScoreIsNetVotes q := by
  refine ⟨?_, ?_⟩
  · intro created draft author st0 r hr
    obtain ⟨hvotes, hscore, _⟩ := AddPost_ok p created draft author st0 r hr
    unfold ScoreIsNetVotes
    rw [hvotes, hscore]
    simp [upVoteCount, downVoteCount]
  · intro postID userID st post q hfind hval hscore hok
    exact step_score userID post q (vote_ok_step p postID userID st post q hfind hok) hval hscore

/-- An instance of C9: `UnVote` by `u2` on votes `[{+1,u1},{-1,u2}]`, score 0,
returns votes `[{+1,u1}]` with score 1. -/
theorem C9_score_is_net_votes_witness :
    ScoreIsNetVotes (examplePost [⟨1, "u1"⟩] 1 100) :=
  (C9_score_is_net_votes logLogic).2 "p" "u2"
    (storeOf (examplePost [⟨1, "u1"⟩, ⟨-1, "u2"⟩] 0 50))
    (examplePost [⟨1, "u1"⟩, ⟨-1, "u2"⟩] 0 50) (examplePost [⟨1, "u1"⟩] 1 100)
    rfl (by decide) (by decide) (Or.inr (Or.inr (by decide)))

/-- After a successful `UpVote` the located vote of the user is not a downvote. -/
theorem UpVote_ok_located {σ : Type} (p : PostBusinessLogic σ) (postID userID : String) (st : σ)
    (post q : Post) (hfind : p.PostDBRepo.GetPostByIDDB postID st = Except.ok post)
    (hok : (p.UpVote postID userID st).1 = GoResult.ok q) :
    ∃ pre v suf, FirstVoteOf userID q.Votes pre v suf ∧ v.Value ≠ -1 := by
  rcases UpVote_ok_cases p postID userID st post q hfind hok with
    ⟨hno, hq, _⟩ | ⟨pre, v, suf, hfirst, _, hq, _⟩ | ⟨pre, v, suf, hfirst, hval, hq, _⟩
  · exact ⟨post.Votes, ⟨1, userID⟩, [], ⟨by rw [hq]; rfl, ⟨hno, rfl⟩⟩,
      by show (1 : Int) ≠ -1; decide⟩
  · exact ⟨pre, { v with Value := 1 }, suf, ⟨by rw [hq]; rfl, ⟨hfirst.2.1, hfirst.2.2⟩⟩,
      by show (1 : Int) ≠ -1; decide⟩
  · exact ⟨pre, v, suf, by rw [hq]; exact hfirst, hval⟩

/-- After a successful `DownVote` the located vote of the user is not an upvote. -/
theorem DownVote_ok_located {σ : Type} (p : PostBusinessLogic σ) (postID userID : String)
    (st : σ) (post q : Post) (hfind : p.PostDBRepo.GetPostByIDDB postID st = Except.ok post)
    (hok : (p.DownVote postID userID st).1 = GoResult.ok q) :
    ∃ pre v suf, FirstVoteOf userID q.Votes pre v suf ∧ v.Value ≠ 1 := by
  rcases DownVote_ok_cases p postID userID st post q hfind hok with
    ⟨hno, hq, _⟩ | ⟨pre, v, suf, hfirst, _, hq, _⟩ | ⟨pre, v, suf, hfirst, hval, hq, _⟩
  · exact ⟨post.Votes, ⟨-1, userID⟩, [], ⟨by rw [hq]; rfl, ⟨hno, rfl⟩⟩,
      by show (-1 : Int) ≠ 1; decide⟩
  · exact ⟨pre, { v with Value := -1 }, suf, ⟨by rw [hq]; rfl, ⟨hfirst.2.1, hfirst.2.2⟩⟩,
      by show (-1 : Int) ≠ 1; decide⟩
  · exact ⟨pre, v, suf, by rw [hq]; exact hfirst, hval⟩

/-- C10: `UpVote` is idempotent, and so is `DownVote`: if the call on a stored
post returns the post `q` and the store `st1`, and the store has persisted the
write, so that the lookup on `st1` returns `q`, then the same call on `st1`
returns `q` again, equal in every field (score, percentage and vote list among
them), and leaves `st1` as it is. -/
theorem C10_vote_idempotent {σ : Type} (p : PostBusinessLogic σ) (postID userID : String)
    (st : σ) (post : Post)
    (hfind : p.PostDBRepo.GetPostByIDDB postID st = Except.ok post) :
    (∀ (q : Post) (st1 : σ), p.UpVote postID userID st = (GoResult.ok q, st1) →
        p.PostDBRepo.GetPostByIDDB postID st1 = Except.ok q →
        p.UpVote postID userID st1 = (GoResult.ok q, st1))
    ∧ (∀ (q : Post) (st1 : σ), p.DownVote postID userID st = (GoResult.ok q, st1) →
        p.PostDBRepo.GetPostByIDDB postID st1 = Except.ok q →
        p.DownVote postID userID st1 = (GoResult.ok q, st1)) := by
  refine ⟨?_, ?_⟩
  · intro q st1 hcall hfind1
    have hok : (p.UpVote postID userID st).1 = GoResult.ok q := by rw [hcall]
    obtain ⟨pre, v, suf, hfirst, hval⟩ := UpVote_ok_located p postID userID st post q hfind hok
    rw [UpVote_firstVote p postID userID st1 q pre v suf hfind1 hfirst, if_neg hval]
  · intro q st1 hcall hfind1
    have hok : (p.DownVote postID userID st).1 = GoResult.ok q := by rw [hcall]
    obtain ⟨pre, v, suf, hfirst, hval⟩ := DownVote_ok_located p postID userID st post q hfind hok
    rw [DownVote_firstVote p postID userID st1 q pre v suf hfind1 hfirst, if_neg hval]

/-- An instance of C10 over `PostDBRepo` and the collection of the examples: on
votes `[{+1,u1}]`, score 1, the first `UpVote` by `u2` writes the post with
votes `[{+1,u1},{+1,u2}]`, score 2, percentage 100, which the lookup then
returns; the second `UpVote` returns the same post and writes nothing. -/
theorem C10_vote_idempotent_witness :
    (exampleLogic logCollection).UpVote "654f63e3a2414a2a554b6423" "u2"
        [("654f63e3a2414a2a554b6423", examplePost [⟨1, "u1"⟩, ⟨1, "u2"⟩] 2 100),
          ("654f63e3a2414a2a554b6423", examplePost [⟨1, "u1"⟩] 1 100)]
      = (GoResult.ok (examplePost [⟨1, "u1"⟩, ⟨1, "u2"⟩] 2 100),
          [("654f63e3a2414a2a554b6423", examplePost [⟨1, "u1"⟩, ⟨1, "u2"⟩] 2 100),
            ("654f63e3a2414a2a554b6423", examplePost [⟨1, "u1"⟩] 1 100)]) :=
  (C10_vote_idempotent (exampleLogic logCollection) "654f63e3a2414a2a554b6423" "u2"
      (mongoStoreOf (examplePost [⟨1, "u1"⟩] 1 100)) (examplePost [⟨1, "u1"⟩] 1 100) rfl).1
    (examplePost [⟨1, "u1"⟩, ⟨1, "u2"⟩] 2 100)
    [("654f63e3a2414a2a554b6423", examplePost [⟨1, "u1"⟩, ⟨1, "u2"⟩] 2 100),
      ("654f63e3a2414a2a554b6423", examplePost [⟨1, "u1"⟩] 1 100)]
    (by decide) rfl

/-! ## Round trip and vote status (C11, C12) -/

/-- After a successful `UpVote` on a post whose votes have values in
`{+1, -1}`, the located vote of the user is an upvote. -/
theorem UpVote_ok_located_up {σ : Type} (p : PostBusinessLogic σ) (postID userID : String)
    (st : σ) (post q : Post) (hfind : p.PostDBRepo.GetPostByIDDB postID st = Except.ok post)
    (hval : ValuesPlusMinusOne post.Votes)
    (hok : (p.UpVote postID userID st).1 = GoResult.ok q) :
    ∃ pre v suf, FirstVoteOf userID q.Votes pre v suf ∧ v.Value = 1 := by
  rcases UpVote_ok_cases p postID userID st post q hfind hok with
    ⟨hno, hq, _⟩ | ⟨pre, v, suf, hfirst, _, hq, _⟩ | ⟨pre, v, suf, hfirst, hne, hq, _⟩
  · exact ⟨post.Votes, ⟨1, userID⟩, [], ⟨by rw [hq]; rfl, ⟨hno, rfl⟩⟩, rfl⟩
  · exact ⟨pre, { v with Value := 1 }, suf, ⟨by rw [hq]; rfl, ⟨hfirst.2.1, hfirst.2.2⟩⟩, rfl⟩
  · have hmem : v ∈ post.Votes := by
      rw [hfirst.1]
      exact List.mem_append_right _ (List.mem_cons_self v suf)
    rcases hval v hmem with h1 | h1
    · exact ⟨pre, v, suf, by rw [hq]; exact hfirst, h1⟩
    · exact absurd h1 hne

/-- C11: if `q` is the result of a successful `UpVote` of a user on a stored
post (vote values in `{+1, -1}`) and `r` the result of a successful `DownVote`
of the same user on `q`, then the score of `r` is that of `q` less `2`, the
vote list has the same length, and the vote of the user, `+1` in `q`, is `-1`
at the same position in `r`. -/
theorem C11_upvote_then_downvote {σ : Type} (p : PostBusinessLogic σ) (postID userID : String)
    (st st1 st2 : σ) (post q r : Post)
    (hfind : p.PostDBRepo.GetPostByIDDB postID st = Except.ok post)
    (hval : ValuesPlusMinusOne post.Votes)
    (hup : p.UpVote postID userID st = (GoResult.ok q, st1))
    (hfind1 : p.PostDBRepo.GetPostByIDDB postID st1 = Except.ok q)
    (hdown : p.DownVote postID userID st1 = (GoResult.ok r, st2)) :
    r.Score = q.Score - 2
      ∧ r.Votes.length = q.Votes.length
      ∧ ∃ pre v suf, FirstVoteOf userID q.Votes pre v suf ∧ v.Value = 1 ∧
          r.Votes = pre ++ { Value := -1, UserID := userID } :: suf := by
  have hok : (p.UpVote postID userID st).1 = GoResult.ok q := by rw [hup]
  obtain ⟨pre, v, suf, hfirst, hv⟩ :=
    UpVote_ok_located_up p postID userID st post q hfind hval hok
  have hcall := DownVote_firstVote p postID userID st1 q pre v suf hfind1 hfirst
  rw [if_pos hv, hdown] at hcall
  have hr := (setAndReturn_ok p _ r postID st1 (by rw [← hcall])).1
  refine ⟨by rw [hr], ?_, pre, v, suf, hfirst, hv, by rw [hr, hfirst.2.2]⟩
  rw [hr, hfirst.1]
  simp

/-- An instance of C11: on votes `[{+1,u1}]`, score 1, `UpVote` by `u2` gives
score 2 and `DownVote` by `u2` then gives votes `[{+1,u1},{-1,u2}]`, score 0. -/
theorem C11_upvote_then_downvote_witness :
    (examplePost [⟨1, "u1"⟩, ⟨-1, "u2"⟩] 0 50).Score
        = (examplePost [⟨1, "u1"⟩, ⟨1, "u2"⟩] 2 100).Score - 2
      ∧ (examplePost [⟨1, "u1"⟩, ⟨-1, "u2"⟩] 0 50).Votes.length
        = (examplePost [⟨1, "u1"⟩, ⟨1, "u2"⟩] 2 100).Votes.length
      ∧ ∃ pre v suf,
          FirstVoteOf "u2" (examplePost [⟨1, "u1"⟩, ⟨1, "u2"⟩] 2 100).Votes pre v suf ∧
          v.Value = 1 ∧
          (examplePost [⟨1, "u1"⟩, ⟨-1, "u2"⟩] 0 50).Votes
            = pre ++ { Value := -1, UserID := "u2" } :: suf :=
  C11_upvote_then_downvote logLogic "p" "u2"
    (storeOf (examplePost [⟨1, "u1"⟩] 1 100))
    [("p", examplePost [⟨1, "u1"⟩, ⟨1, "u2"⟩] 2 100), ("p", examplePost [⟨1, "u1"⟩] 1 100)]
    [("p", examplePost [⟨1, "u1"⟩, ⟨-1, "u2"⟩] 0 50),
      ("p", examplePost [⟨1, "u1"⟩, ⟨1, "u2"⟩] 2 100), ("p", examplePost [⟨1, "u1"⟩] 1 100)]
    (examplePost [⟨1, "u1"⟩] 1 100) (examplePost [⟨1, "u1"⟩, ⟨1, "u2"⟩] 2 100)
    (examplePost [⟨1, "u1"⟩, ⟨-1, "u2"⟩] 0 50)
    rfl (by decide) (by decide) rfl (by decide)

theorem find_of_noVote (userID : String) (votes : List Vote) (hno : NoVoteOf userID votes) :
    votes.find? (fun v => v.UserID = userID) = none := by
  rw [List.find?_eq_none]
  intro v hv
  simpa using hno v hv

theorem find_of_firstVote (userID : String) (votes pre : List Vote) (v : Vote)
    (suf : List Vote) (hfirst : FirstVoteOf userID votes pre v suf) :
    votes.find? (fun v => v.UserID = userID) = some v := by
  obtain ⟨hsplit, hpre, hv⟩ := hfirst
  rw [hsplit, List.find?_append, find_of_noVote userID pre hpre]
  simp [hv]

theorem voteStatus_of_noVote (userID : String) (votes : List Vote)
    (hno : NoVoteOf userID votes) : voteStatus userID votes = some VoteStatus.None := by
  unfold voteStatus
  rw [find_of_noVote userID votes hno]

theorem voteStatus_of_firstVote (userID : String) (votes pre : List Vote) (v : Vote)
    (suf : List Vote) (hfirst : FirstVoteOf userID votes pre v suf) :
    voteStatus userID votes
      = if v.Value = 1 then some VoteStatus.Up
        else if v.Value = -1 then some VoteStatus.Down else none := by
  unfold voteStatus
  rw [find_of_firstVote userID votes pre v suf hfirst]

/-- With one vote per user, nothing of the user is left once the located vote
is removed. -/
theorem noVote_of_removed (userID : String) (pre : List Vote) (v : Vote) (suf : List Vote)
    (huniq : OneVotePerUser (pre ++ v :: suf)) (hpre : NoVoteOf userID pre)
    (hv : v.UserID = userID) : NoVoteOf userID (pre ++ suf) := by
  intro x hx
  rcases List.mem_append.1 hx with hx | hx
  · exact hpre x hx
  · intro hxu
    unfold OneVotePerUser at huniq
    rw [List.map_append, List.map_cons] at huniq
    have hnd := (List.nodup_cons.1 (List.Nodup.of_append_right huniq)).1
    apply hnd
    rw [hv, ← hxu]
    exact List.mem_map_of_mem _ hx

theorem appended_ne (post : Post) (s : Int) (userID : String) :
    post.withAppendedVote s userID ≠ post := by
  intro h
  have hlen := congrArg (fun x : Post => x.Votes.length) h
  simp [Post.withAppendedVote] at hlen

theorem flipped_ne (post : Post) (pre : List Vote) (v : Vote) (suf : List Vote) (s : Int)
    (hsplit : post.Votes = pre ++ v :: suf) (hne : v.Value ≠ s) :
    post.withFlippedVote pre v suf s ≠ post := by
  intro h
  have hvotes := congrArg Post.Votes h
  rw [hsplit] at hvotes
  simp only [Post.withFlippedVote] at hvotes
  have hv := (List.cons.inj (List.append_cancel_left hvotes)).1
  exact hne (congrArg Vote.Value hv).symm

theorem removed_ne (post : Post) (pre : List Vote) (v : Vote) (suf : List Vote) (score pct : Int)
    (hsplit : post.Votes = pre ++ v :: suf) :
    ({ post with Votes := pre ++ suf, Score := score, UpvotePercentage := pct } : Post) ≠ post := by
  intro h
  have hlen := congrArg (fun x : Post => x.Votes.length) h
  simp only [hsplit, List.length_append, List.length_cons] at hlen
  omega

/-- C12: with `status(p, u)` the status `None`, `Up` or `Down` given by the
value of the vote of `u` in `p.Votes`, for every stored post with at most one
vote per user on which the status of `u` is defined: after a successful
`UpVote` the status is `Up`, after a successful `DownVote` it is `Down`, after a
successful `UnVote` it is `None`; and the returned post equals the stored one
exactly when the status before was already the target status. -/
theorem C12_vote_status_machine {σ : Type} (p : PostBusinessLogic σ) (postID userID : String)
    (st : σ) (post : Post) (s0 : VoteStatus)
    (hfind : p.PostDBRepo.GetPostByIDDB postID st = Except.ok post)
    (huniq : OneVotePerUser post.Votes)
    (hstatus : voteStatus userID post.Votes = some s0) :
    (∀ q : Post, (p.UpVote postID userID st).1 = GoResult.ok q →
        voteStatus userID q.Votes = some VoteStatus.Up ∧ (q = post ↔ s0 = VoteStatus.Up))
    ∧ (∀ q : Post, (p.DownVote postID userID st).1 = GoResult.ok q →
        voteStatus userID q.Votes = some VoteStatus.Down ∧ (q = post ↔ s0 = VoteStatus.Down))
    ∧ (∀ q : Post, (p.UnVote postID userID st).1 = GoResult.ok q →
        voteStatus userID q.Votes = some VoteStatus.None ∧ (q = post ↔ s0 = VoteStatus.None)) := by
  refine ⟨?_, ?_, ?_⟩
  · intro q hok
    rcases UpVote_ok_cases p postID userID st post q hfind hok with
      ⟨hno, hq, _⟩ | ⟨pre, v, suf, hfirst, hv, hq, _⟩ | ⟨pre, v, suf, hfirst, hne, hq, _⟩
    · rw [voteStatus_of_noVote userID post.Votes hno] at hstatus
      have hs0 : s0 = VoteStatus.None := (Option.some.inj hstatus).symm
      have hafter : FirstVoteOf userID q.Votes post.Votes ⟨1, userID⟩ [] :=
        ⟨by rw [hq]; rfl, ⟨hno, rfl⟩⟩
      refine ⟨by rw [voteStatus_of_firstVote userID q.Votes _ _ _ hafter]; rfl, ?_⟩
      rw [hq, hs0]
      exact ⟨fun h => absurd h (appended_ne post 1 userID), fun h => by cases h⟩
    · rw [voteStatus_of_firstVote userID post.Votes pre v suf hfirst, hv] at hstatus
      have hs0 : s0 = VoteStatus.Down := (Option.some.inj hstatus).symm
      have hafter : FirstVoteOf userID q.Votes pre { v with Value := 1 } suf :=
        ⟨by rw [hq]; rfl, ⟨hfirst.2.1, hfirst.2.2⟩⟩
      refine ⟨by rw [voteStatus_of_firstVote userID q.Votes _ _ _ hafter]; rfl, ?_⟩
      rw [hq, hs0]
      exact ⟨fun h => absurd h (flipped_ne post pre v suf 1 hfirst.1 (by rw [hv]; decide)),
        fun h => by cases h⟩
    · rw [voteStatus_of_firstVote userID post.Votes pre v suf hfirst] at hstatus
      have hv1 : v.Value = 1 := by
        by_contra h1
        rw [if_neg h1, if_neg hne] at hstatus
        cases hstatus
      rw [if_pos hv1] at hstatus
      have hs0 : s0 = VoteStatus.Up := (Option.some.inj hstatus).symm
      rw [hq]
      refine ⟨by rw [voteStatus_of_firstVote userID post.Votes pre v suf hfirst, if_pos hv1], ?_⟩
      exact ⟨fun _ => hs0, fun _ => rfl⟩
  · intro q hok
    rcases DownVote_ok_cases p postID userID st post q hfind hok with
      ⟨hno, hq, _⟩ | ⟨pre, v, suf, hfirst, hv, hq, _⟩ | ⟨pre, v, suf, hfirst, hne, hq, _⟩
    · rw [voteStatus_of_noVote userID post.Votes hno] at hstatus
      have hs0 : s0 = VoteStatus.None := (Option.some.inj hstatus).symm
      have hafter : FirstVoteOf userID q.Votes post.Votes ⟨-1, userID⟩ [] :=
        ⟨by rw [hq]; rfl, ⟨hno, rfl⟩⟩
      refine ⟨by rw [voteStatus_of_firstVote userID q.Votes _ _ _ hafter]; rfl, ?_⟩
      rw [hq, hs0]
      exact ⟨fun h => absurd h (appended_ne post (-1) userID), fun h => by cases h⟩
    · rw [voteStatus_of_firstVote userID post.Votes pre v suf hfirst, if_pos hv] at hstatus
      have hs0 : s0 = VoteStatus.Up := (Option.some.inj hstatus).symm
      have hafter : FirstVoteOf userID q.Votes pre { v with Value := -1 } suf :=
        ⟨by rw [hq]; rfl, ⟨hfirst.2.1, hfirst.2.2⟩⟩
      refine ⟨by rw [voteStatus_of_firstVote userID q.Votes _ _ _ hafter]; rfl, ?_⟩
      rw [hq, hs0]
      exact ⟨fun h => absurd h (flipped_ne post pre v suf (-1) hfirst.1 (by rw [hv]; decide)),
        fun h => by cases h⟩
    · rw [voteStatus_of_firstVote userID post.Votes pre v suf hfirst, if_neg hne] at hstatus
      have hv1 : v.Value = -1 := by
        by_contra h1
        rw [if_neg h1] at hstatus
        cases hstatus
      rw [if_pos hv1] at hstatus
      have hs0 : s0 = VoteStatus.Down := (Option.some.inj hstatus).symm
      rw [hq]
      refine ⟨by rw [voteStatus_of_firstVote userID post.Votes pre v suf hfirst, if_neg hne,
        if_pos hv1], ?_⟩
      exact ⟨fun _ => hs0, fun _ => rfl⟩
  · intro q hok
    rcases UnVote_ok_cases p postID userID st post q hfind hok with
      ⟨hno, hq, _⟩ | ⟨pre, v, suf, hfirst, hq, _⟩
    · rw [voteStatus_of_noVote userID post.Votes hno] at hstatus
      have hs0 : s0 = VoteStatus.None := (Option.some.inj hstatus).symm
      rw [hq]
      exact ⟨voteStatus_of_noVote userID post.Votes hno, fun _ => hs0, fun _ => rfl⟩
    · have hrest : NoVoteOf userID (pre ++ suf) := by
        have h := huniq
        rw [hfirst.1] at h
        exact noVote_of_removed userID pre v suf h hfirst.2.1 hfirst.2.2
      rw [voteStatus_of_firstVote userID post.Votes pre v suf hfirst] at hstatus
      have hs0 : s0 ≠ VoteStatus.None := by
        intro h0
        rw [h0] at hstatus
        split at hstatus
        · cases hstatus
        · split at hstatus <;> cases hstatus
      refine ⟨by rw [hq]; exact voteStatus_of_noVote userID _ hrest, ?_⟩
      rw [hq]
      exact ⟨fun h => absurd h (removed_ne post pre v suf _ _ hfirst.1), fun h => absurd h hs0⟩

/-- An instance of C12: `u2` has a downvote on the post (status `Down`);
`UpVote` by `u2` returns another post, on which the status of `u2` is `Up`. -/
theorem C12_vote_status_machine_witness :
    voteStatus "u2" (examplePost [⟨1, "u1"⟩, ⟨1, "u2"⟩] 2 100).Votes = some VoteStatus.Up
      ∧ (examplePost [⟨1, "u1"⟩, ⟨1, "u2"⟩] 2 100 = examplePost [⟨1, "u1"⟩, ⟨-1, "u2"⟩] 0 50
          ↔ VoteStatus.Down = VoteStatus.Up) :=
  (C12_vote_status_machine logLogic "p" "u2"
      (storeOf (examplePost [⟨1, "u1"⟩, ⟨-1, "u2"⟩] 0 50))
      (examplePost [⟨1, "u1"⟩, ⟨-1, "u2"⟩] 0 50) VoteStatus.Down rfl (by decide) (by decide)).1
    (examplePost [⟨1, "u1"⟩, ⟨1, "u2"⟩] 2 100) (by decide)

/-! ## AddPost, GetPostByID and AddComment (C13 to C16) -/

/-- The post that `AddPost` hands to `InsertOne`. -/
theorem AddPost_eq {σ : Type} (p : PostBusinessLogic σ) (created : String) (draft : Post)
    (author : User) (st : σ) :
    p.AddPost created draft author st
      = match p.PostDBRepo.AddPostDB (draft.asAdded author created draft.ID) st with
        | ((_, some err), st') => (GoResult.error err, st')
        | ((objectID, none), st') => (GoResult.ok (draft.asAdded author created objectID), st') := by
  unfold PostBusinessLogic.AddPost Post.asAdded
  by_cases htext : draft.Type_ = "text"
  · simp only [htext, if_true]
  · simp only [htext, if_false]

/-- C13: for every draft and author, `AddPost` hands to `InsertOne` the post
with the author set, one `+1` vote of the author, no view, percentage `100`,
score `1`, no comment, the URL cleared for the type `text` and the text cleared
otherwise, title, category and type of the draft, under a new object id; when
the insert succeeds it returns that post, and when the insert fails it returns
no post and the error of the store. -/
theorem C13_addPost_result {σ : Type} (r : PostDBRepo σ) (idGenerator : Nat → String)
    (created : String) (draft : Post) (author : User) (st : σ) :
    (∀ st' : σ,
        r.Posts.InsertOne (draft.asAdded author created (r.NewObjectID st)) st = (none, st') →
        (NewPostBusinessLogic r.toRepository idGenerator).AddPost created draft author st
          = (GoResult.ok (draft.asAdded author created (r.NewObjectID st)), st'))
    ∧ (∀ (msg : String) (st' : σ),
        r.Posts.InsertOne (draft.asAdded author created (r.NewObjectID st)) st = (some msg, st') →
        (NewPostBusinessLogic r.toRepository idGenerator).AddPost created draft author st
          = (GoResult.error (PostError.other msg), st')) := by
  have hpost : ({ draft.asAdded author created draft.ID with ID := r.NewObjectID st } : Post)
      = draft.asAdded author created (r.NewObjectID st) := rfl
  refine ⟨?_, ?_⟩
  · intro st' hins
    rw [AddPost_eq]
    simp only [NewPostBusinessLogic, PostDBRepo.toRepository, PostDBRepo.AddPostDB, hpost, hins]
  · intro msg st' hins
    rw [AddPost_eq]
    simp only [NewPostBusinessLogic, PostDBRepo.toRepository, PostDBRepo.AddPostDB, hpost, hins]

/-- The case of the tests of C13: the draft of type `link` is added, its text
is cleared, and the refusing collection gives the error and no post. -/
theorem C13_addPost_result_witness :
    ((exampleLogic logCollection).AddPost "2023-11-11T14:22:11.695Z"
        { examplePost [] 0 0 with Type_ := "link", URL := "https://a.bc" } exampleAuthor []
      = (GoResult.ok (Post.asAdded { examplePost [] 0 0 with Type_ := "link", URL := "https://a.bc" }
            exampleAuthor "2023-11-11T14:22:11.695Z" ((exampleDBRepo logCollection).NewObjectID [])),
          [("654f63e3a2414a2a554b6423",
            Post.asAdded { examplePost [] 0 0 with Type_ := "link", URL := "https://a.bc" }
              exampleAuthor "2023-11-11T14:22:11.695Z" { hex := "654f63e3a2414a2a554b6423" })]))
    ∧ ((exampleLogic refusingCollection).AddPost "2023-11-11T14:22:11.695Z"
        { examplePost [] 0 0 with Type_ := "link", URL := "https://a.bc" } exampleAuthor []
      = (GoResult.error (PostError.other "db_error"), []))
    ∧ (Post.asAdded { examplePost [] 0 0 with Type_ := "link", URL := "https://a.bc" }
          exampleAuthor "2023-11-11T14:22:11.695Z" { hex := "654f63e3a2414a2a554b6423" }).Text = ""
    ∧ (Post.asAdded { examplePost [] 0 0 with Type_ := "link", URL := "https://a.bc" }
          exampleAuthor "2023-11-11T14:22:11.695Z" { hex := "654f63e3a2414a2a554b6423" }).URL
        = "https://a.bc" :=
  ⟨(C13_addPost_result (exampleDBRepo logCollection) (fun _ => "generated_id")
      "2023-11-11T14:22:11.695Z" { examplePost [] 0 0 with Type_ := "link", URL := "https://a.bc" }
      exampleAuthor []).1 _ rfl,
    (C13_addPost_result (exampleDBRepo refusingCollection) (fun _ => "generated_id")
      "2023-11-11T14:22:11.695Z" { examplePost [] 0 0 with Type_ := "link", URL := "https://a.bc" }
      exampleAuthor []).2 "db_error" [] rfl,
    by decide, by decide⟩

/-- The lookup of `PostDBRepo` when the id is well formed and the document is
found. -/
theorem GetPostByIDDB_found {σ : Type} (r : PostDBRepo σ) (id : String) (objectID : ObjectID)
    (st : σ) (post : Post) (hid : r.ObjectIDFromHex id = some objectID)
    (hfind : r.Posts.FindOne objectID st = Except.ok post) :
    r.GetPostByIDDB id st = Except.ok post := by
  simp only [PostDBRepo.GetPostByIDDB, PostDBRepo.getMongoID, hid, hfind]

/-- The lookup of `PostDBRepo` on a malformed id. -/
theorem GetPostByIDDB_malformed {σ : Type} (r : PostDBRepo σ) (id : String) (st : σ)
    (hid : r.ObjectIDFromHex id = none) :
    r.GetPostByIDDB id st = Except.error PostError.ErrNoPost := by
  simp only [PostDBRepo.GetPostByIDDB, PostDBRepo.getMongoID, hid]

/-- The lookup of `PostDBRepo` when `FindOne` fails: the error of the driver is
passed on. -/
theorem GetPostByIDDB_findError {σ : Type} (r : PostDBRepo σ) (id : String)
    (objectID : ObjectID) (st : σ) (msg : String) (hid : r.ObjectIDFromHex id = some objectID)
    (hfind : r.Posts.FindOne objectID st = Except.error msg) :
    r.GetPostByIDDB id st = Except.error (PostError.other msg) := by
  simp only [PostDBRepo.GetPostByIDDB, PostDBRepo.getMongoID, hid, hfind]

/-- A write of `PostDBRepo` by id, on a well-formed id. -/
theorem updateByID_wellFormed {σ : Type} (r : PostDBRepo σ) (id : String) (objectID : ObjectID)
    (update : Update) (st : σ) (hid : r.ObjectIDFromHex id = some objectID) :
    r.updateByID id update st
      = match r.Posts.UpdateOne objectID update st with
        | (some msg, st') => (some (PostError.other msg), st')
        | (none, st') => (none, st') := by
  simp only [PostDBRepo.updateByID, PostDBRepo.getMongoID, hid]

/-- C14: for a stored post with view count `v`, `GetPostByID` returns the post
with `Views = v + 1` when `UpdateOne` accepts the update setting the views to
`v + 1`, and returns the error and no post when that update fails; so a post it
returns always carries a view count that the store accepted. -/
theorem C14_view_increment_persisted {σ : Type} (r : PostDBRepo σ)
    (idGenerator : Nat → String) (id : String) (objectID : ObjectID) (st : σ) (post : Post)
    (hid : r.ObjectIDFromHex id = some objectID)
    (hfind : r.Posts.FindOne objectID st = Except.ok post) :
    (∀ st' : σ,
        r.Posts.UpdateOne objectID (Update.setViews (post.Views + 1)) st = (none, st') →
        (NewPostBusinessLogic r.toRepository idGenerator).GetPostByID id st
          = (GoResult.ok { post with Views := post.Views + 1 }, st'))
    ∧ (∀ (msg : String) (st' : σ),
        r.Posts.UpdateOne objectID (Update.setViews (post.Views + 1)) st = (some msg, st') →
        (NewPostBusinessLogic r.toRepository idGenerator).GetPostByID id st
          = (GoResult.error (PostError.other msg), st'))
    ∧ (∀ q : Post,
        ((NewPostBusinessLogic r.toRepository idGenerator).GetPostByID id st).1 = GoResult.ok q →
        q = { post with Views := post.Views + 1 } ∧
        (r.Posts.UpdateOne objectID (Update.setViews q.Views) st).1 = none) := by
  have hcall : (NewPostBusinessLogic r.toRepository idGenerator).GetPostByID id st
      = match r.Posts.UpdateOne objectID (Update.setViews (post.Views + 1)) st with
        | (some msg, st') => (GoResult.error (PostError.other msg), st')
        | (none, st') => (GoResult.ok { post with Views := post.Views + 1 }, st') := by
    simp only [PostBusinessLogic.GetPostByID, PostBusinessLogic.findPostByID,
      NewPostBusinessLogic, PostDBRepo.toRepository, GetPostByIDDB_found r id objectID st post hid
        hfind, PostDBRepo.IncreasePostViewsDB, updateByID_wellFormed r id objectID _ st hid]
    rcases r.Posts.UpdateOne objectID (Update.setViews (post.Views + 1)) st with ⟨e, st'⟩
    cases e <;> rfl
  refine ⟨?_, ?_, ?_⟩
  · intro st' hup
    rw [hcall, hup]
  · intro msg st' hup
    rw [hcall, hup]
  · intro q hq
    rw [hcall] at hq
    rcases hup : r.Posts.UpdateOne objectID (Update.setViews (post.Views + 1)) st with ⟨e, st'⟩
    rw [hup] at hq
    cases e with
    | some msg => simp at hq
    | none =>
      simp only [GoResult.ok.injEq] at hq
      subst hq
      exact ⟨rfl, by rw [hup]⟩

/-- The case of the tests of C14: the post with one view is returned with two
views and the update is in the log; over the refusing collection the result is
the error `db_error` and no post. -/
theorem C14_view_increment_persisted_witness :
    ((exampleLogic logCollection).GetPostByID "654f63e3a2414a2a554b6423"
        (mongoStoreOf (examplePostWith []))
      = (GoResult.ok { examplePostWith [] with Views := (examplePostWith []).Views + 1 },
          [("654f63e3a2414a2a554b6423", { examplePostWith [] with Views := 2 }),
            ("654f63e3a2414a2a554b6423", examplePostWith [])]))
    ∧ ((exampleLogic refusingCollection).GetPostByID "654f63e3a2414a2a554b6423"
        (mongoStoreOf (examplePostWith []))
      = (GoResult.error (PostError.other "db_error"), mongoStoreOf (examplePostWith []))) :=
  ⟨(C14_view_increment_persisted (exampleDBRepo logCollection) (fun _ => "generated_id")
      "654f63e3a2414a2a554b6423" { hex := "654f63e3a2414a2a554b6423" }
      (mongoStoreOf (examplePostWith [])) (examplePostWith []) (by decide) rfl).1 _ rfl,
    (C14_view_increment_persisted (exampleDBRepo refusingCollection) (fun _ => "generated_id")
      "654f63e3a2414a2a554b6423" { hex := "654f63e3a2414a2a554b6423" }
      (mongoStoreOf (examplePostWith [])) (examplePostWith []) (by decide) rfl).2.1
      "db_error" _ rfl⟩

/-- C15, at a well-formed id under which nothing is stored: `GetPostByID`
returns the error of the driver (`mongo: no documents in result`), which is not
`ErrNoPost`, where the specification asks for `ErrNoPost`; on a malformed id it
does return `ErrNoPost`, and `UnVote` and `DeletePost` return `ErrNoPost` for
the same absent post. -/
theorem C15_absent_post_not_ErrNoPost :
    ((exampleLogic logCollection).GetPostByID "654f63e3a2414a2a554b6423" []
        = (GoResult.error (PostError.other "mongo: no documents in result"), []))
    ∧ ((exampleLogic logCollection).GetPostByID "654f63e3a2414a2a554b6423" []).1
        ≠ GoResult.error PostError.ErrNoPost
    ∧ ((exampleLogic logCollection).GetPostByID "malformed id" []
        = (GoResult.error PostError.ErrNoPost, []))
    ∧ ((exampleLogic logCollection).UnVote "654f63e3a2414a2a554b6423" "user_id" []
        = (GoResult.error PostError.ErrNoPost, []))
    ∧ ((exampleLogic logCollection).DeletePost "user_id" "654f63e3a2414a2a554b6423" []
        = ((false, some PostError.ErrNoPost), [])) := by
  decide

/-- C16: for a stored post, a body and an author, `AddComment` with a
succeeding store write returns the post with one comment appended at the end of
the comment list, of that body and author and with the id of the injected
generator; the earlier comments keep their places, the length grows by one, and
votes, score, percentage and views are those of the stored post. -/
theorem C16_comment_appended {σ : Type} (p : PostBusinessLogic σ) (created commentBody : String)
    (author : User) (postID : String) (st : σ) (post : Post)
    (hfind : p.PostDBRepo.GetPostByIDDB postID st = Except.ok post)
    (hwrite : (p.PostDBRepo.AddCommentDB
      { post with
        Comments := post.Comments ++
          [{ Created := created, Author := author, Body := commentBody, ID := p.generatorID 16 }] }
      postID st).1 = none) :
    ∃ q : Post,
      p.AddComment created commentBody author postID st
          = (GoResult.ok q, (p.PostDBRepo.AddCommentDB q postID st).2)
        ∧ q.Comments = post.Comments ++
            [{ Created := created, Author := author, Body := commentBody, ID := p.generatorID 16 }]
        ∧ q.Comments.length = post.Comments.length + 1
        ∧ q.Votes = post.Votes ∧ q.Score = post.Score
        ∧ q.UpvotePercentage = post.UpvotePercentage ∧ q.Views = post.Views
        ∧ q = { post with Comments := q.Comments } := by
  refine ⟨{ post with
      Comments := post.Comments ++
        [{ Created := created, Author := author, Body := commentBody, ID := p.generatorID 16 }] },
    ?_, rfl, by simp, rfl, rfl, rfl, rfl, rfl⟩
  unfold PostBusinessLogic.AddComment PostBusinessLogic.findPostByID
  rw [hfind]
  simp only
  rcases hw : p.PostDBRepo.AddCommentDB
      { post with
        Comments := post.Comments ++
          [{ Created := created, Author := author, Body := commentBody, ID := p.generatorID 16 }] }
      postID st with ⟨e, st'⟩
  rw [hw] at hwrite
  simp only at hwrite
  subst hwrite
  rfl

/-- The case of the tests of C16: the comment `new_comment` of `user_id` is
added to the post without comments, with the id `generated_id`. -/
theorem C16_comment_appended_witness :
    ∃ q : Post,
      (exampleLogic logCollection).AddComment "2023-11-11T14:22:11.695Z" "new_comment"
          { ID := "user_id", Username := "username", password := "" }
          "654f63e3a2414a2a554b6423" (mongoStoreOf (examplePostWith []))
        = (GoResult.ok q,
            ((exampleLogic logCollection).PostDBRepo.AddCommentDB q "654f63e3a2414a2a554b6423"
              (mongoStoreOf (examplePostWith []))).2)
      ∧ q.Comments = (examplePostWith []).Comments ++
          [{ Created := "2023-11-11T14:22:11.695Z"
             Author := { ID := "user_id", Username := "username", password := "" }
             Body := "new_comment"
             ID := (exampleLogic logCollection).generatorID 16 }]
      ∧ q.Comments.length = (examplePostWith []).Comments.length + 1
      ∧ q.Votes = (examplePostWith []).Votes ∧ q.Score = (examplePostWith []).Score
      ∧ q.UpvotePercentage = (examplePostWith []).UpvotePercentage
      ∧ q.Views = (examplePostWith []).Views
      ∧ q = { examplePostWith [] with Comments := q.Comments } :=
  C16_comment_appended (exampleLogic logCollection) "2023-11-11T14:22:11.695Z" "new_comment"
    { ID := "user_id", Username := "username", password := "" }
    "654f63e3a2414a2a554b6423" (mongoStoreOf (examplePostWith [])) (examplePostWith [])
    rfl (by decide)

/-! ## DeleteComment and DeletePost (C17 to C20) -/

/-- Either no comment has the id, or the comments split at the first one that
has it. -/
theorem firstComment_cases (commentID : String) (comments : List Comment) :
    NoCommentWith commentID comments ∨
      ∃ pre c suf, FirstCommentWith commentID comments pre c suf := by
  induction comments with
  | nil => left; intro c hc; cases hc
  | cons w rest ih =>
    by_cases hw : w.ID = commentID
    · right
      exact ⟨[], w, rest, ⟨rfl, ⟨fun c hc => absurd hc (List.not_mem_nil c), hw⟩⟩⟩
    · rcases ih with hno | ⟨pre, c, suf, hsplit, hpre, hc⟩
      · left
        intro c hc
        rcases List.mem_cons.1 hc with rfl | hc
        · exact hw
        · exact hno c hc
      · right
        refine ⟨w :: pre, c, suf, ⟨by rw [hsplit]; rfl, ⟨?_, hc⟩⟩⟩
        intro z hz
        rcases List.mem_cons.1 hz with rfl | hz
        · exact hw
        · exact hpre z hz

theorem deleteCommentBody_other {σ : Type} (p : PostBusinessLogic σ) (post : Post)
    (userID postID commentID : String) (st : σ) (seen : List Comment) (c : Comment)
    (rest : List Comment) (hc : c.ID ≠ commentID) :
    p.deleteCommentBody post userID postID commentID st seen c rest = none := by
  unfold PostBusinessLogic.deleteCommentBody
  rw [if_neg hc]

/-- The end of the deleting path of `DeleteComment`: the write of the post
without the comment, and the return. -/
theorem deleteCommentBody_found {σ : Type} (p : PostBusinessLogic σ) (post : Post)
    (userID postID commentID : String) (st : σ) (seen : List Comment) (c : Comment)
    (rest : List Comment) (hc : c.ID = commentID) :
    p.deleteCommentBody post userID postID commentID st seen c rest
      = some (if c.Author.ID ≠ userID then (GoResult.error PostError.ErrNoAccess, st)
          else
            match p.PostDBRepo.DeleteCommentDB { post with Comments := seen ++ rest } postID st with
            | (some err, st') => (GoResult.error err, st')
            | (none, st') => (GoResult.ok { post with Comments := seen ++ rest }, st')) := by
  unfold PostBusinessLogic.deleteCommentBody
  rw [if_pos hc]
  by_cases ha : c.Author.ID ≠ userID
  · rw [if_pos ha, if_pos ha]
  · rw [if_neg ha, if_neg ha]
    simp only
    rcases p.PostDBRepo.DeleteCommentDB { post with Comments := seen ++ rest } postID st
      with ⟨e, st'⟩
    cases e <;> rfl

theorem DeleteComment_lookupError {σ : Type} (p : PostBusinessLogic σ)
    (userID postID commentID : String) (st : σ) (err : PostError)
    (hfind : p.PostDBRepo.GetPostByIDDB postID st = Except.error err) :
    p.DeleteComment userID postID commentID st = (GoResult.error PostError.ErrNoPost, st) := by
  unfold PostBusinessLogic.DeleteComment PostBusinessLogic.findPostByID
  rw [hfind]

theorem DeleteComment_noComment {σ : Type} (p : PostBusinessLogic σ)
    (userID postID commentID : String) (st : σ) (post : Post)
    (hfind : p.PostDBRepo.GetPostByIDDB postID st = Except.ok post)
    (hno : NoCommentWith commentID post.Comments) :
    p.DeleteComment userID postID commentID st = (GoResult.error PostError.ErrNoComment, st) := by
  have hloop : rangeLoop (p.deleteCommentBody post userID postID commentID st) [] post.Comments
      = none :=
    rangeLoop_eq_none _ _ (fun x hx s r =>
      deleteCommentBody_other p post userID postID commentID st s x r (hno x hx)) []
  unfold PostBusinessLogic.DeleteComment PostBusinessLogic.findPostByID
  rw [hfind]
  simp only [hloop]

theorem DeleteComment_firstComment {σ : Type} (p : PostBusinessLogic σ)
    (userID postID commentID : String) (st : σ) (post : Post) (pre : List Comment) (c : Comment)
    (suf : List Comment) (hfind : p.PostDBRepo.GetPostByIDDB postID st = Except.ok post)
    (hfirst : FirstCommentWith commentID post.Comments pre c suf) :
    p.DeleteComment userID postID commentID st
      = if c.Author.ID ≠ userID then (GoResult.error PostError.ErrNoAccess, st)
        else
          match p.PostDBRepo.DeleteCommentDB { post with Comments := pre ++ suf } postID st with
          | (some err, st') => (GoResult.error err, st')
          | (none, st') => (GoResult.ok { post with Comments := pre ++ suf }, st') := by
  obtain ⟨hsplit, hpre, hc⟩ := hfirst
  have hloop := rangeLoop_eq_some (p.deleteCommentBody post userID postID commentID st) pre c suf _
    (fun y hy s t => deleteCommentBody_other p post userID postID commentID st s y t (hpre y hy))
    [] (deleteCommentBody_found p post userID postID commentID st ([] ++ pre) c suf hc)
  rw [← hsplit] at hloop
  unfold PostBusinessLogic.DeleteComment PostBusinessLogic.findPostByID
  rw [hfind]
  simp only [hloop, List.nil_append]

/-- The comment that the scan finds for an id is determined by the list. -/
theorem find_comment_unique (commentID : String) (comments : List Comment)
    (pre : List Comment) (c : Comment) (suf : List Comment)
    (pre2 : List Comment) (c2 : Comment) (suf2 : List Comment)
    (h1 : FirstCommentWith commentID comments pre c suf)
    (h2 : FirstCommentWith commentID comments pre2 c2 suf2) : c = c2 := by
  have hfind : ∀ (pre : List Comment) (c : Comment) (suf : List Comment),
      FirstCommentWith commentID comments pre c suf →
      comments.find? (fun x => x.ID = commentID) = some c := by
    intro pre c suf h
    obtain ⟨hsplit, hpre, hc⟩ := h
    have hnone : pre.find? (fun x => x.ID = commentID) = none := by
      rw [List.find?_eq_none]
      intro x hx
      simpa using hpre x hx
    rw [hsplit, List.find?_append, hnone]
    simp [hc]
  have e1 := hfind pre c suf h1
  have e2 := hfind pre2 c2 suf2 h2
  rw [e1] at e2
  exact Option.some.inj e2

/-- The errors of a write of `PostDBRepo` by id: `ErrNoPost` of `getMongoID`,
or an error of the driver. -/
theorem updateByID_error {σ : Type} (r : PostDBRepo σ) (id : String) (update : Update) (st : σ)
    (err : PostError) (h : (r.updateByID id update st).1 = some err) :
    err = PostError.ErrNoPost ∨ ∃ msg, err = PostError.other msg := by
  unfold PostDBRepo.updateByID PostDBRepo.getMongoID at h
  cases hid : r.ObjectIDFromHex id with
  | none =>
    rw [hid] at h
    simp only [Option.some.injEq] at h
    exact Or.inl h.symm
  | some objectID =>
    rw [hid] at h
    simp only at h
    rcases hup : r.Posts.UpdateOne objectID update st with ⟨e, st'⟩
    rw [hup] at h
    cases e with
    | none => simp at h
    | some msg =>
      simp only [Option.some.injEq] at h
      exact Or.inr ⟨msg, h.symm⟩

/-- C17: for a found post, over `PostDBRepo`: `DeleteComment` fails with
`ErrNoComment` if and only if no comment of the post has the id; when the scan
finds a comment with the id, it fails with `ErrNoAccess` if and only if the
author id of that found comment differs from the user id; and in both error
cases the store is left as it was, whatever the collection would do with a
write, so no write is made (and an error result carries no post). -/
theorem C17_deleteComment_errors {σ : Type} (r : PostDBRepo σ) (idGenerator : Nat → String)
    (userID postID commentID : String) (st : σ) (post : Post)
    (hfind : r.GetPostByIDDB postID st = Except.ok post) :
    (((NewPostBusinessLogic r.toRepository idGenerator).DeleteComment userID postID commentID
          st).1 = GoResult.error PostError.ErrNoComment
        ↔ NoCommentWith commentID post.Comments)
    ∧ (∀ (pre : List Comment) (c : Comment) (suf : List Comment),
        FirstCommentWith commentID post.Comments pre c suf →
        (((NewPostBusinessLogic r.toRepository idGenerator).DeleteComment userID postID commentID
            st).1 = GoResult.error PostError.ErrNoAccess
          ↔ c.Author.ID ≠ userID))
    ∧ (((NewPostBusinessLogic r.toRepository idGenerator).DeleteComment userID postID commentID
          st).1 = GoResult.error PostError.ErrNoComment ∨
        ((NewPostBusinessLogic r.toRepository idGenerator).DeleteComment userID postID commentID
          st).1 = GoResult.error PostError.ErrNoAccess →
        ((NewPostBusinessLogic r.toRepository idGenerator).DeleteComment userID postID commentID
          st).2 = st) := by
  have hfind' : (NewPostBusinessLogic r.toRepository idGenerator).PostDBRepo.GetPostByIDDB
      postID st = Except.ok post := hfind
  -- the outcome once a comment with the id is found and its author is the user
  have hwrite : ∀ (pre : List Comment) (c : Comment) (suf : List Comment),
      FirstCommentWith commentID post.Comments pre c suf → ¬ c.Author.ID ≠ userID →
      ∀ e : PostError,
        ((NewPostBusinessLogic r.toRepository idGenerator).DeleteComment userID postID commentID
          st).1 = GoResult.error e →
        e = PostError.ErrNoPost ∨ ∃ msg, e = PostError.other msg := by
    intro pre c suf hfirst hauthor e he
    rw [DeleteComment_firstComment _ userID postID commentID st post pre c suf hfind' hfirst,
      if_neg hauthor] at he
    rcases hw : (NewPostBusinessLogic r.toRepository idGenerator).PostDBRepo.DeleteCommentDB
      { post with Comments := pre ++ suf } postID st with ⟨e', st'⟩
    rw [hw] at he
    cases e' with
    | none => simp at he
    | some err =>
      simp only [GoResult.error.injEq] at he
      subst he
      exact updateByID_error r postID (Update.setComments (pre ++ suf)) st err
        (by
          have h1 := congrArg Prod.fst hw
          exact h1)
  rcases firstComment_cases commentID post.Comments with hno | ⟨pre, c, suf, hfirst⟩
  · have hcall := DeleteComment_noComment (NewPostBusinessLogic r.toRepository idGenerator)
      userID postID commentID st post hfind' hno
    refine ⟨⟨fun _ => hno, fun _ => by rw [hcall]⟩, ?_, fun _ => by rw [hcall]⟩
    intro pre c suf hfirst
    have hmem : c ∈ post.Comments := by
      rw [hfirst.1]
      exact List.mem_append_right _ (List.mem_cons_self c suf)
    exact absurd hfirst.2.2 (hno c hmem)
  · have hsome : ¬ NoCommentWith commentID post.Comments := by
      intro hno
      have hmem : c ∈ post.Comments := by
        rw [hfirst.1]
        exact List.mem_append_right _ (List.mem_cons_self c suf)
      exact hno c hmem hfirst.2.2
    have hcall := DeleteComment_firstComment (NewPostBusinessLogic r.toRepository idGenerator)
      userID postID commentID st post pre c suf hfind' hfirst
    by_cases hauthor : c.Author.ID ≠ userID
    · rw [if_pos hauthor] at hcall
      refine ⟨⟨fun h => ?_, fun h => absurd h hsome⟩, ?_, fun _ => by rw [hcall]⟩
      · rw [hcall] at h
        simp at h
      · intro pre2 c2 suf2 hfirst2
        have hc2 : c2 = c := by
          have h1 := find_comment_unique commentID post.Comments pre c suf pre2 c2 suf2 hfirst hfirst2
          exact h1.symm
        rw [hc2]
        exact ⟨fun _ => hauthor, fun _ => by rw [hcall]⟩
    · have hnot : ∀ e : PostError,
          ((NewPostBusinessLogic r.toRepository idGenerator).DeleteComment userID postID
            commentID st).1 = GoResult.error e →
          e ≠ PostError.ErrNoComment ∧ e ≠ PostError.ErrNoAccess := by
        intro e he
        rcases hwrite pre c suf hfirst hauthor e he with h | ⟨msg, h⟩ <;> rw [h] <;> simp
      refine ⟨⟨fun h => absurd rfl (hnot _ h).1, fun h => absurd h hsome⟩, ?_, ?_⟩
      · intro pre2 c2 suf2 hfirst2
        have hc2 : c2 = c :=
          (find_comment_unique commentID post.Comments pre c suf pre2 c2 suf2 hfirst hfirst2).symm
        rw [hc2]
        exact ⟨fun h => absurd rfl (hnot _ h).2, fun h => absurd h hauthor⟩
      · intro h
        rcases h with h | h
        · exact absurd rfl (hnot _ h).1
        · exact absurd rfl (hnot _ h).2

/-- The cases of the tests of C17: the post has the one comment `comment_id`
of `user_id`; the id `comment_id_wrong` gives `ErrNoComment`, the user
`user_id_wrong` gives `ErrNoAccess`, and the store is left as it was. -/
theorem C17_deleteComment_errors_witness :
    ((exampleLogic logCollection).DeleteComment "user_id" "654f63e3a2414a2a554b6423"
        "comment_id_wrong" (mongoStoreOf (examplePostWith [exampleComment "comment_id" "user_id"]))).1
      = GoResult.error PostError.ErrNoComment
    ∧ ((exampleLogic logCollection).DeleteComment "user_id_wrong" "654f63e3a2414a2a554b6423"
        "comment_id" (mongoStoreOf (examplePostWith [exampleComment "comment_id" "user_id"]))).1
      = GoResult.error PostError.ErrNoAccess
    ∧ ((exampleLogic logCollection).DeleteComment "user_id_wrong" "654f63e3a2414a2a554b6423"
        "comment_id" (mongoStoreOf (examplePostWith [exampleComment "comment_id" "user_id"]))).2
      = mongoStoreOf (examplePostWith [exampleComment "comment_id" "user_id"]) :=
  ⟨(C17_deleteComment_errors (exampleDBRepo logCollection) (fun _ => "generated_id") "user_id"
      "654f63e3a2414a2a554b6423" "comment_id_wrong"
      (mongoStoreOf (examplePostWith [exampleComment "comment_id" "user_id"]))
      (examplePostWith [exampleComment "comment_id" "user_id"]) rfl).1.2 (by decide),
    ((C17_deleteComment_errors (exampleDBRepo logCollection) (fun _ => "generated_id")
      "user_id_wrong" "654f63e3a2414a2a554b6423" "comment_id"
      (mongoStoreOf (examplePostWith [exampleComment "comment_id" "user_id"]))
      (examplePostWith [exampleComment "comment_id" "user_id"]) rfl).2.1
      [] (exampleComment "comment_id" "user_id") [] (by decide)).2 (by decide),
    (C17_deleteComment_errors (exampleDBRepo logCollection) (fun _ => "generated_id")
      "user_id_wrong" "654f63e3a2414a2a554b6423" "comment_id"
      (mongoStoreOf (examplePostWith [exampleComment "comment_id" "user_id"]))
      (examplePostWith [exampleComment "comment_id" "user_id"]) rfl).2.2 (Or.inr (by decide))⟩

/-- C18 as stated fails when two comments share an id: the post has the
comments `x` of `a` and `x` of `b`, every update of the collection succeeds,
and `DeleteComment` called with the author and the id of the second comment
returns `ErrNoAccess`, not the post without that comment. -/
theorem C18_duplicate_id_counterexample :
    exampleComment "x" "b" ∈
        (examplePostWith [exampleComment "x" "a", exampleComment "x" "b"]).Comments
    ∧ (∀ update : Update,
        (logCollection.UpdateOne { hex := "654f63e3a2414a2a554b6423" } update
          (mongoStoreOf (examplePostWith [exampleComment "x" "a", exampleComment "x" "b"]))).1
          = none)
    ∧ (exampleLogic logCollection).DeleteComment (exampleComment "x" "b").Author.ID
        "654f63e3a2414a2a554b6423" (exampleComment "x" "b").ID
        (mongoStoreOf (examplePostWith [exampleComment "x" "a", exampleComment "x" "b"]))
      = (GoResult.error PostError.ErrNoAccess,
          mongoStoreOf (examplePostWith [exampleComment "x" "a", exampleComment "x" "b"]))
    ∧ ((exampleLogic logCollection).DeleteComment (exampleComment "x" "b").Author.ID
        "654f63e3a2414a2a554b6423" (exampleComment "x" "b").ID
        (mongoStoreOf (examplePostWith [exampleComment "x" "a", exampleComment "x" "b"]))).1
      ≠ GoResult.ok (examplePostWith [exampleComment "x" "a"]) :=
  ⟨by decide, fun _ => rfl, by decide, by decide⟩

/-- C18, amended: for a found post and a comment `c` that is the first of the
list with its id (as every comment is when the ids are distinct),
`DeleteComment` called with the author id and the id of `c`, with a succeeding
store write, returns the post whose comment list is the stored one with `c`
removed and the other comments in their order, one shorter; votes, score,
percentage, views and every other field are those of the stored post. -/
theorem C18_author_deletes_found_comment {σ : Type} (p : PostBusinessLogic σ)
    (postID : String) (st : σ) (post : Post) (pre : List Comment) (c : Comment)
    (suf : List Comment)
    (hfind : p.PostDBRepo.GetPostByIDDB postID st = Except.ok post)
    (hfirst : FirstCommentWith c.ID post.Comments pre c suf)
    (hwrite : (p.PostDBRepo.DeleteCommentDB { post with Comments := pre ++ suf } postID st).1
      = none) :
    ∃ q : Post,
      p.DeleteComment c.Author.ID postID c.ID st
          = (GoResult.ok q, (p.PostDBRepo.DeleteCommentDB q postID st).2)
        ∧ post.Comments = pre ++ c :: suf
        ∧ q.Comments = pre ++ suf
        ∧ q.Comments.length + 1 = post.Comments.length
        ∧ q.Votes = post.Votes ∧ q.Score = post.Score
        ∧ q.UpvotePercentage = post.UpvotePercentage ∧ q.Views = post.Views
        ∧ q = { post with Comments := q.Comments } := by
  refine ⟨{ post with Comments := pre ++ suf }, ?_, hfirst.1, rfl, ?_, rfl, rfl, rfl, rfl, rfl⟩
  · rw [DeleteComment_firstComment p c.Author.ID postID c.ID st post pre c suf hfind hfirst,
      if_neg (fun h => h rfl)]
    rcases hw : p.PostDBRepo.DeleteCommentDB { post with Comments := pre ++ suf } postID st
      with ⟨e, st'⟩
    rw [hw] at hwrite
    simp only at hwrite
    subst hwrite
    rfl
  · rw [hfirst.1]
    simp only [List.length_append, List.length_cons]
    omega

/-- The case of the tests of C18: the one comment `comment_id` of `user_id` is
deleted by `user_id`, and the returned post has no comment. -/
theorem C18_author_deletes_found_comment_witness :
    ∃ q : Post,
      (exampleLogic logCollection).DeleteComment (exampleComment "comment_id" "user_id").Author.ID
          "654f63e3a2414a2a554b6423" (exampleComment "comment_id" "user_id").ID
          (mongoStoreOf (examplePostWith [exampleComment "comment_id" "user_id"]))
        = (GoResult.ok q,
            ((exampleLogic logCollection).PostDBRepo.DeleteCommentDB q "654f63e3a2414a2a554b6423"
              (mongoStoreOf (examplePostWith [exampleComment "comment_id" "user_id"]))).2)
      ∧ (examplePostWith [exampleComment "comment_id" "user_id"]).Comments
          = [] ++ exampleComment "comment_id" "user_id" :: []
      ∧ q.Comments = [] ++ []
      ∧ q.Comments.length + 1
          = (examplePostWith [exampleComment "comment_id" "user_id"]).Comments.length
      ∧ q.Votes = (examplePostWith [exampleComment "comment_id" "user_id"]).Votes
      ∧ q.Score = (examplePostWith [exampleComment "comment_id" "user_id"]).Score
      ∧ q.UpvotePercentage
          = (examplePostWith [exampleComment "comment_id" "user_id"]).UpvotePercentage
      ∧ q.Views = (examplePostWith [exampleComment "comment_id" "user_id"]).Views
      ∧ q = { examplePostWith [exampleComment "comment_id" "user_id"] with Comments := q.Comments } :=
  C18_author_deletes_found_comment (exampleLogic logCollection) "654f63e3a2414a2a554b6423"
    (mongoStoreOf (examplePostWith [exampleComment "comment_id" "user_id"]))
    (examplePostWith [exampleComment "comment_id" "user_id"])
    [] (exampleComment "comment_id" "user_id") [] rfl (by decide) (by decide)

/-- C19: `DeletePost` returns `false` with `ErrNoPost` when the post cannot be
loaded and `false` with `ErrNoAccess` when the loaded post has another author
id than the user id, in both cases leaving the store as it was, whatever the
repository would do with a delete; when the author id of the loaded post is the
user id, its result is that of the delete of the store. -/
theorem C19_deletePost_guards {σ : Type} (p : PostBusinessLogic σ) (userID postID : String)
    (st : σ) :
    (∀ err : PostError, p.PostDBRepo.GetPostByIDDB postID st = Except.error err →
        p.DeletePost userID postID st = ((false, some PostError.ErrNoPost), st))
    ∧ (∀ post : Post, p.PostDBRepo.GetPostByIDDB postID st = Except.ok post →
        post.Author.ID ≠ userID →
        p.DeletePost userID postID st = ((false, some PostError.ErrNoAccess), st))
    ∧ (∀ post : Post, p.PostDBRepo.GetPostByIDDB postID st = Except.ok post →
        post.Author.ID = userID →
        p.DeletePost userID postID st = p.PostDBRepo.DeletePostDB postID st) := by
  refine ⟨?_, ?_, ?_⟩
  · intro err hfind
    unfold PostBusinessLogic.DeletePost PostBusinessLogic.findPostByID
    rw [hfind]
  · intro post hfind hauthor
    unfold PostBusinessLogic.DeletePost PostBusinessLogic.findPostByID
    rw [hfind]
    simp only [hauthor, if_true, ne_eq, not_false_eq_true]
  · intro post hfind hauthor
    unfold PostBusinessLogic.DeletePost PostBusinessLogic.findPostByID
    rw [hfind]
    simp only [hauthor, ne_eq, not_true_eq_false, if_false]

/-- The cases of the tests of C19: nothing stored under the id gives
`ErrNoPost`, the user `user_id_another` gives `ErrNoAccess` and the post stays
in the store, and the author has the post deleted. -/
theorem C19_deletePost_guards_witness :
    (exampleLogic logCollection).DeletePost "310ca263" "654f63e3a2414a2a554b6423" []
        = ((false, some PostError.ErrNoPost), [])
    ∧ (exampleLogic logCollection).DeletePost "user_id_another" "654f63e3a2414a2a554b6423"
          (mongoStoreOf (examplePostWith []))
        = ((false, some PostError.ErrNoAccess), mongoStoreOf (examplePostWith []))
    ∧ (exampleLogic logCollection).DeletePost "310ca263" "654f63e3a2414a2a554b6423"
          (mongoStoreOf (examplePostWith []))
        = (exampleLogic logCollection).PostDBRepo.DeletePostDB "654f63e3a2414a2a554b6423"
            (mongoStoreOf (examplePostWith [])) :=
  ⟨(C19_deletePost_guards (exampleLogic logCollection) "310ca263" "654f63e3a2414a2a554b6423"
      []).1 (PostError.other "mongo: no documents in result") rfl,
    (C19_deletePost_guards (exampleLogic logCollection) "user_id_another"
      "654f63e3a2414a2a554b6423" (mongoStoreOf (examplePostWith []))).2.1
      (examplePostWith []) rfl (by decide),
    (C19_deletePost_guards (exampleLogic logCollection) "310ca263" "654f63e3a2414a2a554b6423"
      (mongoStoreOf (examplePostWith []))).2.2 (examplePostWith []) rfl (by decide)⟩

/-- The boolean of `PostDBRepo.DeletePostDB` does not depend on the deleted
count: it is `true` whenever `DeleteOne` returns no error. -/
theorem DeletePostDB_count_dropped {σ : Type} (r : PostDBRepo σ) (postID : String)
    (objectID : ObjectID) (st st' : σ) (count : Int)
    (hid : r.ObjectIDFromHex postID = some objectID)
    (hdel : r.Posts.DeleteOne objectID st = ((count, none), st')) :
    r.DeletePostDB postID st = ((true, none), st') := by
  simp only [PostDBRepo.DeletePostDB, PostDBRepo.getMongoID, hid, hdel]

/-- C20, at a delete that removes nothing: the author calls `DeletePost`, the
collection reports no error and the deleted count `0`, and `DeletePost` returns
`true` with no error, where the specification asks for `false`. -/
theorem C20_zero_deleted_returns_true :
    (staleCollection.DeleteOne { hex := "654f63e3a2414a2a554b6423" }
        (mongoStoreOf (examplePostWith []))).1 = (0, none)
    ∧ (examplePostWith []).Author.ID = "310ca263"
    ∧ (exampleLogic staleCollection).DeletePost "310ca263" "654f63e3a2414a2a554b6423"
        (mongoStoreOf (examplePostWith [])) = ((true, none), []) := by
  decide

/-! ## Sessions (C21 to C23) -/

/-- C21: `CreateSessionDB` first attempts the write of the cache tier and then,
whatever that attempt gave, the write of the durable tier, whose result is its
own: it returns an error if and only if the durable write fails, so a failure
of the cache write alone is no failure; and `CreateNewSession` then returns the
minted token. -/
theorem C21_createSession_asymmetric {σ : Type} (db : SessionManagerDB σ) (sess : Session)
    (token : String) (st : σ) :
    db.CreateSessionDB sess token st
        = db.SessionManagerMS.CreateSession sess token
            (db.SessionManagerRDS.CreateSession sess token st).2
    ∧ ((db.CreateSessionDB sess token st).1 ≠ none
        ↔ (db.SessionManagerMS.CreateSession sess token
            (db.SessionManagerRDS.CreateSession sess token st).2).1 ≠ none)
    ∧ ∀ (secret : String) (jwt : JwtLibrary) (issuedAt expiryBase : Int) (u : User)
        (minted : String),
        jwt.SignedString u issuedAt (expiryBase + 60 * 60 * 24 * 7) secret = Except.ok minted →
        (db.SessionManagerMS.CreateSession (newSession u minted) minted
          (db.SessionManagerRDS.CreateSession (newSession u minted) minted st).2).1 = none →
        (({ SessionManDB := db.toDataBase, secret := secret, jwt := jwt } : SessionManager σ).CreateNewSession
          issuedAt expiryBase u st).1 = Except.ok minted := by
  have hdb : ∀ (s : Session) (t : String),
      db.CreateSessionDB s t st
        = db.SessionManagerMS.CreateSession s t (db.SessionManagerRDS.CreateSession s t st).2 := by
    intro s t
    unfold SessionManagerDB.CreateSessionDB
    rfl
  refine ⟨hdb sess token, by rw [hdb sess token], ?_⟩
  intro secret jwt issuedAt expiryBase u minted hsign hdurable
  unfold SessionManager.CreateNewSession SessionManager.newToken
  simp only [hsign, SessionManagerDB.toDataBase]
  rw [hdb (newSession u minted) minted]
  rcases hw : db.SessionManagerMS.CreateSession (newSession u minted) minted
      (db.SessionManagerRDS.CreateSession (newSession u minted) minted st).2 with ⟨e, st'⟩
  rw [hw] at hdurable
  simp only at hdurable
  subst hdurable
  rfl

/-- An instance of C21: the cache is down and the durable tier is up; the
cache write fails, `CreateSessionDB` returns no error, the row is in the table
`sessions`, and `CreateNewSession` returns the token. -/
theorem C21_createSession_asymmetric_witness :
    ((exampleSessionDB false true).SessionManagerRDS.CreateSession
        (newSession exampleAuthor "good") "good" exampleAuthStore).1
      = some (SessionError.other "connection refused")
    ∧ (exampleSessionDB false true).CreateSessionDB (newSession exampleAuthor "good") "good"
        exampleAuthStore
      = (none, { exampleAuthStore with sessions := [("good", "310ca263")] })
    ∧ ((exampleSessionManager false true).CreateNewSession 0 0 exampleAuthor exampleAuthStore).1
      = Except.ok "good" :=
  ⟨by decide, by decide,
    (C21_createSession_asymmetric (exampleSessionDB false true) (newSession exampleAuthor "good")
      "good" exampleAuthStore).2.2 "secret" exampleJwt 0 0 exampleAuthor "good" rfl (by decide)⟩

/-- The durable tier returns a session without error, or no session and
`ErrNoAuth`. -/
theorem SessionManagerMysql_GetSession_cases {σ : Type} (ms : SessionManagerMysql σ)
    (inToken : String) (st : σ) :
    (∃ sess, ms.GetSession inToken st = (some sess, none)) ∨
      ms.GetSession inToken st = (none, some SessionError.ErrNoAuth) := by
  unfold SessionManagerMysql.GetSession
  cases ms.QueryRow inToken st with
  | error e => exact Or.inr rfl
  | ok row =>
    obtain ⟨token, id, username⟩ := row
    exact Or.inl ⟨_, rfl⟩

/-- C22: if the cache tier returns a session without error, `GetSessionDB`
returns that session whatever the durable tier is (it is not consulted); if the
cache tier returns an error or no session, the result of `GetSessionDB` is the
result of the durable tier; hence the lookup succeeds whenever the durable tier
has the row, and it fails with `ErrNoAuth` when neither tier has the session. -/
theorem C22_getSession_cache_first {σ : Type} (db : SessionManagerDB σ) (inToken : String)
    (st : σ) :
    (∀ sess : Session, db.SessionManagerRDS.GetSession inToken st = (some sess, none) →
        ∀ ms : SessionManagerMysql σ,
          ({ db with SessionManagerMS := ms } : SessionManagerDB σ).GetSessionDB inToken st
            = (some sess, none))
    ∧ ((db.SessionManagerRDS.GetSession inToken st).2 ≠ none ∨
        (db.SessionManagerRDS.GetSession inToken st).1 = none →
        db.GetSessionDB inToken st = db.SessionManagerMS.GetSession inToken st)
    ∧ (∀ row : String × String × String,
        db.SessionManagerMS.QueryRow inToken st = Except.ok row →
        ∃ sess, db.GetSessionDB inToken st = (some sess, none))
    ∧ ((db.SessionManagerRDS.GetSession inToken st).2 ≠ none ∨
        (db.SessionManagerRDS.GetSession inToken st).1 = none →
        ∀ msg : String, db.SessionManagerMS.QueryRow inToken st = Except.error msg →
        db.GetSessionDB inToken st = (none, some SessionError.ErrNoAuth)) := by
  have hmiss : (db.SessionManagerRDS.GetSession inToken st).2 ≠ none ∨
      (db.SessionManagerRDS.GetSession inToken st).1 = none →
      db.GetSessionDB inToken st = db.SessionManagerMS.GetSession inToken st := by
    intro h
    unfold SessionManagerDB.GetSessionDB
    rcases hc : db.SessionManagerRDS.GetSession inToken st with ⟨s, e⟩
    rw [hc] at h
    rcases SessionManagerMysql_GetSession_cases db.SessionManagerMS inToken st with
      ⟨sess, hm⟩ | hm
    · cases s <;> cases e <;> simp_all
    · cases s <;> cases e <;> simp_all
  refine ⟨?_, hmiss, ?_, ?_⟩
  · intro sess hc ms
    unfold SessionManagerDB.GetSessionDB
    simp only [hc]
  · intro row hrow
    obtain ⟨token, id, username⟩ := row
    have hm : db.SessionManagerMS.GetSession inToken st
        = (some { ID := token, User := { ID := id, Username := username, password := "" } },
            none) := by
      unfold SessionManagerMysql.GetSession
      rw [hrow]
    rcases hc : db.SessionManagerRDS.GetSession inToken st with ⟨s, e⟩
    by_cases hhit : ∃ sess, s = some sess ∧ e = none
    · obtain ⟨sess, hs, he⟩ := hhit
      refine ⟨sess, ?_⟩
      unfold SessionManagerDB.GetSessionDB
      simp only [hc, hs, he]
    · refine ⟨{ ID := token, User := { ID := id, Username := username, password := "" } }, ?_⟩
      rw [hmiss (by
        rw [hc]
        cases s with
        | none => exact Or.inr rfl
        | some sess =>
          cases e with
          | none => exact absurd ⟨sess, rfl, rfl⟩ hhit
          | some err => exact Or.inl (by simp))]
      exact hm
  · intro h msg hq
    rw [hmiss h]
    unfold SessionManagerMysql.GetSession
    rw [hq]

/-- An instance of C22: the cache is down and the table `sessions` has the row
of the token; the lookup gives the result of the durable tier, the session of
the user `qqqqqqqq`; and without that row it gives `ErrNoAuth`. -/
theorem C22_getSession_cache_first_witness :
    ((exampleSessionDB false true).GetSessionDB "good"
        { exampleAuthStore with sessions := [("good", "310ca263")] }
      = (exampleSessionDB false true).SessionManagerMS.GetSession "good"
          { exampleAuthStore with sessions := [("good", "310ca263")] })
    ∧ ((exampleSessionDB false true).GetSessionDB "good"
        { exampleAuthStore with sessions := [("good", "310ca263")] }
      = (some { ID := "good", User := { ID := "310ca263", Username := "qqqqqqqq", password := "" } },
          none))
    ∧ ((exampleSessionDB false true).GetSessionDB "good" exampleAuthStore
      = (none, some SessionError.ErrNoAuth)) :=
  ⟨(C22_getSession_cache_first (exampleSessionDB false true) "good"
      { exampleAuthStore with sessions := [("good", "310ca263")] }).2.1 (Or.inr (by decide)),
    by decide,
    (C22_getSession_cache_first (exampleSessionDB false true) "good" exampleAuthStore).2.2.2
      (Or.inr (by decide)) "sql: no rows in result set" rfl⟩

/-- C23: for a token that fails verification (a malformed string, a signing
method that is not HMAC `HS256`, expired or otherwise invalid time claims, or a
signature that does not match the secret), `GetSession` returns `ErrNoAuth` and
no session for every session database and every state of the two tiers, so the
result does not depend on what the tiers hold. -/
theorem C23_unverified_token_rejected {σ : Type} (secret : String) (jwt : JwtLibrary)
    (inToken : String)
    (hfail : jwt.Decode inToken = none ∨
      ∃ token, jwt.Decode inToken = some token ∧
        (token.Method ≠ SigningMethod.hmac "HS256" ∨ jwt.ClaimsValid token = false ∨
          jwt.Verify token secret = false)) :
    ∀ (db : SessionManagerDataBase σ) (st : σ),
      ({ SessionManDB := db, secret := secret, jwt := jwt } : SessionManager σ).GetSession inToken st
        = (none, some SessionError.ErrNoAuth) := by
  intro db st
  have hparse : ∃ msg, jwt.Parse inToken
      ({ SessionManDB := db, secret := secret, jwt := jwt } : SessionManager σ).hashSecretGetter
        = Except.error msg := by
    unfold JwtLibrary.Parse
    rcases hfail with hnone | ⟨token, hsome, hbad⟩
    · rw [hnone]
      exact ⟨_, rfl⟩
    · rw [hsome]
      simp only [SessionManager.hashSecretGetter]
      cases hm : token.Method with
      | otherMethod alg => exact ⟨_, rfl⟩
      | hmac alg =>
        by_cases halg : alg = "HS256"
        · subst halg
          simp only [ne_eq, not_true_eq_false, if_false]
          rcases hbad with hmeth | hclaims | hverify
          · exact absurd hm hmeth
          · simp only [hclaims, Bool.false_and]
            exact ⟨_, rfl⟩
          · simp only [hverify, Bool.and_false]
            exact ⟨_, rfl⟩
        · simp only [ne_eq, halg, not_false_eq_true, if_true]
          exact ⟨_, rfl⟩
  obtain ⟨msg, hmsg⟩ := hparse
  unfold SessionManager.GetSession
  rw [hmsg]

/-- An instance of C23: the token `tampered` has a signature that is not the
secret, and the cache holds a session under that very token string; both tiers
up or both down, `GetSession` returns `ErrNoAuth`. -/
theorem C23_unverified_token_rejected_witness :
    (exampleSessionManager true true).GetSession "tampered"
        { exampleAuthStore with cache := [("tampered", "tampered")],
                                sessions := [("tampered", "310ca263")] }
      = (none, some SessionError.ErrNoAuth)
    ∧ (exampleSessionManager false false).GetSession "tampered" exampleAuthStore
      = (none, some SessionError.ErrNoAuth)
    ∧ (exampleSessionDB true true).GetSessionDB "tampered"
        { exampleAuthStore with cache := [("tampered", "tampered")],
                                sessions := [("tampered", "310ca263")] }
      = (some { ID := "tampered", User := exampleAuthor }, none) :=
  ⟨C23_unverified_token_rejected "secret" exampleJwt "tampered"
      (Or.inr ⟨{ Method := SigningMethod.hmac "HS256", Claims := "fresh", Signature := "forged",
                 Valid := false }, by decide, Or.inr (Or.inr (by decide))⟩)
      (exampleSessionDB true true).toDataBase
      { exampleAuthStore with cache := [("tampered", "tampered")],
                              sessions := [("tampered", "310ca263")] },
    C23_unverified_token_rejected "secret" exampleJwt "tampered"
      (Or.inr ⟨{ Method := SigningMethod.hmac "HS256", Claims := "fresh", Signature := "forged",
                 Valid := false }, by decide, Or.inr (Or.inr (by decide))⟩)
      (exampleSessionDB false false).toDataBase exampleAuthStore,
    by decide⟩

/-! ## Users (C24, C25) -/

/-- C24: over `UserDBRepo`, `Login` fails with `ErrNoUser` when the query finds
no row for the username, fails with `ErrBadPass` when a row is found and the
digest of the supplied password differs from the stored hash, and returns the
stored user (id, username, password hash) when the digest equals the stored
hash; it succeeds if and only if a row is found and the digest of the password
equals its hash. -/
theorem C24_login_outcomes {σ : Type} (r : UserDBRepo σ) (idGenerator : Nat → String)
    (sha256Hex : String → String) (username password : String) (st : σ) :
    (r.QueryRow username st = Except.error SqlError.ErrNoRows →
        ({ UserDBRepo := r.toRepository, generatorID := idGenerator, sha256Hex := sha256Hex }
            : UserMemoryRepository σ).Login username password st
          = Except.error UserError.ErrNoUser)
    ∧ (∀ id uName pass : String, r.QueryRow username st = Except.ok (id, uName, pass) →
        sha256Hex password ≠ pass →
        ({ UserDBRepo := r.toRepository, generatorID := idGenerator, sha256Hex := sha256Hex }
            : UserMemoryRepository σ).Login username password st
          = Except.error UserError.ErrBadPass)
    ∧ (∀ id uName pass : String, r.QueryRow username st = Except.ok (id, uName, pass) →
        sha256Hex password = pass →
        ({ UserDBRepo := r.toRepository, generatorID := idGenerator, sha256Hex := sha256Hex }
            : UserMemoryRepository σ).Login username password st
          = Except.ok { ID := id, Username := uName, password := pass })
    ∧ ((∃ user : User,
          ({ UserDBRepo := r.toRepository, generatorID := idGenerator, sha256Hex := sha256Hex }
              : UserMemoryRepository σ).Login username password st = Except.ok user)
        ↔ ∃ id uName pass : String,
            r.QueryRow username st = Except.ok (id, uName, pass) ∧ sha256Hex password = pass) := by
  have hrow : ∀ id uName pass : String, r.QueryRow username st = Except.ok (id, uName, pass) →
      ({ UserDBRepo := r.toRepository, generatorID := idGenerator, sha256Hex := sha256Hex }
          : UserMemoryRepository σ).Login username password st
        = if sha256Hex password ≠ pass then Except.error UserError.ErrBadPass
          else Except.ok { ID := id, Username := uName, password := pass } := by
    intro id uName pass hq
    simp only [UserMemoryRepository.Login, UserDBRepo.toRepository, UserDBRepo.FindUserByUsernameDB,
      hq, GetHashPassword]
  have herr : ∀ err : SqlError, r.QueryRow username st = Except.error err →
      ∃ e : UserError,
        ({ UserDBRepo := r.toRepository, generatorID := idGenerator, sha256Hex := sha256Hex }
            : UserMemoryRepository σ).Login username password st = Except.error e ∧
        (err = SqlError.ErrNoRows → e = UserError.ErrNoUser) := by
    intro err hq
    by_cases hno : err = SqlError.ErrNoRows
    · refine ⟨UserError.ErrNoUser, ?_, fun _ => rfl⟩
      simp only [UserMemoryRepository.Login, UserDBRepo.toRepository,
        UserDBRepo.FindUserByUsernameDB, hq, hno, if_true]
    · refine ⟨UserError.db err, ?_, fun h => absurd h hno⟩
      simp only [UserMemoryRepository.Login, UserDBRepo.toRepository,
        UserDBRepo.FindUserByUsernameDB, hq, hno, if_false]
  refine ⟨?_, ?_, ?_, ?_⟩
  · intro hq
    obtain ⟨e, he, hno⟩ := herr SqlError.ErrNoRows hq
    rw [he, hno rfl]
  · intro id uName pass hq hne
    rw [hrow id uName pass hq, if_pos hne]
  · intro id uName pass hq heq
    rw [hrow id uName pass hq, if_neg (fun h => h heq)]
  · constructor
    · rintro ⟨user, hlogin⟩
      cases hq : r.QueryRow username st with
      | error err =>
        obtain ⟨e, he, _⟩ := herr err hq
        rw [he] at hlogin
        cases hlogin
      | ok row =>
        obtain ⟨id, uName, pass⟩ := row
        refine ⟨id, uName, pass, rfl, ?_⟩
        by_contra hne
        rw [hrow id uName pass hq, if_pos hne] at hlogin
        cases hlogin
    · rintro ⟨id, uName, pass, hq, heq⟩
      exact ⟨_, by rw [hrow id uName pass hq, if_neg (fun h => h heq)]⟩

/-- The cases of the tests of C24: an unknown username gives `ErrNoUser`, a
wrong password gives `ErrBadPass`, and the right password gives the stored
user. -/
theorem C24_login_outcomes_witness :
    exampleUserRepo.Login "unknown" "qqqqqqqq" exampleAuthStore
        = Except.error UserError.ErrNoUser
    ∧ exampleUserRepo.Login "qqqqqqqq" "wrong_password" exampleAuthStore
        = Except.error UserError.ErrBadPass
    ∧ exampleUserRepo.Login "qqqqqqqq" "qqqqqqqq" exampleAuthStore
        = Except.ok { ID := "310ca263", Username := "qqqqqqqq", password := "sha256:qqqqqqqq" } :=
  ⟨(C24_login_outcomes exampleUserDB (fun _ => "generated_id") exampleDigest "unknown" "qqqqqqqq"
      exampleAuthStore).1 rfl,
    (C24_login_outcomes exampleUserDB (fun _ => "generated_id") exampleDigest "qqqqqqqq"
      "wrong_password" exampleAuthStore).2.1 "310ca263" "qqqqqqqq" "sha256:qqqqqqqq" rfl
      (by decide),
    (C24_login_outcomes exampleUserDB (fun _ => "generated_id") exampleDigest "qqqqqqqq"
      "qqqqqqqq" exampleAuthStore).2.2.1 "310ca263" "qqqqqqqq" "sha256:qqqqqqqq" rfl
      (by decide)⟩

/-- C25: over `UserDBRepo`, `Register` inserts the user whose id is the value
of the injected generator, whose username is the given one and whose password
is the digest of the given password, and returns that user when the insert
succeeds; it fails with `ErrAlreadyExist` if and only if the insert fails with
the MySQL error number 1062, and it returns any other error of the store
unchanged, with no user. -/
theorem C25_register_outcomes {σ : Type} (r : UserDBRepo σ) (idGenerator : Nat → String)
    (sha256Hex : String → String) (username password : String) (st : σ) :
    (∀ st' : σ, r.Exec (idGenerator 16) username (sha256Hex password) st = (none, st') →
        ({ UserDBRepo := r.toRepository, generatorID := idGenerator, sha256Hex := sha256Hex }
            : UserMemoryRepository σ).Register username password st
          = (Except.ok
              { ID := idGenerator 16, Username := username, password := sha256Hex password },
              st'))
    ∧ (∀ (err : SqlError) (st' : σ),
        r.Exec (idGenerator 16) username (sha256Hex password) st = (some err, st') →
        (∀ msg : String, err ≠ SqlError.MySQLError 1062 msg) →
        ({ UserDBRepo := r.toRepository, generatorID := idGenerator, sha256Hex := sha256Hex }
            : UserMemoryRepository σ).Register username password st
          = (Except.error (UserError.db err), st'))
    ∧ ((({ UserDBRepo := r.toRepository, generatorID := idGenerator, sha256Hex := sha256Hex }
            : UserMemoryRepository σ).Register username password st).1
          = Except.error UserError.ErrAlreadyExist
        ↔ ∃ msg : String,
            (r.Exec (idGenerator 16) username (sha256Hex password) st).1
              = some (SqlError.MySQLError 1062 msg)) := by
  have hcall :
      ({ UserDBRepo := r.toRepository, generatorID := idGenerator, sha256Hex := sha256Hex }
          : UserMemoryRepository σ).Register username password st
      = match r.Exec (idGenerator 16) username (sha256Hex password) st with
        | (some err, st') =>
          (Except.error (if isAlreadyExists err then UserError.ErrAlreadyExist
            else UserError.db err), st')
        | (none, st') =>
          (Except.ok { ID := idGenerator 16, Username := username, password := sha256Hex password },
            st') := by
    simp only [UserMemoryRepository.Register, GetHashPassword, UserDBRepo.toRepository,
      UserDBRepo.AddNewUserDB, newUser]
    rcases r.Exec (idGenerator 16) username (sha256Hex password) st with ⟨e, st'⟩
    cases e with
    | none => rfl
    | some err =>
      by_cases hd : isAlreadyExists err = true
      · simp only [hd, if_true]
      · simp only [hd, Bool.false_eq_true, if_false]
  have hdup : ∀ err : SqlError,
      isAlreadyExists err = true ↔ ∃ msg : String, err = SqlError.MySQLError 1062 msg := by
    intro err
    cases err with
    | ErrNoRows => simp [isAlreadyExists]
    | other msg => simp [isAlreadyExists]
    | MySQLError number message =>
      simp only [isAlreadyExists, beq_iff_eq, SqlError.MySQLError.injEq]
      constructor
      · intro h
        exact ⟨message, h, rfl⟩
      · rintro ⟨msg, h, _⟩
        exact h
  refine ⟨?_, ?_, ?_⟩
  · intro st' hexec
    rw [hcall, hexec]
  · intro err st' hexec hother
    have hno : ¬ isAlreadyExists err = true := by
      intro h
      obtain ⟨msg, hmsg⟩ := (hdup err).1 h
      exact hother msg hmsg
    rw [hcall, hexec]
    simp only [hno, Bool.false_eq_true, if_false]
  · rw [hcall]
    rcases r.Exec (idGenerator 16) username (sha256Hex password) st with ⟨e, st'⟩
    cases e with
    | none => simp
    | some err =>
      simp only [Except.error.injEq, Option.some.injEq]
      by_cases hd : isAlreadyExists err = true
      · simp only [hd, if_true, true_iff]
        exact (hdup err).1 hd
      · simp only [hd, Bool.false_eq_true, if_false]
        constructor
        · intro h
          cases h
        · intro h
          exact absurd ((hdup err).2 h) hd

/-- The cases of the tests of C25: a new username is registered with the id of
the generator and the digest of the password, and a username already in the
table gives `ErrAlreadyExist`. -/
theorem C25_register_outcomes_witness :
    (exampleUserRepo.Register "username" "password" exampleAuthStore).1
        = Except.ok { ID := "generated_id", Username := "username", password := "sha256:password" }
    ∧ (exampleUserRepo.Register "qqqqqqqq" "password" exampleAuthStore).1
        = Except.error UserError.ErrAlreadyExist :=
  ⟨congrArg Prod.fst
      ((C25_register_outcomes exampleUserDB (fun _ => "generated_id") exampleDigest "username"
        "password" exampleAuthStore).1 _ rfl),
    (C25_register_outcomes exampleUserDB (fun _ => "generated_id") exampleDigest "qqqqqqqq"
      "password" exampleAuthStore).2.2.2 ⟨"Duplicate entry", by decide⟩⟩

/-! ## Atomicity, frame, undo and lookup errors (C26 to C29) -/

theorem setAndReturn_eq_writeAndReturn {σ : Type} (p : PostBusinessLogic σ) (post : Post)
    (postID : String) (st : σ) :
    p.setAndReturn post postID st = writeAndReturn p.PostDBRepo.SetPostDB post postID st := rfl

/-- After a write that failed, a store that keeps its documents on failure
answers the lookup as before. -/
theorem writeAndReturn_error_keeps {σ : Type} (repo : PostDBRepository σ)
    (write : Post → String → σ → Option PostError × σ)
    (hkeep : ∀ (post : Post) (postID : String) (st : σ) (id : String),
      (write post postID st).1 ≠ none →
      repo.GetPostByIDDB id (write post postID st).2 = repo.GetPostByIDDB id st)
    (q : Post) (postID : String) (st : σ) (e : PostError)
    (herr : (writeAndReturn write q postID st).1 = GoResult.error e) :
    (write q postID st).1 = some e ∧
      repo.GetPostByIDDB postID (writeAndReturn write q postID st).2
        = repo.GetPostByIDDB postID st := by
  unfold writeAndReturn at herr ⊢
  rcases hw : write q postID st with ⟨e', st'⟩
  rw [hw] at herr
  cases e' with
  | none => simp at herr
  | some err =>
    simp only [GoResult.error.injEq] at herr
    subst herr
    refine ⟨rfl, ?_⟩
    have h := hkeep q postID st postID (by rw [hw]; simp)
    rw [hw] at h
    exact h

/-- The shape of `UpVote`, `DownVote` and `UnVote` on a stored post: nothing
written and the stored post returned, or one write followed by the return. -/
theorem vote_shape {σ : Type} (p : PostBusinessLogic σ) (postID userID : String) (st : σ)
    (post : Post) (hfind : p.PostDBRepo.GetPostByIDDB postID st = Except.ok post) :
    (p.UpVote postID userID st = (GoResult.ok post, st) ∨
        ∃ q, p.UpVote postID userID st = writeAndReturn p.PostDBRepo.SetPostDB q postID st)
    ∧ (p.DownVote postID userID st = (GoResult.ok post, st) ∨
        ∃ q, p.DownVote postID userID st = writeAndReturn p.PostDBRepo.SetPostDB q postID st)
    ∧ (p.UnVote postID userID st = (GoResult.ok post, st) ∨
        ∃ q, p.UnVote postID userID st = writeAndReturn p.PostDBRepo.SetPostDB q postID st) := by
  rcases firstVote_cases userID post.Votes with hno | ⟨pre, v, suf, hfirst⟩
  · refine ⟨Or.inr ?_, Or.inr ?_, Or.inl ?_⟩
    · rw [UpVote_noVote p postID userID st post hfind hno]
      exact ⟨_, setAndReturn_eq_writeAndReturn p _ postID st⟩
    · rw [DownVote_noVote p postID userID st post hfind hno]
      exact ⟨_, setAndReturn_eq_writeAndReturn p _ postID st⟩
    · exact UnVote_noVote p postID userID st post hfind hno
  · refine ⟨?_, ?_, Or.inr ?_⟩
    · rw [UpVote_firstVote p postID userID st post pre v suf hfind hfirst]
      by_cases hv : v.Value = -1
      · rw [if_pos hv]
        exact Or.inr ⟨_, setAndReturn_eq_writeAndReturn p _ postID st⟩
      · rw [if_neg hv]
        exact Or.inl rfl
    · rw [DownVote_firstVote p postID userID st post pre v suf hfind hfirst]
      by_cases hv : v.Value = 1
      · rw [if_pos hv]
        exact Or.inr ⟨_, setAndReturn_eq_writeAndReturn p _ postID st⟩
      · rw [if_neg hv]
        exact Or.inl rfl
    · rw [UnVote_firstVote p postID userID st post pre v suf hfind hfirst]
      exact ⟨_, setAndReturn_eq_writeAndReturn p _ postID st⟩

/-- The shape of `AddComment` on a stored post: one write followed by the
return. -/
theorem AddComment_shape {σ : Type} (p : PostBusinessLogic σ) (created commentBody : String)
    (author : User) (postID : String) (st : σ) (post : Post)
    (hfind : p.PostDBRepo.GetPostByIDDB postID st = Except.ok post) :
    ∃ q, p.AddComment created commentBody author postID st
      = writeAndReturn p.PostDBRepo.AddCommentDB q postID st := by
  refine ⟨{ post with
    Comments := post.Comments ++
      [{ Created := created, Author := author, Body := commentBody, ID := p.generatorID 16 }] },
    ?_⟩
  unfold PostBusinessLogic.AddComment PostBusinessLogic.findPostByID writeAndReturn
  rw [hfind]

/-- The shape of `DeleteComment` on a stored post: `ErrNoComment` or
`ErrNoAccess` with nothing written, or one write followed by the return. -/
theorem DeleteComment_shape {σ : Type} (p : PostBusinessLogic σ)
    (userID postID commentID : String) (st : σ) (post : Post)
    (hfind : p.PostDBRepo.GetPostByIDDB postID st = Except.ok post) :
    p.DeleteComment userID postID commentID st = (GoResult.error PostError.ErrNoComment, st) ∨
      p.DeleteComment userID postID commentID st = (GoResult.error PostError.ErrNoAccess, st) ∨
      ∃ q, p.DeleteComment userID postID commentID st
        = writeAndReturn p.PostDBRepo.DeleteCommentDB q postID st := by
  rcases firstComment_cases commentID post.Comments with hno | ⟨pre, c, suf, hfirst⟩
  · exact Or.inl (DeleteComment_noComment p userID postID commentID st post hfind hno)
  · rw [DeleteComment_firstComment p userID postID commentID st post pre c suf hfind hfirst]
    by_cases ha : c.Author.ID ≠ userID
    · rw [if_pos ha]
      exact Or.inr (Or.inl rfl)
    · rw [if_neg ha]
      exact Or.inr (Or.inr ⟨_, rfl⟩)

theorem refusingRepo_failedWritesKeep : FailedWritesKeep refusingRepo := by
  intro post postID st id
  exact ⟨fun _ => rfl, fun _ => rfl, fun _ => rfl⟩

/-- C26: on a stored post, each of `UpVote`, `DownVote`, `UnVote`, `AddComment`
and `DeleteComment` either writes nothing (and returns the stored post, or for
`DeleteComment` one of its two errors) or makes one write and returns the error
of that write and no post when it fails, the written post when it succeeds; so
a returned post is never one that the store refused. With a store whose failed
writes leave the documents unchanged, after an error of any of the five the
lookup still returns the stored post. -/
theorem C26_store_failure_atomic {σ : Type} (p : PostBusinessLogic σ) (postID : String) (st : σ)
    (post : Post) (hfind : p.PostDBRepo.GetPostByIDDB postID st = Except.ok post) :
    (∀ userID : String,
        (p.UpVote postID userID st = (GoResult.ok post, st) ∨
          ∃ q, p.UpVote postID userID st = writeAndReturn p.PostDBRepo.SetPostDB q postID st)
        ∧ (p.DownVote postID userID st = (GoResult.ok post, st) ∨
          ∃ q, p.DownVote postID userID st = writeAndReturn p.PostDBRepo.SetPostDB q postID st)
        ∧ (p.UnVote postID userID st = (GoResult.ok post, st) ∨
          ∃ q, p.UnVote postID userID st = writeAndReturn p.PostDBRepo.SetPostDB q postID st))
    ∧ (∀ (created commentBody : String) (author : User),
        ∃ q, p.AddComment created commentBody author postID st
          = writeAndReturn p.PostDBRepo.AddCommentDB q postID st)
    ∧ (∀ userID commentID : String,
        p.DeleteComment userID postID commentID st = (GoResult.error PostError.ErrNoComment, st) ∨
        p.DeleteComment userID postID commentID st = (GoResult.error PostError.ErrNoAccess, st) ∨
        ∃ q, p.DeleteComment userID postID commentID st
          = writeAndReturn p.PostDBRepo.DeleteCommentDB q postID st)
    ∧ (∀ (write : Post → String → σ → Option PostError × σ) (q : Post) (err : PostError),
        (write q postID st).1 = some err →
        writeAndReturn write q postID st = (GoResult.error err, (write q postID st).2))
    ∧ (FailedWritesKeep p.PostDBRepo →
        ∀ (userID commentID created commentBody : String) (author : User) (e : PostError),
          ((p.UpVote postID userID st).1 = GoResult.error e →
            p.PostDBRepo.GetPostByIDDB postID (p.UpVote postID userID st).2 = Except.ok post)
          ∧ ((p.DownVote postID userID st).1 = GoResult.error e →
            p.PostDBRepo.GetPostByIDDB postID (p.DownVote postID userID st).2 = Except.ok post)
          ∧ ((p.UnVote postID userID st).1 = GoResult.error e →
            p.PostDBRepo.GetPostByIDDB postID (p.UnVote postID userID st).2 = Except.ok post)
          ∧ ((p.AddComment created commentBody author postID st).1 = GoResult.error e →
            p.PostDBRepo.GetPostByIDDB postID (p.AddComment created commentBody author postID st).2
              = Except.ok post)
          ∧ ((p.DeleteComment userID postID commentID st).1 = GoResult.error e →
            p.PostDBRepo.GetPostByIDDB postID (p.DeleteComment userID postID commentID st).2
              = Except.ok post)) := by
  refine ⟨fun userID => vote_shape p postID userID st post hfind,
    fun created commentBody author =>
      AddComment_shape p created commentBody author postID st post hfind,
    fun userID commentID => DeleteComment_shape p userID postID commentID st post hfind, ?_, ?_⟩
  · intro write q err hw
    unfold writeAndReturn
    rcases hq : write q postID st with ⟨e', st'⟩
    rw [hq] at hw
    simp only at hw
    subst hw
    rfl
  · intro hkeep userID commentID created commentBody author e
    have kSet := fun (q : Post) (h : (writeAndReturn p.PostDBRepo.SetPostDB q postID st).1
        = GoResult.error e) =>
      (writeAndReturn_error_keeps p.PostDBRepo p.PostDBRepo.SetPostDB
        (fun a b c d => (hkeep a b c d).1) q postID st e h).2
    have kAdd := fun (q : Post) (h : (writeAndReturn p.PostDBRepo.AddCommentDB q postID st).1
        = GoResult.error e) =>
      (writeAndReturn_error_keeps p.PostDBRepo p.PostDBRepo.AddCommentDB
        (fun a b c d => (hkeep a b c d).2.1) q postID st e h).2
    have kDel := fun (q : Post) (h : (writeAndReturn p.PostDBRepo.DeleteCommentDB q postID st).1
        = GoResult.error e) =>
      (writeAndReturn_error_keeps p.PostDBRepo p.PostDBRepo.DeleteCommentDB
        (fun a b c d => (hkeep a b c d).2.2) q postID st e h).2
    obtain ⟨hup, hdown, hun⟩ := vote_shape p postID userID st post hfind
    refine ⟨?_, ?_, ?_, ?_, ?_⟩
    · intro herr
      rcases hup with h | ⟨q, h⟩
      · rw [h] at herr; simp at herr
      · rw [h] at herr ⊢
        rw [kSet q herr, hfind]
    · intro herr
      rcases hdown with h | ⟨q, h⟩
      · rw [h] at herr; simp at herr
      · rw [h] at herr ⊢
        rw [kSet q herr, hfind]
    · intro herr
      rcases hun with h | ⟨q, h⟩
      · rw [h] at herr; simp at herr
      · rw [h] at herr ⊢
        rw [kSet q herr, hfind]
    · intro herr
      obtain ⟨q, h⟩ := AddComment_shape p created commentBody author postID st post hfind
      rw [h] at herr ⊢
      rw [kAdd q herr, hfind]
    · intro herr
      rcases DeleteComment_shape p userID postID commentID st post hfind with h | h | ⟨q, h⟩
      · rw [h]; exact hfind
      · rw [h]; exact hfind
      · rw [h] at herr ⊢
        rw [kDel q herr, hfind]

/-- The case of the tests of C26: the post carries the downvote of `user_id`
and the store refuses the write; `UpVote` returns the error of the store and no
post, and the lookup still returns the stored post. -/
theorem C26_store_failure_atomic_witness :
    refusingLogic.UpVote "p" "user_id" (storeOf (examplePost [⟨-1, "user_id"⟩] 1 100))
        = (GoResult.error (PostError.other "error"), storeOf (examplePost [⟨-1, "user_id"⟩] 1 100))
    ∧ refusingLogic.PostDBRepo.GetPostByIDDB "p"
          (refusingLogic.UpVote "p" "user_id" (storeOf (examplePost [⟨-1, "user_id"⟩] 1 100))).2
        = Except.ok (examplePost [⟨-1, "user_id"⟩] 1 100) :=
  ⟨by decide,
    ((C26_store_failure_atomic refusingLogic "p" (storeOf (examplePost [⟨-1, "user_id"⟩] 1 100))
      (examplePost [⟨-1, "user_id"⟩] 1 100) rfl).2.2.2.2 refusingRepo_failedWritesKeep
      "user_id" "c" "now" "body" exampleAuthor (PostError.other "error")).1 (by decide)⟩

/-- One step of voting by `userID` changes no vote that a filter blind to the
votes of `userID` keeps. -/
theorem step_filter (userID : String) (post q : Post) (h : VoteStep userID post q)
    (keep : Vote → Bool) (hblind : ∀ v : Vote, v.UserID = userID → keep v = false) :
    q.Votes.filter keep = post.Votes.filter keep := by
  cases h with
  | unchanged => rfl
  | appended s hs hno =>
    simp only [Post.withAppendedVote, List.filter_append]
    have hnew : keep ({ Value := s, UserID := userID } : Vote) = false := hblind _ rfl
    simp [List.filter_cons, hnew]
  | flipped pre v suf s hs hfirst hopp =>
    have hold : keep v = false := hblind v hfirst.2.2
    have hnew : keep ({ v with Value := s } : Vote) = false := hblind _ hfirst.2.2
    rw [hfirst.1]
    simp only [Post.withFlippedVote, List.filter_append, List.filter_cons, hold, hnew,
      Bool.false_eq_true, if_false]
  | removed pre v suf hfirst =>
    have hold : keep v = false := hblind v hfirst.2.2
    rw [hfirst.1]
    simp [List.filter_append, List.filter_cons, hold]

/-- One step of voting changes only the votes, the score and the percentage. -/
theorem step_frame (userID : String) (post q : Post) (h : VoteStep userID post q) :
    q = { post with
          Votes := q.Votes, Score := q.Score, UpvotePercentage := q.UpvotePercentage } := by
  cases h <;> rfl

/-- C27: a successful `UpVote`, `DownVote` or `UnVote` by `u` on a stored post
leaves the votes of the other users as they were, in their values and in their
order (the list of the votes of users other than `u` is unchanged, and so is
the list of the votes of any `w ≠ u`), and leaves id, title, type, URL, text,
category, author, comments, views and creation time unchanged: only the votes
of `u`, the score and the percentage can differ. -/
theorem C27_vote_frame {σ : Type} (p : PostBusinessLogic σ) (postID userID : String) (st : σ)
    (post q : Post) (hfind : p.PostDBRepo.GetPostByIDDB postID st = Except.ok post)
    (hok : (p.UpVote postID userID st).1 = GoResult.ok q ∨
      (p.DownVote postID userID st).1 = GoResult.ok q ∨
      (p.UnVote postID userID st).1 = GoResult.ok q) :
    q.Votes.filter (fun v => v.UserID ≠ userID) = post.Votes.filter (fun v => v.UserID ≠ userID)
    ∧ (∀ w : String, w ≠ userID →
        q.Votes.filter (fun v => v.UserID = w) = post.Votes.filter (fun v => v.UserID = w))
    ∧ q.ID = post.ID ∧ q.Title = post.Title ∧ q.Type_ = post.Type_ ∧ q.URL = post.URL
    ∧ q.Text = post.Text ∧ q.Category = post.Category ∧ q.Author = post.Author
    ∧ q.Comments = post.Comments ∧ q.Views = post.Views ∧ q.Created = post.Created
    ∧ q = { post with
            Votes := q.Votes, Score := q.Score, UpvotePercentage := q.UpvotePercentage } := by
  have hstep := vote_ok_step p postID userID st post q hfind hok
  have hframe := step_frame userID post q hstep
  refine ⟨?_, ?_, ?_, ?_, ?_, ?_, ?_, ?_, ?_, ?_, ?_, ?_, hframe⟩
  · exact step_filter userID post q hstep _ (fun v hv => by simp [hv])
  · intro w hw
    exact step_filter userID post q hstep _ (fun v hv => by
      simp only [decide_eq_false_iff_not]
      rw [hv]
      exact fun h => hw h.symm)
  all_goals rw [hframe]

/-- An instance of C27: votes `[{+1,u1},{-1,u2},{+1,u3}]`; `UnVote` by `u2`
returns votes `[{+1,u1},{+1,u3}]`, the votes of the others in their order. -/
theorem C27_vote_frame_witness :
    (examplePost [⟨1, "u1"⟩, ⟨1, "u3"⟩] 2 100).Votes.filter (fun v => v.UserID ≠ "u2")
      = (examplePost [⟨1, "u1"⟩, ⟨-1, "u2"⟩, ⟨1, "u3"⟩] 1 66).Votes.filter
          (fun v => v.UserID ≠ "u2") :=
  (C27_vote_frame logLogic "p" "u2"
    (storeOf (examplePost [⟨1, "u1"⟩, ⟨-1, "u2"⟩, ⟨1, "u3"⟩] 1 66))
    (examplePost [⟨1, "u1"⟩, ⟨-1, "u2"⟩, ⟨1, "u3"⟩] 1 66)
    (examplePost [⟨1, "u1"⟩, ⟨1, "u3"⟩] 2 100) rfl (Or.inr (Or.inr (by decide)))).1

/-- `UnVote` by `userID` on the post that a fresh vote of `userID` produced
returns the post as it was before that vote. -/
theorem UnVote_after_fresh_vote {σ : Type} (p : PostBusinessLogic σ) (postID userID : String)
    (st1 : σ) (post r : Post) (s : Int) (hs : s = 1 ∨ s = -1)
    (hno : NoVoteOf userID post.Votes) (hscore : ScoreIsNetVotes post)
    (hpct : post.UpvotePercentage = floorPercentage post.Votes)
    (hfind1 : p.PostDBRepo.GetPostByIDDB postID st1 = Except.ok (post.withAppendedVote s userID))
    (hun : (p.UnVote postID userID st1).1 = GoResult.ok r) : r = post := by
  have hfirst : FirstVoteOf userID (post.withAppendedVote s userID).Votes post.Votes
      ⟨s, userID⟩ [] := ⟨rfl, ⟨hno, rfl⟩⟩
  rw [UnVote_firstVote p postID userID st1 _ post.Votes ⟨s, userID⟩ [] hfind1 hfirst] at hun
  obtain ⟨hr, _, _⟩ := setAndReturn_ok p _ r postID st1 hun
  rw [hr]
  obtain ⟨score, views, type_, title, url, author, category, text, votes, comments, created,
    pct, id⟩ := post
  simp only [ScoreIsNetVotes] at hscore
  simp only at hpct
  simp only [Post.withAppendedVote, List.append_nil, Post.mk.injEq, true_and, and_true]
  by_cases hnil : votes = []
  · subst hnil
    simp only [if_true, floorPercentage_nil]
    simp [upVoteCount, downVoteCount] at hscore
    simp [floorPercentage_nil] at hpct
    exact ⟨hscore.symm, hpct.symm⟩
  · simp only [hnil, if_false]
    refine ⟨?_, hpct.symm⟩
    rcases hs with h | h <;> subst h <;> simp

/-- C28: `UnVote` undoes a fresh vote. For a stored post whose score is upvotes
minus downvotes and whose percentage is the floor formula (`0` when there is no
vote), and a user with no vote in it: if `UpVote` (or `DownVote`) by the user
returns the post `q` and the store `st1`, where the lookup returns `q`, and
`UnVote` by the user on `st1` returns the post `r`, then `r` has the vote list,
the score and the percentage of the post before the vote; it is that post in
every field. -/
theorem C28_unvote_undoes_fresh_vote {σ : Type} (p : PostBusinessLogic σ)
    (postID userID : String) (st st1 st2 : σ) (post q r : Post)
    (hfind : p.PostDBRepo.GetPostByIDDB postID st = Except.ok post)
    (hno : NoVoteOf userID post.Votes) (hscore : ScoreIsNetVotes post)
    (hpct : post.UpvotePercentage = floorPercentage post.Votes)
    (hvote : p.UpVote postID userID st = (GoResult.ok q, st1) ∨
      p.DownVote postID userID st = (GoResult.ok q, st1))
    (hfind1 : p.PostDBRepo.GetPostByIDDB postID st1 = Except.ok q)
    (hun : p.UnVote postID userID st1 = (GoResult.ok r, st2)) :
    r.Votes = post.Votes ∧ r.Score = post.Score ∧ r.UpvotePercentage = post.UpvotePercentage
    ∧ r = post := by
  have hun1 : (p.UnVote postID userID st1).1 = GoResult.ok r := by rw [hun]
  have hr : r = post := by
    rcases hvote with hcall | hcall
    · have hok : (p.UpVote postID userID st).1 = GoResult.ok q := by rw [hcall]
      rw [UpVote_noVote p postID userID st post hfind hno] at hok
      obtain ⟨hq, _, _⟩ := setAndReturn_ok p _ q postID st hok
      rw [hq] at hfind1
      exact UnVote_after_fresh_vote p postID userID st1 post r 1 (Or.inl rfl) hno hscore hpct
        hfind1 hun1
    · have hok : (p.DownVote postID userID st).1 = GoResult.ok q := by rw [hcall]
      rw [DownVote_noVote p postID userID st post hfind hno] at hok
      obtain ⟨hq, _, _⟩ := setAndReturn_ok p _ q postID st hok
      rw [hq] at hfind1
      exact UnVote_after_fresh_vote p postID userID st1 post r (-1) (Or.inr rfl) hno hscore hpct
        hfind1 hun1
  rw [hr]
  exact ⟨rfl, rfl, rfl, rfl⟩

/-- An instance of C28 over `PostDBRepo` and the collection of the examples:
votes `[{+1,u1},{-1,u3}]`, score 0, percentage 50; `UpVote` by `u2` writes
votes `[{+1,u1},{-1,u3},{+1,u2}]`, score 1, percentage 66; `UnVote` by `u2`
then returns the votes, the score and the percentage of the start. -/
theorem C28_unvote_undoes_fresh_vote_witness :
    (exampleLogic logCollection).UpVote "654f63e3a2414a2a554b6423" "u2"
          (mongoStoreOf (examplePost [⟨1, "u1"⟩, ⟨-1, "u3"⟩] 0 50))
        = (GoResult.ok (examplePost [⟨1, "u1"⟩, ⟨-1, "u3"⟩, ⟨1, "u2"⟩] 1 66),
            [("654f63e3a2414a2a554b6423", examplePost [⟨1, "u1"⟩, ⟨-1, "u3"⟩, ⟨1, "u2"⟩] 1 66),
              ("654f63e3a2414a2a554b6423", examplePost [⟨1, "u1"⟩, ⟨-1, "u3"⟩] 0 50)])
    ∧ (exampleLogic logCollection).UnVote "654f63e3a2414a2a554b6423" "u2"
          [("654f63e3a2414a2a554b6423", examplePost [⟨1, "u1"⟩, ⟨-1, "u3"⟩, ⟨1, "u2"⟩] 1 66),
            ("654f63e3a2414a2a554b6423", examplePost [⟨1, "u1"⟩, ⟨-1, "u3"⟩] 0 50)]
        = (GoResult.ok (examplePost [⟨1, "u1"⟩, ⟨-1, "u3"⟩] 0 50),
            [("654f63e3a2414a2a554b6423", examplePost [⟨1, "u1"⟩, ⟨-1, "u3"⟩] 0 50),
              ("654f63e3a2414a2a554b6423", examplePost [⟨1, "u1"⟩, ⟨-1, "u3"⟩, ⟨1, "u2"⟩] 1 66),
              ("654f63e3a2414a2a554b6423", examplePost [⟨1, "u1"⟩, ⟨-1, "u3"⟩] 0 50)])
    ∧ ((examplePost [⟨1, "u1"⟩, ⟨-1, "u3"⟩] 0 50).Votes = [⟨1, "u1"⟩, ⟨-1, "u3"⟩]
      ∧ (examplePost [⟨1, "u1"⟩, ⟨-1, "u3"⟩] 0 50).Score = 0
      ∧ (examplePost [⟨1, "u1"⟩, ⟨-1, "u3"⟩] 0 50).UpvotePercentage = 50
      ∧ examplePost [⟨1, "u1"⟩, ⟨-1, "u3"⟩] 0 50 = examplePost [⟨1, "u1"⟩, ⟨-1, "u3"⟩] 0 50) :=
  ⟨by decide, by decide,
    C28_unvote_undoes_fresh_vote (exampleLogic logCollection) "654f63e3a2414a2a554b6423" "u2"
      (mongoStoreOf (examplePost [⟨1, "u1"⟩, ⟨-1, "u3"⟩] 0 50))
      [("654f63e3a2414a2a554b6423", examplePost [⟨1, "u1"⟩, ⟨-1, "u3"⟩, ⟨1, "u2"⟩] 1 66),
        ("654f63e3a2414a2a554b6423", examplePost [⟨1, "u1"⟩, ⟨-1, "u3"⟩] 0 50)]
      [("654f63e3a2414a2a554b6423", examplePost [⟨1, "u1"⟩, ⟨-1, "u3"⟩] 0 50),
        ("654f63e3a2414a2a554b6423", examplePost [⟨1, "u1"⟩, ⟨-1, "u3"⟩, ⟨1, "u2"⟩] 1 66),
        ("654f63e3a2414a2a554b6423", examplePost [⟨1, "u1"⟩, ⟨-1, "u3"⟩] 0 50)]
      (examplePost [⟨1, "u1"⟩, ⟨-1, "u3"⟩] 0 50)
      (examplePost [⟨1, "u1"⟩, ⟨-1, "u3"⟩, ⟨1, "u2"⟩] 1 66)
      (examplePost [⟨1, "u1"⟩, ⟨-1, "u3"⟩] 0 50)
      rfl (by decide) (by decide)
      (by simp [examplePost, floorPercentage_eq_natDiv, upVoteCount])
      (Or.inl (by decide)) rfl (by decide)⟩

theorem AddComment_lookupError {σ : Type} (p : PostBusinessLogic σ)
    (created commentBody : String) (author : User) (postID : String) (st : σ) (err : PostError)
    (hfind : p.PostDBRepo.GetPostByIDDB postID st = Except.error err) :
    p.AddComment created commentBody author postID st = (GoResult.error err, st) := by
  unfold PostBusinessLogic.AddComment PostBusinessLogic.findPostByID
  rw [hfind]

theorem GetPostByID_lookupError {σ : Type} (p : PostBusinessLogic σ) (postID : String) (st : σ)
    (err : PostError) (hfind : p.PostDBRepo.GetPostByIDDB postID st = Except.error err) :
    p.GetPostByID postID st = (GoResult.error err, st) := by
  unfold PostBusinessLogic.GetPostByID PostBusinessLogic.findPostByID
  rw [hfind]

theorem DeletePost_lookupError {σ : Type} (p : PostBusinessLogic σ) (userID postID : String)
    (st : σ) (err : PostError)
    (hfind : p.PostDBRepo.GetPostByIDDB postID st = Except.error err) :
    p.DeletePost userID postID st = ((false, some PostError.ErrNoPost), st) := by
  unfold PostBusinessLogic.DeletePost PostBusinessLogic.findPostByID
  rw [hfind]

/-- C29: the classification of a failed lookup. Whenever the lookup by id
fails, with whatever error `err` (an infrastructure error of the store
included), `DeleteComment`, `UnVote` and `DeletePost` return `ErrNoPost`, while
`UpVote`, `DownVote`, `AddComment` and `GetPostByID` return `err` itself, all
leaving the store as it is; so when `err` is not `ErrNoPost`, the operations
report different errors for the same id and the same store: `UpVote` and
`UnVote` differ, and so do `GetPostByID` and `DeleteComment`. -/
theorem C29_lookup_error_classification {σ : Type} (p : PostBusinessLogic σ)
    (postID userID commentID created commentBody : String) (author : User) (st : σ)
    (err : PostError) (hfind : p.PostDBRepo.GetPostByIDDB postID st = Except.error err) :
    p.DeleteComment userID postID commentID st = (GoResult.error PostError.ErrNoPost, st)
    ∧ p.UnVote postID userID st = (GoResult.error PostError.ErrNoPost, st)
    ∧ p.DeletePost userID postID st = ((false, some PostError.ErrNoPost), st)
    ∧ p.UpVote postID userID st = (GoResult.error err, st)
    ∧ p.DownVote postID userID st = (GoResult.error err, st)
    ∧ p.AddComment created commentBody author postID st = (GoResult.error err, st)
    ∧ p.GetPostByID postID st = (GoResult.error err, st)
    ∧ (err ≠ PostError.ErrNoPost →
        (p.UpVote postID userID st).1 ≠ (p.UnVote postID userID st).1
        ∧ (p.GetPostByID postID st).1 ≠ (p.DeleteComment userID postID commentID st).1) := by
  have hdc := DeleteComment_lookupError p userID postID commentID st err hfind
  have hun := UnVote_lookupError p postID userID st err hfind
  have hdp := DeletePost_lookupError p userID postID st err hfind
  have hup := UpVote_lookupError p postID userID st err hfind
  have hdown := DownVote_lookupError p postID userID st err hfind
  have hadd := AddComment_lookupError p created commentBody author postID st err hfind
  have hget := GetPostByID_lookupError p postID st err hfind
  refine ⟨hdc, hun, hdp, hup, hdown, hadd, hget, ?_⟩
  intro hne
  rw [hup, hun, hget, hdc]
  exact ⟨fun h => hne (by injection h), fun h => hne (by injection h)⟩

/-- An instance of C29: over the collection of the examples holding no
document, the lookup of a well-formed id fails with the error of the driver;
`UnVote` reports `ErrNoPost` and `UpVote` reports the error of the driver. -/
theorem C29_lookup_error_classification_witness :
    (exampleLogic logCollection).UnVote "654f63e3a2414a2a554b6423" "user_id" []
        = (GoResult.error PostError.ErrNoPost, [])
    ∧ (exampleLogic logCollection).UpVote "654f63e3a2414a2a554b6423" "user_id" []
        = (GoResult.error (PostError.other "mongo: no documents in result"), []) :=
  ⟨(C29_lookup_error_classification (exampleLogic logCollection) "654f63e3a2414a2a554b6423"
      "user_id" "c" "now" "body" exampleAuthor [] (PostError.other "mongo: no documents in result")
      rfl).2.1,
    (C29_lookup_error_classification (exampleLogic logCollection) "654f63e3a2414a2a554b6423"
      "user_id" "c" "now" "body" exampleAuthor [] (PostError.other "mongo: no documents in result")
      rfl).2.2.2.1⟩

/-! ## The responses of the handlers (C30) -/

theorem writePost_one {σ : Type} (ph : PostHandler σ) (w : ResponseWriter) (myPost : Post)
    (statusCode : Nat) : WritesOne w (ph.writePost w myPost statusCode) := by
  unfold PostHandler.writePost
  split <;> exact ⟨_, rfl⟩

theorem writePosts_one {σ : Type} (ph : PostHandler σ) (w : ResponseWriter) (posts : List Post) :
    WritesOne w (ph.writePosts w posts) := by
  unfold PostHandler.writePosts
  split <;> exact ⟨_, rfl⟩

theorem List_one {σ : Type} (ph : PostHandler σ) (w : ResponseWriter) (st : σ) :
    WritesOne w (ph.List w st).1 := by
  unfold PostHandler.List
  split
  · exact ⟨_, rfl⟩
  · exact writePosts_one ph w _

theorem NewPost_one {σ : Type} (ph : PostHandler σ) (w : ResponseWriter) (r : Request) (st : σ) :
    WritesOne w (ph.NewPost w r st).1 := by
  unfold PostHandler.NewPost
  repeat' split
  all_goals first | exact ⟨_, rfl⟩ | exact writePost_one ph w _ _

theorem ListByCategory_one {σ : Type} (ph : PostHandler σ) (w : ResponseWriter) (r : Request)
    (st : σ) : WritesOne w (ph.ListByCategory w r st).1 := by
  unfold PostHandler.ListByCategory
  split
  · exact ⟨_, rfl⟩
  · exact writePosts_one ph w _

theorem GetPostInfo_one {σ : Type} (ph : PostHandler σ) (w : ResponseWriter) (r : Request)
    (st : σ) : WritesOne w (ph.GetPostInfo w r st).1 := by
  unfold PostHandler.GetPostInfo
  dsimp only
  rcases ph.PostRepo.GetPostByID (r.Vars "POST_ID") st with ⟨result, st'⟩
  try dsimp only
  repeat' split
  all_goals first | exact ⟨_, rfl⟩ | exact writePost_one ph w _ _

theorem DeleteComment_one {σ : Type} (ph : PostHandler σ) (w : ResponseWriter) (r : Request)
    (st : σ) : WritesOne w (ph.DeleteComment w r st).1 := by
  unfold PostHandler.DeleteComment
  dsimp only
  split
  · exact ⟨_, rfl⟩
  rename_i currentUser _
  rcases ph.PostRepo.DeleteComment currentUser.ID (r.Vars "POST_ID") (r.Vars "COMMENT_ID") st
    with ⟨result, st'⟩
  try dsimp only
  repeat' split
  all_goals first | exact ⟨_, rfl⟩ | exact writePost_one ph w _ _

theorem MakeVote_one {σ : Type} (ph : PostHandler σ) (w : ResponseWriter) (r : Request)
    (st : σ) : WritesOne w (ph.MakeVote w r st).1 := by
  unfold PostHandler.MakeVote
  dsimp only
  split
  · exact ⟨_, rfl⟩
  rename_i curUser _
  generalize (if (r.Path.splitOn "/").getLastD "" = "upvote" then
      ph.PostRepo.UpVote (r.Vars "POST_ID") curUser.ID st
    else if (r.Path.splitOn "/").getLastD "" = "downvote" then
      ph.PostRepo.DownVote (r.Vars "POST_ID") curUser.ID st
    else ph.PostRepo.UnVote (r.Vars "POST_ID") curUser.ID st) = call
  rcases call with ⟨result, st'⟩
  try dsimp only
  repeat' split
  all_goals first | exact ⟨_, rfl⟩ | exact writePost_one ph w _ _

theorem DeletePost_one {σ : Type} (ph : PostHandler σ) (w : ResponseWriter) (r : Request)
    (st : σ) : WritesOne w (ph.DeletePost w r st).1 := by
  unfold PostHandler.DeletePost
  dsimp only
  split
  · exact ⟨_, rfl⟩
  rename_i currentUser _
  rcases ph.PostRepo.DeletePost currentUser.ID (r.Vars "POST_ID") st with ⟨⟨isDeleted, err⟩, st'⟩
  try dsimp only
  repeat' split
  all_goals exact ⟨_, rfl⟩

theorem HandleGetToken_one {σ : Type} (uh : UserHandler σ) (w : ResponseWriter) (newUser : User)
    (st : σ) : WritesOne w (uh.HandleGetToken w newUser st).1 := by
  unfold UserHandler.HandleGetToken
  repeat' split
  all_goals exact ⟨_, rfl⟩


theorem errorsIs_eq_true {α : Type} (result : Except GoError α) (target : GoError) :
    errorsIs result target = true ↔ result = Except.error target := by
  cases result with
  | error err => simp [errorsIs]
  | ok v => simp [errorsIs]

/-- The two outcomes of `checkRequestFormat`: the form, no error and no
response; or no form and one response. -/
theorem checkRequestFormat_cases (lib : Encoding) (w : ResponseWriter) (r : Request) :
    (∃ form, checkRequestFormat lib w r = ((some form, none), w)) ∨
    (∃ err, (checkRequestFormat lib w r).1 = (none, err) ∧
      WritesOne w (checkRequestFormat lib w r).2) := by
  unfold checkRequestFormat
  repeat' split
  · exact Or.inr ⟨_, rfl, _, rfl⟩
  · exact Or.inr ⟨_, rfl, _, rfl⟩
  · exact Or.inr ⟨_, rfl, _, rfl⟩
  · exact Or.inr ⟨_, rfl, _, rfl⟩
  · exact Or.inl ⟨_, rfl⟩

/-- The end of `Login` and of `Register` after a well-formed request writes one
response. -/
theorem Register_one {σ : Type} (uh : UserHandler σ) (w : ResponseWriter) (r : Request)
    (st : σ) : WritesOne w (uh.Register w r st).1 := by
  unfold UserHandler.Register
  rcases checkRequestFormat_cases uh.lib w r with ⟨form, hform⟩ | ⟨err, herr, hone⟩
  · rw [hform]
    dsimp only
    rcases uh.UserRepo.Register form.Username form.Password st with ⟨result, st'⟩
    try dsimp only
    repeat' split
    all_goals first | exact ⟨_, rfl⟩ | exact HandleGetToken_one uh w _ _
  · rcases hcall : checkRequestFormat uh.lib w r with ⟨⟨form, e⟩, w1⟩
    rw [hcall] at herr hone
    simp only [Prod.mk.injEq] at herr
    obtain ⟨hf, he⟩ := herr
    subst hf
    exact hone

/-- The responses of `Login`: one after a well-formed request; after a request
that `checkRequestFormat` refuses, the response of `checkRequestFormat` and
then the response of status 401. -/
theorem Login_responses {σ : Type} (uh : UserHandler σ) (w : ResponseWriter) (r : Request)
    (st : σ) :
    ((∃ form, checkRequestFormat uh.lib w r = ((some form, none), w)) ∧
      WritesOne w (uh.Login w r st).1) ∨
    (∃ err first, (checkRequestFormat uh.lib w r).1 = (none, err) ∧
      (checkRequestFormat uh.lib w r).2 = w ++ [first] ∧
      (uh.Login w r st).1
        = w ++ [first, { statusCode := StatusUnauthorized
                         dataJSON := message ("error in login request: " ++ sprintError err) }]) := by
  unfold UserHandler.Login
  rcases checkRequestFormat_cases uh.lib w r with ⟨form, hform⟩ | ⟨err, herr, first, hone⟩
  · left
    refine ⟨⟨form, hform⟩, ?_⟩
    rw [hform]
    dsimp only
    rcases uh.UserRepo.Login form.Username form.Password st with ⟨result, st'⟩
    try dsimp only
    repeat' split
    all_goals first | exact ⟨_, rfl⟩ | exact HandleGetToken_one uh w _ _
  · right
    rcases hcall : checkRequestFormat uh.lib w r with ⟨⟨form, e⟩, w1⟩
    rw [hcall] at herr hone
    simp only [Prod.mk.injEq] at herr
    obtain ⟨hf, he⟩ := herr
    subst hf
    subst he
    simp only at hone
    subst hone
    refine ⟨e, first, rfl, rfl, ?_⟩
    simp [WriteResponse]

/-- The responses of `NewComment`: one on every path but that of `ErrNoPost`
from `AddComment`, where it writes the response of status 404 and then the
response of status 500. -/
theorem NewComment_responses {σ : Type} (ph : PostHandler σ) (w : ResponseWriter)
    (r : Request) (st : σ) :
    WritesOne w (ph.NewComment w r st).1 ∨
    (∃ author rBody form, r.ContextUser = some author ∧ r.Body = Except.ok rBody ∧
      ph.lib.UnmarshalCommentForm rBody = Except.ok form ∧
      (ph.PostRepo.AddComment form.Body author (r.Vars "POST_ID") st).1
        = Except.error GoError.ErrNoPost ∧
      (ph.NewComment w r st).1
        = w ++ [{ statusCode := StatusNotFound
                  dataJSON := message ("there is no post with id " ++ r.Vars "POST_ID") },
                { statusCode := StatusInternalServerError
                  dataJSON := message ("error in adding new comment: no post found") }]) := by
  rcases hctx : r.ContextUser with _ | author
  · left
    unfold PostHandler.NewComment
    simp only [hctx]
    exact ⟨_, rfl⟩
  rcases hbody : r.Body with err | rBody
  · left
    unfold PostHandler.NewComment
    simp only [hctx, hbody]
    exact ⟨_, rfl⟩
  rcases hform : ph.lib.UnmarshalCommentForm rBody with err | form
  · left
    unfold PostHandler.NewComment
    simp only [hctx, hbody, hform]
    exact ⟨_, rfl⟩
  by_cases hval : (form.Validate ph.lib).length ≠ 0
  · left
    rcases hjson : ph.lib.MarshalStrings (form.Validate ph.lib) with err | errorsJSON
    · unfold PostHandler.NewComment
      simp only [hctx, hbody, hform, hjson]
      rw [if_pos hval]
      exact ⟨_, rfl⟩
    · unfold PostHandler.NewComment
      simp only [hctx, hbody, hform, hjson]
      rw [if_pos hval]
      exact ⟨_, rfl⟩
  rcases hadd : ph.PostRepo.AddComment form.Body author (r.Vars "POST_ID") st with ⟨result, st'⟩
  by_cases his : errorsIs result GoError.ErrNoPost = true
  · right
    have hres := (errorsIs_eq_true result GoError.ErrNoPost).1 his
    subst hres
    refine ⟨author, rBody, form, rfl, rfl, hform, by rw [hadd], ?_⟩
    unfold PostHandler.NewComment
    simp only [hctx, hbody, hform, hadd]
    rw [if_neg hval]
    simp [errorsIs, WriteResponse, GoError.Error]
  · left
    unfold PostHandler.NewComment
    simp only [hctx, hbody, hform, hadd]
    rw [if_neg hval]
    simp only [his, if_false, Bool.false_eq_true]
    cases result with
    | error err => exact ⟨_, rfl⟩
    | ok myPost => exact writePost_one ph w _ _

/-- The responses of `ListByUserLogin`: one on every path but that of
`ErrNoUser` from the repository, where it writes the response of status 404
and then the response of status 500. -/
theorem ListByUserLogin_responses {σ : Type} (ph : PostHandler σ) (w : ResponseWriter)
    (r : Request) (st : σ) :
    WritesOne w (ph.ListByUserLogin w r st).1 ∨
    ((ph.PostRepo.GetPostsByUserID (r.Vars "USER_LOGIN") st).1 = Except.error GoError.ErrNoUser ∧
      (ph.ListByUserLogin w r st).1
        = w ++ [{ statusCode := StatusNotFound
                  dataJSON := message ("there is no user with username " ++ r.Vars "USER_LOGIN") },
                { statusCode := StatusInternalServerError
                  dataJSON := message ("can not get posts: no user with such username") }]) := by
  rcases hget : ph.PostRepo.GetPostsByUserID (r.Vars "USER_LOGIN") st with ⟨result, st'⟩
  unfold PostHandler.ListByUserLogin
  simp only [hget]
  by_cases his : errorsIs result GoError.ErrNoUser = true
  · right
    have hres := (errorsIs_eq_true result GoError.ErrNoUser).1 his
    subst hres
    refine ⟨rfl, ?_⟩
    simp [errorsIs, WriteResponse, GoError.Error]
  · left
    simp only [his, if_false, Bool.false_eq_true]
    split
    · exact ⟨_, rfl⟩
    · exact writePosts_one ph w _

/-- C30, at the inputs the claim names: on the request of the tests for a
comment on an absent post, where `AddComment` returns `ErrNoPost` (as the
business logic does for the id `not_exist_post`), `NewComment` writes two
responses, of status 404 and then 500; `ListByUserLogin` writes the responses
404 and 500 when the repository returns `ErrNoUser`; `Login` writes the
response of `checkRequestFormat` (400 for an unreadable body, 500 for a
malformed one, 422 for a form that fails the validation) and then a response of
status 401. On the same inputs `Register` and `GetPostInfo`, which return after
the first response, write one. -/
theorem C30_handlers_write_two_responses :
    (examplePostHandler.NewComment [] exampleCommentRequest ()).1
        = [{ statusCode := 404, dataJSON := message "there is no post with id not_exist_post" },
            { statusCode := 500, dataJSON := message "error in adding new comment: no post found" }]
    ∧ (exampleLogic logCollection).AddComment "2023-11-11T14:22:11.695Z" "some comment"
          exampleAuthor "not_exist_post" []
        = (GoResult.error PostError.ErrNoPost, [])
    ∧ (examplePostHandler.ListByUserLogin [] exampleUserLoginRequest ()).1
        = [{ statusCode := 404, dataJSON := message "there is no user with username absent_user" },
            { statusCode := 500, dataJSON := message "can not get posts: no user with such username" }]
    ∧ (exampleUserHandler.Login [] (exampleLoginRequest (Except.error "unexpected EOF")) ()).1
        = [{ statusCode := 400,
             dataJSON := message "error in reading request body: unexpected EOF" },
            { statusCode := 401, dataJSON := message "error in login request: unexpected EOF" }]
    ∧ (exampleUserHandler.Login [] (exampleLoginRequest (Except.ok "\x7b")) ()).1
        = [{ statusCode := 500,
             dataJSON := message "error in decoding user: unexpected end of JSON input" },
            { statusCode := 401,
              dataJSON := message "error in login request: unexpected end of JSON input" }]
    ∧ (exampleUserHandler.Login []
          (exampleLoginRequest
            (Except.ok "\x7b\"username\":\"qqqqqqqq\",\"password\":\"short\"\x7d")) ()).1
        = [{ statusCode := 422, dataJSON := "password: length(8|255)" },
            { statusCode := 401, dataJSON := message "error in login request: %!s(<nil>)" }]
    ∧ (exampleUserHandler.Register []
          (exampleLoginRequest
            (Except.ok "\x7b\"username\":\"qqqqqqqq\",\"password\":\"short\"\x7d")) ()).1
        = [{ statusCode := 422, dataJSON := "password: length(8|255)" }]
    ∧ (examplePostHandler.GetPostInfo [] exampleCommentRequest ()).1
        = [{ statusCode := 404, dataJSON := message "there is no post with id not_exist_post" }] := by
  refine ⟨by decide, by decide, by decide, by decide, by decide, by decide, by decide, by decide⟩

end Reddit
